import Mathlib

/-!
# pic18usb: buffer descriptor manager and device core

A shallow embedding of `usb_bd.c` and of the part of `usb.c` that drives it. The
results are about buffer allocation, handle encoding and ownership hand-off.

Conventions of the embedding.

* The target is the PIC18 (MPLAB C18): `int` and `unsigned int` are 16 bits wide,
  data pointers are 16 bits wide. A pointer is the natural number of its address,
  the null pointer is `0`.
* `char` arguments that carry an endpoint number or a BD handle are modelled by
  natural numbers.
* The bit fields of `usbBdStat` are the fields of a structure; the SIE view of the
  same byte (`PID`) is a function of the CPU-mode fields it overlaps.
* The globals `usbBdt`, `endOfAllocatedBuffer` and `highestSetupBD` form the record
  `BdState`, which every operation receives and returns.
* Loops become recursion on a `fuel` argument: `none` means the fuel ran out.
* `printf` calls write to the debug log only and are left out.
-/

namespace Pic18Usb

/-! ## usb.h -/

/-- Defined by USB spec (`USB_MAX_ENDPOINTS`). -/
def USB_MAX_ENDPOINTS : Nat := 16

/-- Result codes of the stack (`usbError`). -/
inductive usbError where
  | USB_SUCCESS
  | USB_EBADPARM
  | USB_EBADDATA
  | USB_ENOMEM
  | USB_EOVERFLOW
  | USB_EACCESS
  | USB_ENOIMP
  | USB_EBADSTATE
  | USB_ERROR
  deriving DecidableEq, Repr

/-- Events of the driver (`usbEvent`); `USB_EV_MAX` is the number of events. -/
inductive usbEvent where
  | USB_EV_NONE
  | USB_EV_ATTACHED
  | USB_EV_DETACHED
  | USB_EV_RESET
  | USB_EV_TRANSACTION
  deriving DecidableEq, Repr

/-- Number of events, the enumerator `USB_EV_MAX`. -/
def USB_EV_MAX : Nat := 5

/-- Number of callback slots, the enumerator `USB_CB_MAX`. -/
def USB_CB_MAX : Nat := 2

/-- Endpoint direction (`usbEndpointDirection`): `USB_ED_OUT = 0`, `USB_ED_IN = 1`. -/
inductive usbEndpointDirection where
  | USB_ED_OUT
  | USB_ED_IN
  deriving DecidableEq, Repr

open usbError usbEvent usbEndpointDirection

/-- Numeric value of the direction enumerator. -/
def usbEndpointDirection.toNat : usbEndpointDirection → Nat
  | USB_ED_OUT => 0
  | USB_ED_IN => 1

/-! ## 16-bit arithmetic of the target -/

/-- Value of an integer stored in an `unsigned int` (16 bits). -/
def u16 (x : Int) : Nat := (x % 65536).toNat

/-- Value of an integer stored in an `int` (16 bits, two's complement). -/
def i16 (x : Int) : Int := (x + 32768) % 65536 - 32768

/-- Difference of two data pointers, an `int`. -/
def ptrDiff (a b : Nat) : Int := i16 ((a : Int) - (b : Int))

/-! ## usb_bd.c: data -/

/-- Max number of buffer descriptors. -/
def USB_CFG_NUM_BDS : Nat := 32

/-- Start of the USB endpoint memory buffer, past the BDT. -/
def USB_CFG_ENDPOINT_BUFFER_ORIGIN : Nat := 0x500

/-- USB endpoint memory buffer size. -/
def USB_CFG_ENDPOINT_BUFFER_SIZE : Nat := 0x300

/-- Buffer Descriptor Status register (BDnSTAT), CPU mode bit fields. -/
structure usbBdStat where
  BC : Nat
  BSTALL : Bool
  DTSEN : Bool
  INCDIS : Bool
  KEN : Bool
  DTS : Bool
  UOWN : Bool
  deriving DecidableEq, Repr

/-- SIE mode view of the status byte: the 4-bit `PID` field lies over
`BSTALL`, `DTSEN`, `INCDIS` and `KEN` (bits 2 to 5). -/
def usbBdStat.PID (st : usbBdStat) : Nat :=
  st.BSTALL.toNat + 2 * st.DTSEN.toNat + 4 * st.INCDIS.toNat + 8 * st.KEN.toNat

/-- Buffer Descriptor (BD) structure. -/
structure usbBd where
  stat : usbBdStat
  cnt : Nat
  addr : Nat
  deriving DecidableEq, Repr

/-- A BD whose four bytes are zero, as `memset` leaves it. -/
def usbBd.zero : usbBd :=
  { stat := { BC := 0, BSTALL := false, DTSEN := false, INCDIS := false,
              KEN := false, DTS := false, UOWN := false },
    cnt := 0, addr := 0 }

/-- The globals of `usb_bd.c`. -/
structure BdState where
  usbBdt : Nat → usbBd
  endOfAllocatedBuffer : Nat
  highestSetupBD : Nat

/-- Store `bd` at index `handle` of the BD table. -/
def BdState.setBd (s : BdState) (handle : Nat) (bd : usbBd) : BdState :=
  { s with usbBdt := fun h => if h = handle then bd else s.usbBdt h }

/-- A memory content in which every BD and both variables are zero. -/
def BdState.blank : BdState :=
  { usbBdt := fun _ => usbBd.zero, endOfAllocatedBuffer := 0, highestSetupBD := 0 }

/-! ## usb_bd.c: operations -/

/-- `usbBdGetHandleForEndpoint`: `handle` is the content of `*handle` before the call,
the result carries its content after the call. -/
def usbBdGetHandleForEndpoint (endpoint : Nat) (dir : usbEndpointDirection)
    (handle : Nat) : usbError × Nat :=
  if endpoint ≥ USB_MAX_ENDPOINTS then (USB_EBADPARM, handle)
  else
    let endpointIndex := endpoint * 2
    let endpointIndex := if USB_ED_IN = dir then endpointIndex + 1 else endpointIndex
    (USB_SUCCESS, endpointIndex)

/-- Extract the endpoint number from the USTAT register (`USTAT_EP`). -/
def USTAT_EP (USTAT : Nat) : Nat := (USTAT &&& 0x78) >>> 3

/-- Modelled from the spec: the bit field `USTATbits.DIR` is declared in the device
header `p18f2550.h`, which is not among the sources. It is the DIR bit of USTAT, bit 2,
just below the endpoint number in bits 6..3. -/
def USTAT_DIR (USTAT : Nat) : Nat := (USTAT >>> 2) &&& 1

/-- `usbBdGetHandleForTransaction`, reading the register value `USTAT`. -/
def usbBdGetHandleForTransaction (USTAT : Nat) : Nat :=
  let ep := USTAT_EP USTAT
  ep * 2 + USTAT_DIR USTAT

/-- `usbBdInit`: `memset` clears the 32 descriptors of the table. -/
def usbBdInit (s : BdState) : BdState :=
  { usbBdt := fun h => if h < USB_CFG_NUM_BDS then usbBd.zero else s.usbBdt h,
    endOfAllocatedBuffer := USB_CFG_ENDPOINT_BUFFER_ORIGIN,
    highestSetupBD := 0 }

/-- The `while` loop of `usbBdGetSize`. The body never changes `loopHandle`: the
recursive call passes it on as it is. -/
def usbBdGetSizeLoop (s : BdState) (handle loopHandle : Nat) (size : Int) :
    Nat → Option Int
  | 0 => none
  | fuel + 1 =>
    if loopHandle ≤ s.highestSetupBD then
      if 0 ≠ (s.usbBdt loopHandle).addr then
        some (ptrDiff (s.usbBdt loopHandle).addr (s.usbBdt handle).addr)
      else
        usbBdGetSizeLoop s handle loopHandle size fuel
    else some size

/-- `usbBdGetSize`. -/
def usbBdGetSize (fuel : Nat) (s : BdState) (handle : Nat) : Option Int :=
  let size := ptrDiff s.endOfAllocatedBuffer (s.usbBdt handle).addr
  let loopHandle := handle + 1
  usbBdGetSizeLoop s handle loopHandle size fuel

/-- The store `cnt = size & 0xFF`. -/
def BdState.setCnt (s : BdState) (handle : Nat) (size : Int) : BdState :=
  s.setBd handle { s.usbBdt handle with cnt := (size % 256).toNat }

/-- The store `stat.BC = size >> 8` into the 2-bit field. -/
def BdState.setBC (s : BdState) (handle : Nat) (size : Int) : BdState :=
  s.setBd handle
    { s.usbBdt handle with
      stat := { (s.usbBdt handle).stat with BC := (size / 256 % 4).toNat } }

/-- The store `stat.BSTALL = v`. -/
def BdState.setBSTALL (s : BdState) (handle : Nat) (v : Bool) : BdState :=
  s.setBd handle
    { s.usbBdt handle with stat := { (s.usbBdt handle).stat with BSTALL := v } }

/-- The store `stat.UOWN = v`. -/
def BdState.setUOWN (s : BdState) (handle : Nat) (v : Bool) : BdState :=
  s.setBd handle
    { s.usbBdt handle with stat := { (s.usbBdt handle).stat with UOWN := v } }

/-- `usbBdResetSize`. -/
def usbBdResetSize (fuel : Nat) (s : BdState) (handle : Nat) : Option BdState :=
  match usbBdGetSize fuel s handle with
  | none => none
  | some size =>
    let s := s.setCnt handle size
    let s := s.setBC handle size
    some s

/-- `usbBdSetup`. -/
def usbBdSetup (fuel : Nat) (s : BdState) (endpoint : Nat) (dir : usbEndpointDirection)
    (size : Nat) : Option (usbError × BdState) :=
  if endpoint ≥ USB_MAX_ENDPOINTS ∨ 0 = size then some (USB_EBADPARM, s)
  else
    -- the local `handle` is written by the call: `endpoint` is below 16 here
    let handle := (usbBdGetHandleForEndpoint endpoint dir 0).2
    if handle < s.highestSetupBD then some (USB_ERROR, s)
    else if 0 ≠ (s.usbBdt handle).addr then some (USB_ERROR, s)
    else
      let allocatedBufferSize : Nat :=
        u16 (ptrDiff s.endOfAllocatedBuffer USB_CFG_ENDPOINT_BUFFER_ORIGIN)
      if u16 ((USB_CFG_ENDPOINT_BUFFER_SIZE : Int) - (allocatedBufferSize : Int)) < size then
        some (USB_ENOMEM, s)
      else
        let s1 := s.setBd handle { s.usbBdt handle with addr := s.endOfAllocatedBuffer }
        let s2 := { s1 with
          endOfAllocatedBuffer := (s1.endOfAllocatedBuffer + size) % 65536 }
        let s3 := { s2 with highestSetupBD := handle }
        match usbBdResetSize fuel s3 handle with
        | none => none
        | some s4 => some (USB_SUCCESS, s4)

/-- `usbBdGetPID`: `pid` is the content of `*pid` before the call. -/
def usbBdGetPID (s : BdState) (bdHandle : Nat) (pid : Nat) : usbError × Nat :=
  if bdHandle ≥ USB_CFG_NUM_BDS then (USB_EBADPARM, pid)
  else if (s.usbBdt bdHandle).stat.UOWN = true then (USB_EACCESS, pid)
  else (USB_SUCCESS, (s.usbBdt bdHandle).stat.PID)

/-- `usbBdRelease`. -/
def usbBdRelease (s : BdState) (handle : Nat) : usbError × BdState :=
  (USB_SUCCESS, s.setUOWN handle true)

/-- `usbBdClaim`. -/
def usbBdClaim (s : BdState) (handle : Nat) : usbError × BdState :=
  if handle ≥ USB_CFG_NUM_BDS then (USB_EBADPARM, s)
  else (USB_SUCCESS, s.setUOWN handle false)

/-- `usbBdGetDirection`. -/
def usbBdGetDirection (handle : Nat) : usbEndpointDirection :=
  if 0 = handle &&& 1 then USB_ED_OUT else USB_ED_IN

/-- `usbBdGetEndpoint`. -/
def usbBdGetEndpoint (handle : Nat) : Nat := handle >>> 1

/-- Result of `usbBdGetBuf`: the return code, the contents of `*buf` and `*size` after
the call, and the globals after the call. -/
structure GetBufResult where
  ret : usbError
  buf : Nat
  size : Int
  state : BdState

/-- `usbBdGetBuf`: `buf` and `size` are the contents of `*buf` and `*size` before the
call. -/
def usbBdGetBuf (fuel : Nat) (s : BdState) (handle : Nat) (buf : Nat) (size : Int) :
    Option GetBufResult :=
  if handle ≥ USB_CFG_NUM_BDS then some ⟨USB_EBADPARM, buf, size, s⟩
  else if (s.usbBdt handle).stat.UOWN = true then some ⟨USB_EACCESS, buf, size, s⟩
  else if 0 = (s.usbBdt handle).addr then some ⟨USB_ERROR, buf, size, s⟩
  else
    let buf := (s.usbBdt handle).addr
    if USB_ED_OUT = usbBdGetDirection handle then
      let bc : Int := (s.usbBdt handle).stat.BC
      some ⟨USB_SUCCESS, buf, i16 ((s.usbBdt handle).cnt + bc * 256), s⟩
    else
      match usbBdGetSize fuel s handle with
      | none => none
      | some sz => some ⟨USB_SUCCESS, buf, sz, s⟩

/-- `usbBdGetSent`: `size` is the content of `*size` before the call. -/
def usbBdGetSent (s : BdState) (handle : Nat) (size : Int) : usbError × Int :=
  if handle ≥ USB_CFG_NUM_BDS ∨ USB_ED_IN ≠ usbBdGetDirection handle then
    (USB_EBADPARM, size)
  else if (s.usbBdt handle).stat.UOWN = true then (USB_EACCESS, size)
  else (USB_SUCCESS, i16 (((s.usbBdt handle).stat.BC : Int) * 256 + (s.usbBdt handle).cnt))

/-- `usbBdStall`. -/
def usbBdStall (fuel : Nat) (s : BdState) (handle : Nat) : Option (usbError × BdState) :=
  if handle ≥ USB_CFG_NUM_BDS then some (USB_EBADPARM, s)
  else if (s.usbBdt handle).stat.UOWN = true then some (USB_EACCESS, s)
  else
    let s := s.setBSTALL handle true
    match usbBdResetSize fuel s handle with
    | none => none
    | some s => some (usbBdRelease s handle)

/-- `usbBdReceive`. -/
def usbBdReceive (fuel : Nat) (s : BdState) (handle : Nat) : Option (usbError × BdState) :=
  if handle ≥ USB_CFG_NUM_BDS ∨ USB_ED_OUT ≠ usbBdGetDirection handle then
    some (USB_EBADPARM, s)
  else if (s.usbBdt handle).stat.UOWN = true then some (USB_EACCESS, s)
  else
    match usbBdGetSize fuel s handle with
    | none => none
    | some size =>
      let s := s.setCnt handle size
      let s := s.setBC handle size
      let s := s.setBSTALL handle false
      let s := (usbBdRelease s handle).2
      some (USB_SUCCESS, s)

/-- `usbBdSend`: `size` is an `int`. -/
def usbBdSend (fuel : Nat) (s : BdState) (handle : Nat) (size : Int) :
    Option (usbError × BdState) :=
  if handle ≥ USB_CFG_NUM_BDS ∨ USB_ED_IN ≠ usbBdGetDirection handle then
    some (USB_EBADPARM, s)
  else if (s.usbBdt handle).stat.UOWN = true then some (USB_EACCESS, s)
  else
    match usbBdGetSize fuel s handle with
    | none => none
    | some epSize =>
      if epSize < size then some (USB_EBADPARM, s)
      else
        let s := s.setCnt handle size
        let s := s.setBC handle size
        let s := s.setBSTALL handle false
        let s := (usbBdRelease s handle).2
        some (USB_SUCCESS, s)

/-! ## usb.c: device core -/

/-- Number of endpoints whose control register the reset handler writes. -/
def USB_CFG_NUM_ENDPOINTS : Nat := 16

/-- Size of each of the two EP0 buffers (8 bytes min, 64 bytes max). -/
def USB_CFG_EP0_BUFFER_SIZE : Nat := 8

/-- Device states (the enumeration `usbState` of `usb.c`). -/
inductive usbState where
  | USB_ST_UNATTACHED
  | USB_ST_ATTACHED
  | USB_ST_DEFAULT
  | USB_ST_ADDRESSED
  | USB_ST_CONFIGURED
  deriving DecidableEq, Repr

/-- The functions that `eventHandlers` can point to. -/
inductive usbEventHandler where
  | usbNop
  | usbAttachHandler
  | usbDetachHandler
  | usbResetHandler
  | usbTransactionHandler
  deriving DecidableEq, Repr

/-- Numeric value of the event enumerator, the index into `eventHandlers`. -/
def usbEvent.toNat : usbEvent → Nat
  | USB_EV_NONE => 0
  | USB_EV_ATTACHED => 1
  | USB_EV_DETACHED => 2
  | USB_EV_RESET => 3
  | USB_EV_TRANSACTION => 4

/-- Clear bit `bit` of a register value. -/
def clearBit (r bit : Nat) : Nat := if r.testBit bit then r - 2 ^ bit else r

/-- Modelled from the spec: bit position of `UCONbits.SUSPND`, declared in the device
header `p18f2550.h`, which is not among the sources. -/
def UCON_SUSPND : Nat := 1

/-- Modelled from the spec: bit position of `UCONbits.USBEN`, declared in the device
header `p18f2550.h`, which is not among the sources. -/
def UCON_USBEN : Nat := 3

/-- The SIE registers, the variables of `usb.c` and the globals of `usb_bd.c`.
A callback is the value of its function pointer, `0` for none. -/
structure UsbDriver where
  UCON : Nat
  UCFG : Nat
  UIE : Nat
  UEIE : Nat
  UIR : Nat
  UEIR : Nat
  UADDR : Nat
  USTAT : Nat
  UEP : Nat → Nat
  state : usbState
  eventBuffer : usbEvent
  eventHandlers : Nat → usbEventHandler
  userCallbacks : Nat → Nat
  bd : BdState

/-- A driver memory in which everything is zero. -/
def UsbDriver.blank : UsbDriver :=
  { UCON := 0, UCFG := 0, UIE := 0, UEIE := 0, UIR := 0, UEIR := 0, UADDR := 0,
    USTAT := 0, UEP := fun _ => 0, state := usbState.USB_ST_UNATTACHED,
    eventBuffer := USB_EV_NONE, eventHandlers := fun _ => usbEventHandler.usbNop,
    userCallbacks := fun _ => 0, bd := BdState.blank }

/-- Store `f` at index `ev` of `eventHandlers`. -/
def UsbDriver.setHandler (d : UsbDriver) (ev : Nat) (f : usbEventHandler) : UsbDriver :=
  { d with eventHandlers := fun i => if i = ev then f else d.eventHandlers i }

/-- Store `cb` at index `i` of `userCallbacks`. -/
def UsbDriver.setCallback (d : UsbDriver) (i : Nat) (cb : Nat) : UsbDriver :=
  { d with userCallbacks := fun j => if j = i then cb else d.userCallbacks j }

/-- `usbInitHardware`. -/
def usbInitHardware (d : UsbDriver) : UsbDriver :=
  let d := { d with UCON := 0 }
  let d := { d with UCFG := 0x14 }
  let d := { d with UIE := 0 }
  { d with UEIE := 0 }

/-- `usbDetachHandler`. -/
def usbDetachHandler (d : UsbDriver) : usbError × UsbDriver :=
  let d := { d with UCON := clearBit d.UCON UCON_SUSPND }
  let d := { d with UCON := clearBit d.UCON UCON_USBEN }
  let d := { d with state := usbState.USB_ST_UNATTACHED }
  let d := d.setHandler USB_EV_ATTACHED.toNat usbEventHandler.usbAttachHandler
  let d := d.setHandler USB_EV_DETACHED.toNat usbEventHandler.usbNop
  let d := d.setHandler USB_EV_RESET.toNat usbEventHandler.usbNop
  let d := d.setHandler USB_EV_TRANSACTION.toNat usbEventHandler.usbNop
  (USB_SUCCESS, d)

/-- `usbInit`. A call of `usbBdSetup` that runs out of fuel ends the run (`bind`). -/
def usbInit (fuel : Nat) (d : UsbDriver) : Option (usbError × UsbDriver) :=
  let d := usbInitHardware d
  let d := { d with eventBuffer := USB_EV_NONE }
  let d := (List.range USB_EV_MAX).foldl
    (fun d eventIndex => d.setHandler eventIndex usbEventHandler.usbNop) d
  let d := (List.range USB_CB_MAX).foldl (fun d cbIndex => d.setCallback cbIndex 0) d
  let d := { d with bd := usbBdInit d.bd }
  (usbBdSetup fuel d.bd 0 USB_ED_OUT USB_CFG_EP0_BUFFER_SIZE).bind fun r =>
    let ret := r.1
    let d := { d with bd := r.2 }
    if USB_SUCCESS ≠ ret then some (ret, d)
    else
      (usbBdSetup fuel d.bd 0 USB_ED_IN USB_CFG_EP0_BUFFER_SIZE).bind fun r =>
        let ret := r.1
        let d := { d with bd := r.2 }
        if USB_SUCCESS ≠ ret then some (ret, d)
        else
          let d := (usbDetachHandler d).2
          some (ret, d)

/-! ## Sequences of `usbBdSetup` calls -/

/-- One call `usbBdSetup(endpoint, dir, size)`. -/
structure SetupCall where
  endpoint : Nat
  dir : usbEndpointDirection
  size : Nat
  deriving DecidableEq, Repr

/-- Run one call and record it, as the pair of its handle and its requested size, at
the end of the log when it returns `USB_SUCCESS`. -/
def setupStep (fuel : Nat) (acc : BdState × List (Nat × Nat)) (c : SetupCall) :
    Option (BdState × List (Nat × Nat)) :=
  match usbBdSetup fuel acc.1 c.endpoint c.dir c.size with
  | none => none
  | some (ret, s) =>
    if ret = USB_SUCCESS then
      some (s, acc.2 ++ [((usbBdGetHandleForEndpoint c.endpoint c.dir 0).2, c.size)])
    else some (s, acc.2)

/-- Run a sequence of `usbBdSetup` calls from a state and a log. -/
def runSetups (fuel : Nat) :
    BdState × List (Nat × Nat) → List SetupCall → Option (BdState × List (Nat × Nat))
  | acc, [] => some acc
  | acc, c :: cs =>
    match setupStep fuel acc c with
    | none => none
    | some acc => runSetups fuel acc cs

/-- The address of BD `h` in state `s`. -/
def BdState.addrOf (s : BdState) (h : Nat) : Nat := (s.usbBdt h).addr

/-- The 10-bit byte count of BD `h`: low 8 bits in `cnt`, high 2 bits in `stat.BC`. -/
def BdState.count (s : BdState) (h : Nat) : Nat :=
  (s.usbBdt h).cnt + 256 * (s.usbBdt h).stat.BC

/-! ## usb_bd.c: data toggle -/

/-- `usbBdSyncMode`: `USB_DTS_ON = 1`, `USB_DTS_OFF = 0`. -/
inductive usbBdSyncMode where
  | USB_DTS_ON
  | USB_DTS_OFF
  deriving DecidableEq, Repr

/-- `usbBdSyncVal`: `USB_DTS_DATA0 = 0`, `USB_DTS_DATA1 = 1`. -/
inductive usbBdSyncVal where
  | USB_DTS_DATA0
  | USB_DTS_DATA1
  deriving DecidableEq, Repr

/-- The value of the mode enumerator as stored into the 1-bit field `DTSEN`. -/
def usbBdSyncMode.toBit : usbBdSyncMode → Bool
  | .USB_DTS_ON => true
  | .USB_DTS_OFF => false

/-- The value of the enumerator as stored into the 1-bit field `DTS`. -/
def usbBdSyncVal.toBit : usbBdSyncVal → Bool
  | .USB_DTS_DATA0 => false
  | .USB_DTS_DATA1 => true

/-- `usbBdSetSync`. -/
def usbBdSetSync (s : BdState) (handle : Nat) (mode : usbBdSyncMode) (value : usbBdSyncVal) :
    usbError × BdState :=
  if handle ≥ USB_CFG_NUM_BDS then (USB_EBADPARM, s)
  else if (s.usbBdt handle).stat.UOWN = true then (USB_EACCESS, s)
  else
    let s := s.setBd handle
      { s.usbBdt handle with stat := { (s.usbBdt handle).stat with DTSEN := mode.toBit } }
    let s := s.setBd handle
      { s.usbBdt handle with stat := { (s.usbBdt handle).stat with DTS := value.toBit } }
    (USB_SUCCESS, s)

/-! ## usb.c: events, address and configuration -/

/-- `usbPowerState` of `usb.h`: `USB_POWER_BUS = 0`, `USB_POWER_SELF = 1`. -/
inductive usbPowerState where
  | USB_POWER_BUS
  | USB_POWER_SELF
  deriving DecidableEq, Repr

/-- Numeric value of the power state enumerator. -/
def usbPowerState.toNat : usbPowerState → Nat
  | .USB_POWER_BUS => 0
  | .USB_POWER_SELF => 1

/-- Index of the configuration callback, the enumerator `USB_CB_CONFIG`. -/
def USB_CB_CONFIG : Nat := 0

/-- Index of the transaction callback, the enumerator `USB_CB_TRANSACTION`. -/
def USB_CB_TRANSACTION : Nat := 1

/-- The packet identifier `USB_PID_SETUP`. -/
def USB_PID_SETUP : Nat := 13

/-- Set bit `bit` of a register value. -/
def setBit (r bit : Nat) : Nat := r ||| 2 ^ bit

/-- Modelled from the spec: bit position of `UCONbits.SE0`, declared in the device
header `p18f2550.h`, which is not among the sources. -/
def UCON_SE0 : Nat := 5

/-- Modelled from the spec: bit position of `UCONbits.PKTDIS`, declared in the device
header `p18f2550.h`, which is not among the sources. -/
def UCON_PKTDIS : Nat := 4

/-- Modelled from the spec: bit position of `UIRbits.URSTIF`, declared in the device
header `p18f2550.h`, which is not among the sources. -/
def UIR_URSTIF : Nat := 0

/-- Modelled from the spec: bit position of `UIRbits.TRNIF`, declared in the device
header `p18f2550.h`, which is not among the sources. -/
def UIR_TRNIF : Nat := 3

/-- The wait loop of `usbAttachHandler`: `while (0 != UCONbits.SE0) ;`. A register
holds the value that the hardware presents; the loop body leaves everything as it is. -/
def usbAttachWait (d : UsbDriver) : Nat → Option UsbDriver
  | 0 => none
  | fuel + 1 =>
    if d.UCON.testBit UCON_SE0 then usbAttachWait d fuel
    else some d

/-- `usbAttachHandler`. -/
def usbAttachHandler (fuel : Nat) (d : UsbDriver) : Option (usbError × UsbDriver) :=
  let d := { d with UIR := 0 }
  let d := { d with UEIR := 0 }
  let d := { d with UCON := setBit d.UCON UCON_USBEN }
  (usbAttachWait d fuel).bind fun d =>
    let d := { d with UIR := clearBit d.UIR UIR_URSTIF }
    let d := { d with state := usbState.USB_ST_ATTACHED }
    let d := d.setHandler USB_EV_ATTACHED.toNat usbEventHandler.usbNop
    let d := d.setHandler USB_EV_DETACHED.toNat usbEventHandler.usbDetachHandler
    let d := d.setHandler USB_EV_RESET.toNat usbEventHandler.usbResetHandler
    some (USB_SUCCESS, d)

/-- `usbiSetAddress`. -/
def usbiSetAddress (d : UsbDriver) (address : Nat) : usbError × UsbDriver :=
  if usbState.USB_ST_DEFAULT = d.state ∨ usbState.USB_ST_ADDRESSED = d.state then
    if address > 0 ∧ address < 128 then
      let d := { d with UADDR := address }
      let d := { d with state := usbState.USB_ST_ADDRESSED }
      (USB_SUCCESS, d)
    else (USB_EBADPARM, d)
  else (USB_EBADSTATE, d)

/-- `usbPostEvent`. -/
def usbPostEvent (d : UsbDriver) (ev : usbEvent) : usbError × UsbDriver :=
  if USB_EV_NONE = d.eventBuffer then (USB_SUCCESS, { d with eventBuffer := ev })
  else (USB_EOVERFLOW, d)

/-- `usbGetEvent`: the first component is the content of `*ev` after the call. -/
def usbGetEvent (d : UsbDriver) : usbEvent × UsbDriver :=
  (d.eventBuffer, { d with eventBuffer := USB_EV_NONE })

/-- `usbCheckInterrupt`. -/
def usbCheckInterrupt (d : UsbDriver) : usbError × UsbDriver :=
  if 0 ≠ d.UIR then
    if d.UIR.testBit UIR_URSTIF then
      let d := { d with UIR := clearBit d.UIR UIR_URSTIF }
      let d := (usbPostEvent d USB_EV_RESET).2
      (USB_SUCCESS, d)
    else if d.UIR.testBit UIR_TRNIF then
      let d := (usbPostEvent d USB_EV_TRANSACTION).2
      (USB_SUCCESS, d)
    else (USB_SUCCESS, d)
  else (USB_SUCCESS, d)

/-! ## usb_ctl.c: data -/

/-- Possible control transaction state. -/
inductive usbCtlState where
  | USB_CTL_SETUP
  | USB_CTL_DATA
  | USB_CTL_STATUS
  deriving DecidableEq, Repr

/-- Direction of the control transaction: `USB_CTL_DIR_OUT = 0`, `USB_CTL_DIR_IN = 1`. -/
inductive usbCtlDir where
  | USB_CTL_DIR_OUT
  | USB_CTL_DIR_IN
  deriving DecidableEq, Repr

/-- The direction stored from the 1-bit field `type.dir`. -/
def usbCtlDir.ofBit (b : Nat) : usbCtlDir :=
  if b = 0 then .USB_CTL_DIR_OUT else .USB_CTL_DIR_IN

/-- Where the data of the data stage lies. -/
inductive usbCtlSource where
  | USB_CTL_FROM_ROM
  | USB_CTL_FROM_RAM
  deriving DecidableEq, Repr

/-- Value `USB_CTL_REQ_STANDARD` of the 2-bit field `requestType`. -/
def USB_CTL_REQ_STANDARD : Nat := 0

/-- Value `USB_CTL_REC_DEVICE` of the 5-bit field `recipient`. -/
def USB_CTL_REC_DEVICE : Nat := 0

/-- Request code `USB_CTL_STD_GET_STATUS`. -/
def USB_CTL_STD_GET_STATUS : Nat := 0

/-- Request code `USB_CTL_STD_SET_ADDRESS`. -/
def USB_CTL_STD_SET_ADDRESS : Nat := 5

/-- Request code `USB_CTL_STD_GET_DESCRIPTOR`. -/
def USB_CTL_STD_GET_DESCRIPTOR : Nat := 6

/-- Request code `USB_CTL_STD_SET_CONFIGURATION`. -/
def USB_CTL_STD_SET_CONFIGURATION : Nat := 9

/-- The variable `ctlState` of `usb_ctl.c`. Its member `getStatusBuf` is read through
`dataPtr` like any other data memory, so it lies in `ram`, at the address
`Env.getStatusBuf`. -/
structure usbCtlInternalState where
  state : usbCtlState
  dir : usbCtlDir
  outHandle : Nat
  inHandle : Nat
  dataSource : usbCtlSource
  dataPtr : Nat
  bytesToTransfer : Int
  powerState : usbPowerState
  newAddress : Nat
  deriving DecidableEq, Repr

/-- An entry of the descriptor list (`usbCtlDescriptor` of `usb_ctl.h`): `type` and
`index` are the bytes of the two `char` members, `data` is an address in program
memory. -/
structure usbCtlDescriptor where
  type : Nat
  index : Nat
  totalSize : Int
  data : Nat
  deriving DecidableEq, Repr

/-- What a callback of the application returns and leaves behind. Callbacks use the
buffer descriptor interface: they may change the BD state and the data memory. -/
structure AppEffect where
  ret : usbError
  bd : BdState
  ram : Nat → Nat

/-- What the integrator and the application supply: the program memory, the descriptor
list `usbCtlDescriptorList` (`usbCtlDescriptorCount` is its length), the address of
`ctlState.getStatusBuf` in data memory, and what the function behind a callback pointer
does when it is called with an argument. -/
structure Env where
  rom : Nat → Nat
  usbCtlDescriptorList : List usbCtlDescriptor
  getStatusBuf : Nat
  callback : Nat → Nat → BdState → (Nat → Nat) → AppEffect

/-- The whole stack: the driver (`usb.c`, `usb_bd.c`, SIE registers), `ctlState`, the
data memory as bytes, and the list of callback calls made so far, each with the
function pointer and the argument. The BD table is kept in `drv.bd`, apart from
`ram`. -/
structure UsbSystem where
  drv : UsbDriver
  ctl : usbCtlInternalState
  ram : Nat → Nat
  cbLog : List (Nat × Nat)

/-- Replace the globals of `usb_bd.c`. -/
def UsbSystem.withBd (s : UsbSystem) (bd : BdState) : UsbSystem :=
  { s with drv := { s.drv with bd := bd } }

/-- The byte of data memory at address `a`. -/
def byteAt (ram : Nat → Nat) (a : Nat) : Nat := ram a % 256

/-- Store the byte `v` at address `a`. -/
def storeByte (ram : Nat → Nat) (a v : Nat) : Nat → Nat :=
  fun x => if x = a then v % 256 else ram x

/-- `memcpy` and `memcpypgm2ram`: copy `n` bytes, `n` of type `size_t`, from address
`src` of the memory `source` to address `dest` of data memory. -/
def memcpy (ram : Nat → Nat) (dest : Nat) (source : Nat → Nat) (src : Nat) (n : Nat) :
    Nat → Nat :=
  fun x => if dest ≤ x ∧ x < dest + n then source (src + (x - dest)) % 256 else ram x

/-- Contents of the locals that `usbCtlHandleTransaction`, `usbCtlHandleIn` and
`usbCtlHandleOut` declare without a value, before the first call that may write
them. -/
structure Locals where
  pid : Nat
  buf : Nat
  size : Int
  sentSize : Int
  bufSize : Int

/-- `usbiSetConfig` of `usb.c`. The callback gets the address of `config`; it is
modelled as reading the value. -/
def usbiSetConfig (env : Env) (s : UsbSystem) (config : Nat) : usbError × UsbSystem :=
  let cbConfig := s.drv.userCallbacks USB_CB_CONFIG
  if usbState.USB_ST_ADDRESSED ≠ s.drv.state ∧ usbState.USB_ST_CONFIGURED ≠ s.drv.state then
    (USB_EBADSTATE, s)
  else if 0 = cbConfig then (USB_ENOIMP, s)
  else
    let eff := env.callback cbConfig config s.drv.bd s.ram
    let s := { s.withBd eff.bd with ram := eff.ram, cbLog := s.cbLog ++ [(cbConfig, config)] }
    let cbRet := eff.ret
    if 0 = config then
      (USB_SUCCESS, { s with drv := { s.drv with state := usbState.USB_ST_ADDRESSED } })
    else if USB_SUCCESS = cbRet then
      (USB_SUCCESS, { s with drv := { s.drv with state := usbState.USB_ST_CONFIGURED } })
    else (cbRet, s)

/-! ## usb_ctl.c: operations -/

/-- Setup packet structure (`usbCtlSetupPacket`), with the bit fields of its member
`type` as fields. -/
structure usbCtlSetupPacket where
  recipient : Nat
  requestType : Nat
  dir : Nat
  request : Nat
  data : Nat
  index : Nat
  length : Nat
  deriving DecidableEq, Repr

/-- The value `sizeof(usbCtlSetupPacket)`: one byte of bit fields, one byte, three
16-bit words. -/
def sizeof_usbCtlSetupPacket : Nat := 8

/-- The setup packet that `bufPtr` points to: `recipient` in bits 0..4, `requestType` in
bits 5..6 and `dir` in bit 7 of the first byte, then `request`, then the little-endian
words `data`, `index` and `length`. -/
def readSetupPacket (ram : Nat → Nat) (bufPtr : Nat) : usbCtlSetupPacket :=
  { recipient := byteAt ram bufPtr % 32,
    requestType := byteAt ram bufPtr / 32 % 4,
    dir := byteAt ram bufPtr / 128,
    request := byteAt ram (bufPtr + 1),
    data := byteAt ram (bufPtr + 2) + 256 * byteAt ram (bufPtr + 3),
    index := byteAt ram (bufPtr + 4) + 256 * byteAt ram (bufPtr + 5),
    length := byteAt ram (bufPtr + 6) + 256 * byteAt ram (bufPtr + 7) }

/-- The macro `MIN(a,b)`, `((a)<(b))?(a):(b)`, on `int` operands. -/
def MIN (a b : Int) : Int := if a < b then a else b

/-- `usbCtlInit`. -/
def usbCtlInit (fuel : Nat) (env : Env) (s : UsbSystem) : Option UsbSystem :=
  let s := { s with ctl := { s.ctl with state := .USB_CTL_SETUP } }
  let s := { s with ctl := { s.ctl with dataPtr := 0 } }
  let s := { s with ctl := { s.ctl with bytesToTransfer := 0 } }
  let s := { s with ram := storeByte s.ram env.getStatusBuf 0 }
  let s := { s with ram := storeByte s.ram (env.getStatusBuf + 1) 0 }
  let s := { s with ctl := { s.ctl with newAddress := 0 } }
  let s := { s with ctl := { s.ctl with
    outHandle := (usbBdGetHandleForEndpoint 0 USB_ED_OUT s.ctl.outHandle).2 } }
  let s := { s with ctl := { s.ctl with
    inHandle := (usbBdGetHandleForEndpoint 0 USB_ED_IN s.ctl.inHandle).2 } }
  (usbBdStall fuel s.drv.bd s.ctl.outHandle).bind fun r =>
    let s := s.withBd r.2
    (usbBdStall fuel s.drv.bd s.ctl.inHandle).bind fun r =>
      some (s.withBd r.2)

/-- `usbCtlAbortTransaction`. -/
def usbCtlAbortTransaction (fuel : Nat) (s : UsbSystem) : Option UsbSystem :=
  let s := { s with ctl := { s.ctl with state := .USB_CTL_SETUP } }
  let s := { s with ctl := { s.ctl with dataPtr := 0 } }
  let s := { s with ctl := { s.ctl with bytesToTransfer := 0 } }
  (usbBdStall fuel s.drv.bd s.ctl.inHandle).bind fun r =>
    some (s.withBd r.2)

/-- The `for` loop of `usbCtlGetDescriptor` over the entries of the descriptor list
that are still to be compared; its body returns at the first entry that matches. -/
def usbCtlGetDescriptorLoop (s : UsbSystem) (bufPtr : usbCtlSetupPacket)
    (descType descIndex : Nat) : List usbCtlDescriptor → usbError × UsbSystem
  | [] => (USB_EBADPARM, s)
  | entry :: rest =>
    if entry.type = descType ∧ entry.index = descIndex then
      let s := { s with ctl := { s.ctl with dataSource := .USB_CTL_FROM_ROM } }
      let s := { s with ctl := { s.ctl with dataPtr := entry.data } }
      let s := { s with ctl := { s.ctl with
        bytesToTransfer := MIN (i16 bufPtr.length) entry.totalSize } }
      let s := { s with ctl := { s.ctl with state := .USB_CTL_DATA } }
      (USB_SUCCESS, s)
    else usbCtlGetDescriptorLoop s bufPtr descType descIndex rest

/-- `usbCtlGetDescriptor`: `descType` and `descIndex` are the bytes stored into the two
`char` locals. -/
def usbCtlGetDescriptor (env : Env) (s : UsbSystem) (bufPtr : usbCtlSetupPacket) :
    usbError × UsbSystem :=
  let descType := bufPtr.data / 256 % 256
  let descIndex := bufPtr.data % 256
  usbCtlGetDescriptorLoop s bufPtr descType descIndex env.usbCtlDescriptorList

/-- `usbCtlGetStatus`. -/
def usbCtlGetStatus (env : Env) (s : UsbSystem) (bufPtr : usbCtlSetupPacket) :
    usbError × UsbSystem :=
  if bufPtr.recipient = USB_CTL_REC_DEVICE then
    let s := { s with ram := storeByte s.ram env.getStatusBuf s.ctl.powerState.toNat }
    let s := { s with ctl := { s.ctl with dataPtr := env.getStatusBuf } }
    let s := { s with ctl := { s.ctl with dataSource := .USB_CTL_FROM_RAM } }
    let s := { s with ctl := { s.ctl with bytesToTransfer := 2 } }
    let s := { s with ctl := { s.ctl with state := .USB_CTL_DATA } }
    (USB_SUCCESS, s)
  else (USB_EBADPARM, s)

/-- `usbCtlSetAddress`. -/
def usbCtlSetAddress (s : UsbSystem) (bufPtr : usbCtlSetupPacket) : usbError × UsbSystem :=
  if bufPtr.data > 0 ∧ bufPtr.data < 128 then
    let s := { s with ctl := { s.ctl with newAddress := bufPtr.data } }
    let s := { s with ctl := { s.ctl with state := .USB_CTL_STATUS } }
    (USB_SUCCESS, s)
  else (USB_EBADDATA, s)

/-- `usbCtlHandleSetup`. The locals `bufPtr` and `size` are read only after
`usbBdGetBuf` has written them. -/
def usbCtlHandleSetup (fuel : Nat) (env : Env) (s : UsbSystem) :
    Option (usbError × UsbSystem) :=
  (usbBdGetBuf fuel s.drv.bd s.ctl.outHandle 0 0).bind fun r =>
    let s := s.withBd r.state
    if USB_SUCCESS ≠ r.ret then some (r.ret, s)
    else if sizeof_usbCtlSetupPacket ≠ u16 r.size then some (USB_EBADDATA, s)
    else
      let bufPtr := readSetupPacket s.ram r.buf
      let s := { s with ctl := { s.ctl with dir := usbCtlDir.ofBit bufPtr.dir } }
      let ret := USB_ENOIMP
      if bufPtr.requestType = USB_CTL_REQ_STANDARD then
        if bufPtr.request = USB_CTL_STD_GET_STATUS then some (usbCtlGetStatus env s bufPtr)
        else if bufPtr.request = USB_CTL_STD_SET_ADDRESS then some (usbCtlSetAddress s bufPtr)
        else if bufPtr.request = USB_CTL_STD_GET_DESCRIPTOR then
          some (usbCtlGetDescriptor env s bufPtr)
        else if bufPtr.request = USB_CTL_STD_SET_CONFIGURATION then
          some (usbiSetConfig env s (bufPtr.data % 256))
        else some (ret, s)
      else some (ret, s)

/-- `usbCtlLoadBufAndSend`. -/
def usbCtlLoadBufAndSend (fuel : Nat) (env : Env) (s : UsbSystem) (buf : Nat)
    (bufSize : Int) : Option (usbError × UsbSystem) :=
  let sizeToSend := MIN bufSize s.ctl.bytesToTransfer
  let s :=
    if usbCtlSource.USB_CTL_FROM_ROM = s.ctl.dataSource then
      { s with ram := memcpy s.ram buf env.rom s.ctl.dataPtr (u16 sizeToSend) }
    else
      { s with ram := memcpy s.ram buf s.ram s.ctl.dataPtr (u16 sizeToSend) }
  (usbBdSend fuel s.drv.bd s.ctl.inHandle sizeToSend).map fun r => (r.1, s.withBd r.2)

/-- The statements of `usbCtlHandleIn` from the label `case USB_CTL_SETUP` on. -/
def usbCtlHandleInSetup (fuel : Nat) (s : UsbSystem) : Option UsbSystem :=
  (usbBdStall fuel s.drv.bd s.ctl.inHandle).map fun r => s.withBd r.2

/-- The statements of `usbCtlHandleIn` from the label `case USB_CTL_STATUS` on; they
fall through to `case USB_CTL_SETUP`. -/
def usbCtlHandleInStatus (fuel : Nat) (s : UsbSystem) : Option UsbSystem :=
  let s :=
    if usbCtlDir.USB_CTL_DIR_OUT = s.ctl.dir then
      let s := { s with ctl := { s.ctl with state := .USB_CTL_SETUP } }
      if 0 ≠ s.ctl.newAddress then
        let s := { s with drv := (usbiSetAddress s.drv s.ctl.newAddress).2 }
        { s with ctl := { s.ctl with newAddress := 0 } }
      else s
    else s
  usbCtlHandleInSetup fuel s

/-- `usbCtlHandleIn`. The `else` branch of `case USB_CTL_DATA` has no `break` and no
`return`: it goes on with the statements of `case USB_CTL_STATUS`. -/
def usbCtlHandleIn (fuel : Nat) (env : Env) (u : Locals) (s : UsbSystem) :
    Option UsbSystem :=
  match s.ctl.state with
  | .USB_CTL_DATA =>
    if usbCtlDir.USB_CTL_DIR_IN = s.ctl.dir then
      let sentSize := (usbBdGetSent s.drv.bd s.ctl.inHandle u.sentSize).2
      (usbBdGetBuf fuel s.drv.bd s.ctl.inHandle u.buf u.bufSize).bind fun r =>
        let s := s.withBd r.state
        if sentSize < r.size then
          let s :=
            if sentSize = s.ctl.bytesToTransfer then
              { s with ctl := { s.ctl with state := .USB_CTL_STATUS } }
            else { s with ctl := { s.ctl with state := .USB_CTL_SETUP } }
          (usbBdStall fuel s.drv.bd s.ctl.inHandle).map fun q => s.withBd q.2
        else
          let s := { s with ctl := { s.ctl with
            bytesToTransfer := i16 (s.ctl.bytesToTransfer - sentSize) } }
          let s := { s with ctl := { s.ctl with
            dataPtr := u16 ((s.ctl.dataPtr : Int) + sentSize) } }
          (usbCtlLoadBufAndSend fuel env s r.buf r.size).map fun q => q.2
    else
      let s := { s with ctl := { s.ctl with state := .USB_CTL_SETUP } }
      usbCtlHandleInStatus fuel s
  | .USB_CTL_STATUS => usbCtlHandleInStatus fuel s
  | .USB_CTL_SETUP => usbCtlHandleInSetup fuel s

/-- `usbCtlHandleOut`. -/
def usbCtlHandleOut (fuel : Nat) (u : Locals) (s : UsbSystem) : Option UsbSystem :=
  (usbBdGetBuf fuel s.drv.bd s.ctl.outHandle u.buf u.size).bind fun r =>
    let size := r.size
    let s := s.withBd r.state
    let s :=
      match s.ctl.state with
      | .USB_CTL_DATA =>
        if usbCtlDir.USB_CTL_DIR_OUT = s.ctl.dir then s
        else { s with ctl := { s.ctl with state := .USB_CTL_SETUP } }
      | .USB_CTL_STATUS =>
        if usbCtlDir.USB_CTL_DIR_IN = s.ctl.dir ∧ 0 = size then
          { s with ctl := { s.ctl with state := .USB_CTL_SETUP } }
        else s
      | .USB_CTL_SETUP => s
    (usbBdStall fuel s.drv.bd s.ctl.outHandle).map fun q => s.withBd q.2

/-- The branch of `usbCtlHandleTransaction` that runs once `usbCtlHandleSetup` has
returned `USB_SUCCESS`: it prepares the endpoints for the stage that follows. -/
def usbCtlArmStage (fuel : Nat) (env : Env) (u : Locals) (s : UsbSystem) :
    Option UsbSystem :=
  let s := s.withBd (usbBdClaim s.drv.bd s.ctl.inHandle).2
  if usbCtlState.USB_CTL_DATA = s.ctl.state then
    (if usbCtlDir.USB_CTL_DIR_IN = s.ctl.dir then
      (usbBdGetBuf fuel s.drv.bd s.ctl.inHandle u.buf u.size).bind fun g =>
        let s := s.withBd g.state
        let s := s.withBd
          (usbBdSetSync s.drv.bd s.ctl.inHandle .USB_DTS_ON .USB_DTS_DATA1).2
        (usbCtlLoadBufAndSend fuel env s g.buf g.size).map fun q => q.2
    else some s).bind fun s =>
      let s := s.withBd
        (usbBdSetSync s.drv.bd s.ctl.outHandle .USB_DTS_ON .USB_DTS_DATA1).2
      (usbBdReceive fuel s.drv.bd s.ctl.outHandle).map fun q => s.withBd q.2
  else
    (usbBdSend fuel s.drv.bd s.ctl.inHandle 0).bind fun q =>
      let s := s.withBd q.2
      (usbBdStall fuel s.drv.bd s.ctl.outHandle).map fun q => s.withBd q.2

/-- `usbCtlHandleTransaction`. -/
def usbCtlHandleTransaction (fuel : Nat) (env : Env) (u : Locals) (s : UsbSystem)
    (bdHandle : Nat) : Option (usbError × UsbSystem) :=
  if 0 ≠ usbBdGetEndpoint bdHandle then some (USB_ENOIMP, s)
  else
    (if s.ctl.inHandle = bdHandle then usbCtlHandleIn fuel env u s
    else
      let pid := (usbBdGetPID s.drv.bd bdHandle u.pid).2
      if USB_PID_SETUP = pid then
        (usbCtlAbortTransaction fuel s).bind fun s =>
          (usbCtlHandleSetup fuel env s).bind fun r =>
            (if USB_SUCCESS ≠ r.1 then
              (usbBdStall fuel r.2.drv.bd r.2.ctl.outHandle).map fun q => r.2.withBd q.2
            else usbCtlArmStage fuel env u r.2).map fun s =>
              { s with drv := { s.drv with UCON := clearBit s.drv.UCON UCON_PKTDIS } }
      else usbCtlHandleOut fuel u s).map fun s => (USB_SUCCESS, s)

/-- `usbNop`. -/
def usbNop (s : UsbSystem) : usbError × UsbSystem := (USB_SUCCESS, s)

/-- The loop of `usbResetHandler` that clears the registers `UEP1` to `UEP15`; the
pointer `UEPnPtr` walks along with `ep`. -/
def usbResetClearEndpoints (d : UsbDriver) : UsbDriver :=
  (List.range' 1 (USB_CFG_NUM_ENDPOINTS - 1)).foldl
    (fun d ep => { d with UEP := fun i => if i = ep then 0 else d.UEP i }) d

/-- `usbResetHandler`. -/
def usbResetHandler (fuel : Nat) (env : Env) (s : UsbSystem) :
    Option (usbError × UsbSystem) :=
  let s := { s with drv := usbResetClearEndpoints s.drv }
  let s := { s with drv := { s.drv with UEP := fun i => if i = 0 then 0x16 else s.drv.UEP i } }
  (usbCtlInit fuel env s).map fun s =>
    let s := { s with drv := { s.drv with UCON := clearBit s.drv.UCON UCON_PKTDIS } }
    let s := { s with drv := { s.drv with state := usbState.USB_ST_DEFAULT } }
    let s := { s with drv :=
      s.drv.setHandler USB_EV_TRANSACTION.toNat usbEventHandler.usbTransactionHandler }
    (USB_SUCCESS, s)

/-- `usbTransactionHandler`. The callback gets the address of `bdHandle`; it is
modelled as reading the value. -/
def usbTransactionHandler (fuel : Nat) (env : Env) (u : Locals) (s : UsbSystem) :
    Option (usbError × UsbSystem) :=
  let cbNonEP0 := s.drv.userCallbacks USB_CB_TRANSACTION
  let bdHandle := usbBdGetHandleForTransaction s.drv.USTAT
  (if 0 = usbBdGetEndpoint bdHandle then
    (usbCtlHandleTransaction fuel env u s bdHandle).map fun r => r.2
  else if usbState.USB_ST_CONFIGURED ≠ s.drv.state then some s
  else if 0 = cbNonEP0 then some s
  else
    let eff := env.callback cbNonEP0 bdHandle s.drv.bd s.ram
    some { s.withBd eff.bd with ram := eff.ram, cbLog := s.cbLog ++ [(cbNonEP0, bdHandle)] }).map
    fun s => (USB_SUCCESS, { s with drv := { s.drv with UIR := clearBit s.drv.UIR UIR_TRNIF } })

/-- The call `eventHandlers[ev]()` for the function that the table entry points to. -/
def callEventHandler (fuel : Nat) (env : Env) (u : Locals) (f : usbEventHandler)
    (s : UsbSystem) : Option (usbError × UsbSystem) :=
  match f with
  | .usbNop => some (usbNop s)
  | .usbAttachHandler => (usbAttachHandler fuel s.drv).map fun r => (r.1, { s with drv := r.2 })
  | .usbDetachHandler =>
    some ((usbDetachHandler s.drv).1, { s with drv := (usbDetachHandler s.drv).2 })
  | .usbResetHandler => usbResetHandler fuel env s
  | .usbTransactionHandler => usbTransactionHandler fuel env u s

/-- The `do ... while` loop of `usbWork`. -/
def usbWorkLoop (env : Env) (u : Locals) : Nat → UsbSystem → Option (usbError × UsbSystem)
  | 0, _ => none
  | fuel + 1, s =>
    let ev := (usbGetEvent s.drv).1
    let s := { s with drv := (usbGetEvent s.drv).2 }
    if USB_EV_NONE ≠ ev then
      match callEventHandler fuel env u (s.drv.eventHandlers ev.toNat) s with
      | none => none
      | some (ret, s) =>
        if USB_SUCCESS ≠ ret then some (ret, s)
        else
          let s := { s with drv := (usbCheckInterrupt s.drv).2 }
          usbWorkLoop env u fuel s
    else
      let s := { s with drv := (usbCheckInterrupt s.drv).2 }
      some (USB_SUCCESS, s)

/-- `usbWork`. -/
def usbWork (fuel : Nat) (env : Env) (u : Locals) (s : UsbSystem) :
    Option (usbError × UsbSystem) :=
  usbWorkLoop env u fuel s

/-- `usbSetCallback`: `cbEvent` is the value of the enumeration argument. The store
`userCallbacks[cbEvent] = callback` is a store at index `cbEvent` from the start of the
table, also for an index that lies past the `USB_CB_MAX` entries of the table. -/
def usbSetCallback (d : UsbDriver) (cbEvent : Int) (callback : Nat) : usbError × UsbDriver :=
  if cbEvent < 0 ∨ cbEvent > (USB_CB_MAX : Int) then (USB_EBADPARM, d)
  else (USB_SUCCESS, d.setCallback cbEvent.toNat callback)

/-! ## Definitions for the statements -/

/-- The arena invariant: the bump pointer lies in the arena, bounds included. -/
def ArenaOk (s : BdState) : Prop :=
  USB_CFG_ENDPOINT_BUFFER_ORIGIN ≤ s.endOfAllocatedBuffer ∧
    s.endOfAllocatedBuffer ≤ USB_CFG_ENDPOINT_BUFFER_ORIGIN + USB_CFG_ENDPOINT_BUFFER_SIZE

instance (s : BdState) : Decidable (ArenaOk s) := by
  unfold ArenaOk; infer_instance

/-- Bytes still free in the arena. -/
def BdState.free (s : BdState) : Nat :=
  USB_CFG_ENDPOINT_BUFFER_ORIGIN + USB_CFG_ENDPOINT_BUFFER_SIZE - s.endOfAllocatedBuffer

/-- The state that a successful `usbBdSetup` of `handle` with `size` leaves. -/
def setupDone (s : BdState) (handle size : Nat) : BdState :=
  { usbBdt := fun h =>
      if h = handle then
        { stat := { (s.usbBdt handle).stat with BC := size / 256 % 4 },
          cnt := size % 256,
          addr := s.endOfAllocatedBuffer }
      else s.usbBdt h,
    endOfAllocatedBuffer := s.endOfAllocatedBuffer + size,
    highestSetupBD := handle }

/-- Numeric value `0` is `USB_ED_OUT`, any other value read from a 1-bit field is
`USB_ED_IN`. -/
def dirOfBit (b : Nat) : usbEndpointDirection := if b = 0 then USB_ED_OUT else USB_ED_IN

/-- The handle encoding in the words of the specification:
`(endpoint << 1) | direction_bit`. -/
def specHandle (endpoint direction_bit : Nat) : Nat := (endpoint <<< 1) ||| direction_bit

/-- The endpoint number in USTAT bits 6..3. -/
def specUstatEndpoint (USTAT : Nat) : Nat := USTAT / 8 % 16

/-- The direction bit of USTAT, bit 2. -/
def specUstatDir (USTAT : Nat) : Nat := USTAT / 4 % 2

/-- The buffers of the logged BDs lie one after the other: the first starts at `a`,
each has its logged size, which is positive, and the last ends at `e`. -/
def Chain (tbl : Nat → usbBd) : Nat → List (Nat × Nat) → Nat → Prop
  | a, [], e => a = e
  | a, p :: rest, e => (tbl p.1).addr = a ∧ 0 < p.2 ∧ Chain tbl (a + p.2) rest e

/-- Invariant of the states reached by `usbBdSetup` calls, with the log of the
successful ones. -/
structure SetupInv (s : BdState) (log : List (Nat × Nat)) : Prop where
  arena : ArenaOk s
  chain : Chain s.usbBdt USB_CFG_ENDPOINT_BUFFER_ORIGIN log s.endOfAllocatedBuffer
  bound : ∀ p ∈ log, p.1 ≤ s.highestSetupBD
  top : s.highestSetupBD < USB_CFG_NUM_BDS
  sorted : (log.map Prod.fst).Pairwise (· < ·)
  alloc : ∀ h, h < USB_CFG_NUM_BDS → ((s.usbBdt h).addr ≠ 0 ↔ h ∈ log.map Prod.fst)

/-- The BD state that `usbInit` leaves: both EP0 buffers of 8 bytes allocated. -/
def bdAfterInit (s0 : BdState) : BdState :=
  setupDone (setupDone (usbBdInit s0) 0 USB_CFG_EP0_BUFFER_SIZE) 1 USB_CFG_EP0_BUFFER_SIZE

/-- Two BD states have the same layout: the same buffer addresses, bump pointer and
`highestSetupBD`. -/
def SameLayout (s s' : BdState) : Prop :=
  (∀ h, (s'.usbBdt h).addr = (s.usbBdt h).addr) ∧
    s'.endOfAllocatedBuffer = s.endOfAllocatedBuffer ∧
    s'.highestSetupBD = s.highestSetupBD

/-- The BD that `usbBdSend`, `usbBdReceive` and `usbBdStall` leave: the count `size` in
`cnt` and `BC`, `BSTALL` as given, and `UOWN` set. -/
def bdHandOver (bd : usbBd) (size : Int) (bstall : Bool) : usbBd :=
  { bd with
    cnt := (size % 256).toNat,
    stat := { bd.stat with BC := (size / 256 % 4).toNat, BSTALL := bstall, UOWN := true } }

/-- A control-engine state in which everything is zero, as the C start-up code leaves
a static variable. -/
def usbCtlInternalState.blank : usbCtlInternalState :=
  { state := .USB_CTL_SETUP, dir := .USB_CTL_DIR_OUT, outHandle := 0, inHandle := 0,
    dataSource := .USB_CTL_FROM_ROM, dataPtr := 0, bytesToTransfer := 0,
    powerState := .USB_POWER_BUS, newAddress := 0 }

/-- A system memory in which everything is zero. -/
def UsbSystem.blank : UsbSystem :=
  { drv := UsbDriver.blank, ctl := usbCtlInternalState.blank, ram := fun _ => 0, cbLog := [] }

/-- Locals that happen to hold zero. -/
def Locals.zero : Locals := { pid := 0, buf := 0, size := 0, sentSize := 0, bufSize := 0 }

/-- The bytes of `usbDeviceDescriptor`, `usbConfigurationDescriptor` and
`usbHIDReportDescriptor` of `descriptors.c`, one array after the other. -/
def descriptorBytes : List Nat :=
  [18, 1, 0x01, 0x01, 0, 0, 0, 8, 0xD8, 0x04, 0x01, 0x00, 0x01, 0x00, 0, 0, 0, 1,
   9, 2, 34, 0, 1, 1, 0, 0x40, 50,
   9, 4, 0, 0, 1, 3, 0, 0, 0,
   9, 0x21, 0x01, 0x01, 0, 1, 0x22, 0x15, 0x00,
   7, 5, 0x81, 3, 0x40, 0x00, 0x64,
   0x06, 0x00, 0xff, 0x09, 0x01, 0xa1, 0x01, 0x09, 0x02, 0x15, 0x00, 0x26, 0xff, 0x00,
   0x95, 0x02, 0x75, 0x08, 0x81, 0x02, 0xc0]

/-- An environment with the descriptors of `descriptors.c` placed in program memory
from address `0x1000` on, `getStatusBuf` at address `0x0A0`, and one callback function,
which accepts configuration 1 only and leaves the BDs and the memory alone. -/
def Env.sample : Env :=
  { rom := fun a => if 0x1000 ≤ a then descriptorBytes.getD (a - 0x1000) 0 else 0,
    usbCtlDescriptorList :=
      [ { type := 1, index := 0, totalSize := 18, data := 0x1000 },
        { type := 2, index := 0, totalSize := 34, data := 0x1012 },
        { type := 0x22, index := 0, totalSize := 21, data := 0x1034 } ],
    getStatusBuf := 0x0A0,
    callback := fun _ arg bd ram =>
      { ret := if arg = 1 then USB_SUCCESS else USB_EBADPARM, bd := bd, ram := ram } }

/-- Position of a device state in the order
Unattached < Attached < Default < Addressed < Configured. -/
def usbState.rank : usbState → Nat
  | .USB_ST_UNATTACHED => 0
  | .USB_ST_ATTACHED => 1
  | .USB_ST_DEFAULT => 2
  | .USB_ST_ADDRESSED => 3
  | .USB_ST_CONFIGURED => 4

/-- Two device states are neighbours in the lifecycle order. -/
def usbState.Adjacent (a b : usbState) : Prop :=
  a.rank + 1 = b.rank ∨ b.rank + 1 = a.rank

/-- The handler table that belongs to the device state: what `usbDetachHandler`,
`usbAttachHandler` and `usbResetHandler` leave in `eventHandlers`. -/
def HandlersOk (d : UsbDriver) : Prop :=
  match d.state with
  | .USB_ST_UNATTACHED =>
    d.eventHandlers 1 = .usbAttachHandler ∧ d.eventHandlers 2 = .usbNop ∧
      d.eventHandlers 3 = .usbNop ∧ d.eventHandlers 4 = .usbNop
  | .USB_ST_ATTACHED =>
    d.eventHandlers 1 = .usbNop ∧ d.eventHandlers 2 = .usbDetachHandler ∧
      d.eventHandlers 3 = .usbResetHandler ∧ d.eventHandlers 4 = .usbNop
  | _ =>
    d.eventHandlers 1 = .usbNop ∧ d.eventHandlers 2 = .usbDetachHandler ∧
      d.eventHandlers 3 = .usbResetHandler ∧ d.eventHandlers 4 = .usbTransactionHandler

/-- The steps that move the device core: an event dispatched through the handler table,
and the two calls that the control engine makes. -/
inductive CoreStep where
  | event (ev : usbEvent)
  | setAddress (address : Nat)
  | setConfig (config : Nat)
  deriving DecidableEq, Repr

/-- Dispatch of an event through the handler table, the call `eventHandlers[ev]()` of
`usbWork`. -/
def dispatch (fuel : Nat) (env : Env) (u : Locals) (s : UsbSystem) (ev : usbEvent) :
    Option (usbError × UsbSystem) :=
  callEventHandler fuel env u (s.drv.eventHandlers ev.toNat) s

/-- Run one step; `none` when the step does not return. -/
def coreStep (fuel : Nat) (env : Env) (u : Locals) (s : UsbSystem) :
    CoreStep → Option UsbSystem
  | .event ev => (dispatch fuel env u s ev).map fun r => r.2
  | .setAddress address => some { s with drv := (usbiSetAddress s.drv address).2 }
  | .setConfig config => some (usbiSetConfig env s config).2

/-- The states reachable from `usbInit`: by steps of the device core, which dispatch one
of the four events or call `usbiSetAddress` or `usbiSetConfig`, and by whatever the SIE
and the application do in between, which leaves the device state and the handler table
alone. -/
inductive Reachable (env : Env) : UsbSystem → Prop where
  | init (fuel : Nat) (s0 : UsbSystem) (d : UsbDriver) :
      usbInit fuel s0.drv = some (USB_SUCCESS, d) → Reachable env { s0 with drv := d }
  | step (fuel : Nat) (u : Locals) (s s' : UsbSystem) (l : CoreStep) :
      Reachable env s → l ≠ .event USB_EV_NONE → coreStep fuel env u s l = some s' →
      Reachable env s'
  | outside (s s' : UsbSystem) :
      Reachable env s → s'.drv.state = s.drv.state →
      s'.drv.eventHandlers = s.drv.eventHandlers → Reachable env s'

/-- The transition function of the specification for the events: `none` where the
specification leaves the result open (a transaction in Default, Addressed or
Configured) and for `USB_EV_NONE`, which is never dispatched. -/
def specTransition : usbState → usbEvent → Option usbState
  | _, .USB_EV_NONE => none
  | .USB_ST_UNATTACHED, .USB_EV_ATTACHED => some .USB_ST_ATTACHED
  | st, .USB_EV_ATTACHED => some st
  | _, .USB_EV_DETACHED => some .USB_ST_UNATTACHED
  | .USB_ST_UNATTACHED, .USB_EV_RESET => some .USB_ST_UNATTACHED
  | _, .USB_EV_RESET => some .USB_ST_DEFAULT
  | .USB_ST_UNATTACHED, .USB_EV_TRANSACTION => some .USB_ST_UNATTACHED
  | .USB_ST_ATTACHED, .USB_EV_TRANSACTION => some .USB_ST_ATTACHED
  | _, .USB_EV_TRANSACTION => none

/-- The device state is the same, or both states are Default or later. -/
def StateStable (a b : usbState) : Prop := a = b ∨ (2 ≤ a.rank ∧ 2 ≤ b.rank)

/-- The handler table is the same and the device state stays in its class. -/
def CoreRel (s s' : UsbSystem) : Prop :=
  s'.drv.eventHandlers = s.drv.eventHandlers ∧ StateStable s.drv.state s'.drv.state

/-- The variables of `usb.c` and the address register are the same. -/
def SameCore (s s' : UsbSystem) : Prop :=
  s'.drv.state = s.drv.state ∧ s'.drv.UADDR = s.drv.UADDR ∧
    s'.drv.eventHandlers = s.drv.eventHandlers ∧ s'.drv.eventBuffer = s.drv.eventBuffer ∧
    s'.drv.userCallbacks = s.drv.userCallbacks

/-- The system after `usbInit` on a memory in which everything was zero. -/
def UsbSystem.afterInit : UsbSystem :=
  { UsbSystem.blank with
    drv := ((usbInit 1 UsbDriver.blank).map Prod.snd).getD UsbDriver.blank }

/-- The setup packet made of the given bytes. -/
def setupPacketOf (bytes : List Nat) : usbCtlSetupPacket :=
  readSetupPacket (fun a => bytes.getD a 0) 0

/-- Modelled from the spec: what the SIE leaves when it has received a SETUP packet of
the given bytes on endpoint 0: the bytes in the buffer of the OUT BD, the BD back with
the CPU with the PID of the SETUP token and the byte count, the identity of the BD in
`USTAT`, and the flags `TRNIF` and `PKTDIS` set. -/
def sieSetup (s : UsbSystem) (bytes : List Nat) : UsbSystem :=
  let bd0 := s.drv.bd.usbBdt 0
  { s with
    drv := { s.drv with
      bd := s.drv.bd.setBd 0
        { bd0 with
          cnt := bytes.length % 256,
          stat := { bd0.stat with
            BC := bytes.length / 256 % 4, BSTALL := true, DTSEN := false, INCDIS := true,
            KEN := true, UOWN := false } },
      USTAT := 0,
      UIR := setBit s.drv.UIR UIR_TRNIF,
      UCON := setBit s.drv.UCON UCON_PKTDIS },
    ram := fun x =>
      if bd0.addr ≤ x ∧ x < bd0.addr + bytes.length then bytes.getD (x - bd0.addr) 0
      else s.ram x }

/-- The system after `usbInit` and the events Attached and Reset. -/
def UsbSystem.afterReset : UsbSystem :=
  (((dispatch 1 Env.sample Locals.zero UsbSystem.afterInit USB_EV_ATTACHED).bind fun r =>
    dispatch 1 Env.sample Locals.zero r.2 USB_EV_RESET).map Prod.snd).getD UsbSystem.blank

/-- Modelled from the spec: what the SIE leaves when it has received an OUT packet of
`n` bytes on endpoint 0: the OUT BD back with the CPU with the PID of the OUT token
(0001) and the byte count, the identity of the BD in `USTAT`, and the flag `TRNIF`
set. -/
def sieOutDone (s : UsbSystem) (n : Nat) : UsbSystem :=
  let bd0 := s.drv.bd.usbBdt 0
  { s with
    drv := { s.drv with
      bd := s.drv.bd.setBd 0
        { bd0 with
          cnt := n % 256,
          stat := { bd0.stat with
            BC := n / 256 % 4, BSTALL := true, DTSEN := false, INCDIS := false,
            KEN := false, UOWN := false } },
      USTAT := 0,
      UIR := setBit s.drv.UIR UIR_TRNIF } }

/-- The system after `usbInit`, Attached, Reset and the SETUP transaction
80 06 00 01 00 00 12 00 (GET_DESCRIPTOR, device): the first packet of the descriptor is
armed on the IN BD and the OUT BD is armed for receive. -/
def UsbSystem.afterGetDescriptor : UsbSystem :=
  ((usbCtlHandleTransaction 1 Env.sample Locals.zero
      (sieSetup UsbSystem.afterReset [0x80, 6, 0, 1, 0, 0, 0x12, 0]) 0).map Prod.snd).getD
    UsbSystem.blank

/-- The states in which `usbBdStall(h)` and `usbBdReceive(h)` get past the size of the
BD: the BD is SIE-owned, so that the call returns before it asks for the size, or the
loop of `usbBdGetSize(h)` ends at its first test, because handle `h + 1` is above
`highestSetupBD` or is allocated. -/
def HandOverReturns (s : BdState) (h : Nat) : Prop :=
  (s.usbBdt h).stat.UOWN = true ∨ s.highestSetupBD < h + 1 ∨ (s.usbBdt (h + 1)).addr ≠ 0

instance (s : BdState) (h : Nat) : Decidable (HandOverReturns s h) := by
  unfold HandOverReturns; infer_instance

/-- The BD table after `usbInit`, `usbBdSetup(1, USB_ED_OUT, 32)` and
`usbBdSetup(2, USB_ED_IN, 32)`: the handles 0, 1, 2 and 5 are allocated, 3 and 4 are
not. -/
def BdState.gapTable : BdState :=
  ((runSetups 1 (usbBdInit BdState.blank, [])
      [⟨0, USB_ED_OUT, 8⟩, ⟨0, USB_ED_IN, 8⟩, ⟨1, USB_ED_OUT, 32⟩, ⟨2, USB_ED_IN, 32⟩]).map
    Prod.fst).getD BdState.blank

/-- The system after `usbInit` and the call `usbBdSetup(1, USB_ED_IN, 32)` of the
application: the handles 0, 1 and 3 are allocated, 2 is not. -/
def UsbSystem.afterInitGap : UsbSystem :=
  UsbSystem.afterInit.withBd
    (((usbBdSetup 1 UsbSystem.afterInit.drv.bd 1 USB_ED_IN 32).map Prod.snd).getD
      BdState.blank)

/-- The system after `usbInit`, `usbBdSetup(1, USB_ED_IN, 32)` and the event
Attached. -/
def UsbSystem.attachedGap : UsbSystem :=
  ((dispatch 1 Env.sample Locals.zero UsbSystem.afterInitGap USB_EV_ATTACHED).map
    Prod.snd).getD UsbSystem.blank

/-! ## Basic facts -/

theorem getHandle_of_lt (endpoint : Nat) (dir : usbEndpointDirection) (handle : Nat)
    (h : endpoint < 16) :
    usbBdGetHandleForEndpoint endpoint dir handle = (USB_SUCCESS, endpoint * 2 + dir.toNat) := by
  unfold usbBdGetHandleForEndpoint USB_MAX_ENDPOINTS
  cases dir <;> simp [usbEndpointDirection.toNat, Nat.not_le.mpr h]

theorem getHandle_of_ge (endpoint : Nat) (dir : usbEndpointDirection) (handle : Nat)
    (h : 16 ≤ endpoint) :
    usbBdGetHandleForEndpoint endpoint dir handle = (USB_EBADPARM, handle) := by
  unfold usbBdGetHandleForEndpoint USB_MAX_ENDPOINTS
  simp [h]

/-- The loop of `usbBdGetSize` is not entered when `loopHandle` is above
`highestSetupBD`. -/
theorem getSizeLoop_exit (s : BdState) (handle loopHandle : Nat) (size : Int) (fuel : Nat)
    (h : s.highestSetupBD < loopHandle) :
    usbBdGetSizeLoop s handle loopHandle size (fuel + 1) = some size := by
  simp [usbBdGetSizeLoop, Nat.not_le.mpr h]

/-- The loop of `usbBdGetSize` ends in its first iteration when the BD at `loopHandle`
is allocated. -/
theorem getSizeLoop_break (s : BdState) (handle loopHandle : Nat) (size : Int) (fuel : Nat)
    (h : loopHandle ≤ s.highestSetupBD) (ha : (s.usbBdt loopHandle).addr ≠ 0) :
    usbBdGetSizeLoop s handle loopHandle size (fuel + 1)
      = some (ptrDiff (s.usbBdt loopHandle).addr (s.usbBdt handle).addr) := by
  simp [usbBdGetSizeLoop, h, Ne.symm ha]

/-- The loop of `usbBdGetSize` never ends when the BD at `loopHandle` is not allocated
and `loopHandle` is not above `highestSetupBD`. -/
theorem getSizeLoop_spin (s : BdState) (handle loopHandle : Nat) (size : Int)
    (h : loopHandle ≤ s.highestSetupBD) (ha : (s.usbBdt loopHandle).addr = 0) :
    ∀ fuel, usbBdGetSizeLoop s handle loopHandle size fuel = none := by
  intro fuel
  induction fuel with
  | zero => rfl
  | succ n ih => simp [usbBdGetSizeLoop, h, ha, ih]

theorem getSize_last (fuel : Nat) (s : BdState) (handle : Nat)
    (h : s.highestSetupBD ≤ handle) :
    usbBdGetSize (fuel + 1) s handle
      = some (ptrDiff s.endOfAllocatedBuffer (s.usbBdt handle).addr) := by
  unfold usbBdGetSize
  exact getSizeLoop_exit s handle (handle + 1) _ fuel (by omega)

theorem free_eq (s : BdState) (hs : ArenaOk s) :
    u16 ((USB_CFG_ENDPOINT_BUFFER_SIZE : Int)
      - (u16 (ptrDiff s.endOfAllocatedBuffer USB_CFG_ENDPOINT_BUFFER_ORIGIN) : Int))
      = s.free := by
  unfold ArenaOk USB_CFG_ENDPOINT_BUFFER_ORIGIN USB_CFG_ENDPOINT_BUFFER_SIZE at hs
  unfold BdState.free u16 ptrDiff i16 USB_CFG_ENDPOINT_BUFFER_ORIGIN USB_CFG_ENDPOINT_BUFFER_SIZE
  omega

/-- Full description of `usbBdSetup` in a state that satisfies the arena invariant. -/
theorem usbBdSetup_eq (fuel : Nat) (s : BdState) (endpoint : Nat)
    (dir : usbEndpointDirection) (size : Nat) (hs : ArenaOk s) :
    usbBdSetup (fuel + 1) s endpoint dir size =
      if 16 ≤ endpoint ∨ size = 0 then some (USB_EBADPARM, s)
      else if endpoint * 2 + dir.toNat < s.highestSetupBD then some (USB_ERROR, s)
      else if (s.usbBdt (endpoint * 2 + dir.toNat)).addr ≠ 0 then some (USB_ERROR, s)
      else if s.free < size then some (USB_ENOMEM, s)
      else some (USB_SUCCESS, setupDone s (endpoint * 2 + dir.toNat) size) := by
  unfold usbBdSetup
  by_cases h1 : 16 ≤ endpoint ∨ size = 0
  · have : endpoint ≥ USB_MAX_ENDPOINTS ∨ 0 = size := by
      unfold USB_MAX_ENDPOINTS; omega
    simp [h1, this]
  · have h1' : ¬ (endpoint ≥ USB_MAX_ENDPOINTS ∨ 0 = size) := by
      unfold USB_MAX_ENDPOINTS; omega
    rw [if_neg h1', if_neg h1, getHandle_of_lt endpoint dir 0 (by omega)]
    simp only []
    by_cases h2 : endpoint * 2 + dir.toNat < s.highestSetupBD
    · simp [h2]
    · rw [if_neg h2, if_neg h2]
      by_cases h3 : (s.usbBdt (endpoint * 2 + dir.toNat)).addr ≠ 0
      · simp [h3, Ne.symm h3]
      · rw [if_neg (fun h => h3 (Ne.symm h)), if_neg h3, free_eq s hs]
        by_cases h4 : s.free < size
        · simp [h4]
        · rw [if_neg h4, if_neg h4]
          have hfree : s.endOfAllocatedBuffer + size < 65536 ∧ size ≤ 0x300 := by
            unfold ArenaOk USB_CFG_ENDPOINT_BUFFER_ORIGIN USB_CFG_ENDPOINT_BUFFER_SIZE at hs
            unfold BdState.free USB_CFG_ENDPOINT_BUFFER_ORIGIN USB_CFG_ENDPOINT_BUFFER_SIZE at h4
            omega
          unfold usbBdResetSize
          rw [getSize_last fuel _ _ (by simp [BdState.setBd])]
          simp only [BdState.setBd, BdState.setCnt, BdState.setBC, setupDone, ite_true,
            Nat.mod_eq_of_lt hfree.1]
          have hd : ptrDiff (s.endOfAllocatedBuffer + size) s.endOfAllocatedBuffer = (size : Int) := by
            unfold ptrDiff i16; omega
          rw [hd]
          congr 3
          funext h
          by_cases hh : h = endpoint * 2 + dir.toNat
          · simp [hh]
            constructor <;> omega
          · simp [hh]

/-- With fuel for one loop test `usbBdSetup` returns, in every state. -/
theorem usbBdSetup_returns (fuel : Nat) (s : BdState) (endpoint : Nat)
    (dir : usbEndpointDirection) (size : Nat) :
    ∃ r, usbBdSetup (fuel + 1) s endpoint dir size = some r := by
  unfold usbBdSetup
  dsimp only
  split_ifs
  · exact ⟨_, rfl⟩
  · exact ⟨_, rfl⟩
  · exact ⟨_, rfl⟩
  · exact ⟨_, rfl⟩
  · unfold usbBdResetSize
    rw [getSize_last fuel _ _ (by simp [BdState.setBd])]
    exact ⟨_, rfl⟩

/-- A call of `usbBdSetup` that does not return `USB_SUCCESS` returns the state it
received. -/
theorem usbBdSetup_failure_state (fuel : Nat) (s : BdState) (endpoint : Nat)
    (dir : usbEndpointDirection) (size : Nat) (ret : usbError) (s' : BdState)
    (h : usbBdSetup fuel s endpoint dir size = some (ret, s')) (hret : ret ≠ USB_SUCCESS) :
    s' = s := by
  unfold usbBdSetup at h
  dsimp only at h
  split_ifs at h
  · cases h; rfl
  · cases h; rfl
  · cases h; rfl
  · cases h; rfl
  · split at h
    · cases h
    · cases h; exact absurd rfl hret

theorem handle_roundtrip_arith (h : Nat) (hh : h < 32) :
    usbBdGetEndpoint h < 16 ∧
      usbBdGetEndpoint h * 2 + (usbBdGetDirection h).toNat = h := by
  interval_cases h <;> decide

theorem ustat_fields (u : Nat) (hu : u < 256) :
    USTAT_EP u = specUstatEndpoint u ∧ USTAT_DIR u = specUstatDir u ∧
      usbBdGetHandleForTransaction u = specHandle (specUstatEndpoint u) (specUstatDir u) ∧
      usbBdGetHandleForTransaction u
        = specUstatEndpoint u * 2 + (dirOfBit (specUstatDir u)).toNat := by
  interval_cases u <;> decide

/-! ## The allocation chain -/

theorem chain_lower (tbl : Nat → usbBd) (log : List (Nat × Nat)) :
    ∀ a e, Chain tbl a log e → ∀ p ∈ log, a ≤ (tbl p.1).addr := by
  induction log with
  | nil => intro a e _ p hp; cases hp
  | cons q rest ih =>
    intro a e hc p hp
    obtain ⟨h1, h2, h3⟩ := hc
    rcases List.mem_cons.mp hp with rfl | hp
    · omega
    · have := ih _ _ h3 p hp
      omega

theorem chain_congr (tbl tbl' : Nat → usbBd) (log : List (Nat × Nat)) :
    ∀ a e, (∀ p ∈ log, tbl' p.1 = tbl p.1) → Chain tbl a log e → Chain tbl' a log e := by
  induction log with
  | nil => intro a e _ hc; exact hc
  | cons q rest ih =>
    intro a e hagree hc
    obtain ⟨h1, h2, h3⟩ := hc
    refine ⟨?_, h2, ih _ _ (fun p hp => hagree p (List.mem_cons_of_mem _ hp)) h3⟩
    rw [hagree q (List.mem_cons_self _ _)]
    exact h1

theorem chain_snoc (tbl : Nat → usbBd) (log : List (Nat × Nat)) (h n : Nat) :
    ∀ a e, Chain tbl a log e → (tbl h).addr = e → 0 < n →
      Chain tbl a (log ++ [(h, n)]) (e + n) := by
  induction log with
  | nil =>
    intro a e hc ha hn
    have : a = e := hc
    subst this
    exact ⟨ha, hn, rfl⟩
  | cons q rest ih =>
    intro a e hc ha hn
    obtain ⟨h1, h2, h3⟩ := hc
    exact ⟨h1, h2, ih _ _ h3 ha hn⟩

theorem chain_head (tbl : Nat → usbBd) (log : List (Nat × Nat)) (a e : Nat)
    (hc : Chain tbl a log e) (p : Nat × Nat) (hp : log.head? = some p) :
    (tbl p.1).addr = a := by
  cases log with
  | nil => cases hp
  | cons q rest =>
    simp only [List.head?_cons, Option.some.injEq] at hp
    subst hp
    exact hc.1

theorem chain_last (tbl : Nat → usbBd) (log : List (Nat × Nat)) :
    ∀ a e, Chain tbl a log e → ∀ p, log.getLast? = some p → e = (tbl p.1).addr + p.2 := by
  induction log with
  | nil => intro a e _ p hp; cases hp
  | cons q rest ih =>
    intro a e hc p hp
    obtain ⟨h1, h2, h3⟩ := hc
    cases rest with
    | nil =>
      simp only [List.getLast?_singleton, Option.some.injEq] at hp
      subst hp
      have : a + q.2 = e := h3
      omega
    | cons r rest' =>
      rw [List.getLast?_cons_cons] at hp
      exact ih _ _ h3 p hp

theorem chain_next (tbl : Nat → usbBd) (log : List (Nat × Nat)) :
    ∀ a e, Chain tbl a log e → ∀ i p q, log[i]? = some p → log[i + 1]? = some q →
      (tbl q.1).addr = (tbl p.1).addr + p.2 := by
  induction log with
  | nil => intro a e _ i p q hp; simp at hp
  | cons r rest ih =>
    intro a e hc i p q hp hq
    obtain ⟨h1, h2, h3⟩ := hc
    rw [List.getElem?_cons_succ] at hq
    cases i with
    | zero =>
      simp only [List.getElem?_cons_zero, Option.some.injEq] at hp
      subst hp
      have hh : rest.head? = some q := by
        cases rest with
        | nil => simp at hq
        | cons x xs => simpa using hq
      rw [chain_head tbl rest _ e h3 q hh, h1]
    | succ j =>
      rw [List.getElem?_cons_succ] at hp
      exact ih _ _ h3 j p q hp hq

theorem chain_increasing (tbl : Nat → usbBd) (log : List (Nat × Nat)) :
    ∀ a e, Chain tbl a log e → (log.map (fun p => (tbl p.1).addr)).Pairwise (· < ·) := by
  induction log with
  | nil => intro a e _; exact List.Pairwise.nil
  | cons r rest ih =>
    intro a e hc
    obtain ⟨h1, h2, h3⟩ := hc
    rw [List.map_cons, List.pairwise_cons]
    refine ⟨?_, ih _ _ h3⟩
    intro x hx
    obtain ⟨p, hp, rfl⟩ := List.mem_map.mp hx
    have := chain_lower tbl rest _ _ h3 p hp
    omega

theorem setupInv_init (s0 : BdState) : SetupInv (usbBdInit s0) [] where
  arena := by
    unfold ArenaOk usbBdInit USB_CFG_ENDPOINT_BUFFER_ORIGIN USB_CFG_ENDPOINT_BUFFER_SIZE
    simp
  chain := rfl
  bound := by intro p hp; cases hp
  top := by simp [usbBdInit, USB_CFG_NUM_BDS]
  sorted := List.Pairwise.nil
  alloc := by
    intro h hh
    simp [usbBdInit, hh, usbBd.zero]

theorem setupInv_done (s : BdState) (log : List (Nat × Nat)) (handle size : Nat)
    (hinv : SetupInv s log) (hh : handle < USB_CFG_NUM_BDS) (hsz : size ≠ 0)
    (hord : ¬ handle < s.highestSetupBD) (hfresh : (s.usbBdt handle).addr = 0)
    (hfit : ¬ s.free < size) :
    SetupInv (setupDone s handle size) (log ++ [(handle, size)]) := by
  have harena := hinv.arena
  unfold ArenaOk USB_CFG_ENDPOINT_BUFFER_ORIGIN USB_CFG_ENDPOINT_BUFFER_SIZE at harena
  unfold BdState.free USB_CFG_ENDPOINT_BUFFER_ORIGIN USB_CFG_ENDPOINT_BUFFER_SIZE at hfit
  have hnotin : ∀ p ∈ log, p.1 ≠ handle := by
    intro p hp heq
    have := chain_lower _ _ _ _ hinv.chain p hp
    rw [heq, hfresh] at this
    unfold USB_CFG_ENDPOINT_BUFFER_ORIGIN at this
    omega
  refine ⟨?_, ?_, ?_, ?_, ?_, ?_⟩
  · unfold ArenaOk USB_CFG_ENDPOINT_BUFFER_ORIGIN USB_CFG_ENDPOINT_BUFFER_SIZE setupDone
    simp only
    omega
  · apply chain_snoc
    · apply chain_congr s.usbBdt _ log _ _ _ hinv.chain
      intro p hp
      simp [setupDone, hnotin p hp]
    · simp [setupDone]
    · omega
  · intro p hp
    simp only [setupDone]
    rcases List.mem_append.mp hp with hp | hp
    · have := hinv.bound p hp
      omega
    · simp only [List.mem_singleton] at hp
      subst hp
      exact Nat.le_refl _
  · exact hh
  · rw [List.map_append, List.pairwise_append]
    refine ⟨hinv.sorted, by simp, ?_⟩
    intro a ha b hb
    simp only [List.map_cons, List.map_nil, List.mem_singleton] at hb
    subst hb
    obtain ⟨p, hp, rfl⟩ := List.mem_map.mp ha
    have h1 := hinv.bound p hp
    have h2 := hnotin p hp
    omega
  · intro h hlt
    by_cases he : h = handle
    · subst he
      simp [setupDone]
      omega
    · have := hinv.alloc h hlt
      simp [setupDone, he]
      simpa using this

theorem setupStep_inv (fuel : Nat) (s : BdState) (log : List (Nat × Nat)) (c : SetupCall)
    (hinv : SetupInv s log) :
    ∃ s' log', setupStep (fuel + 1) (s, log) c = some (s', log') ∧ SetupInv s' log' := by
  unfold setupStep
  simp only []
  rw [usbBdSetup_eq fuel s c.endpoint c.dir c.size hinv.arena]
  split_ifs with h1 h2 h3 h4
  · exact ⟨s, log, by simp, hinv⟩
  · exact ⟨s, log, by simp, hinv⟩
  · exact ⟨s, log, by simp, hinv⟩
  · exact ⟨s, log, by simp, hinv⟩
  · have hlt : c.endpoint < 16 := by omega
    refine ⟨setupDone s (c.endpoint * 2 + c.dir.toNat) c.size,
      log ++ [(c.endpoint * 2 + c.dir.toNat, c.size)],
      by simp [getHandle_of_lt c.endpoint c.dir 0 hlt], ?_⟩
    apply setupInv_done s log _ _ hinv
    · unfold USB_CFG_NUM_BDS
      cases c.dir <;> simp [usbEndpointDirection.toNat] <;> omega
    · omega
    · exact h2
    · simpa using h3
    · exact h4

theorem runSetups_inv (fuel : Nat) (calls : List SetupCall) :
    ∀ s log, SetupInv s log →
      ∃ s' log', runSetups (fuel + 1) (s, log) calls = some (s', log') ∧ SetupInv s' log' := by
  induction calls with
  | nil => intro s log hinv; exact ⟨s, log, rfl, hinv⟩
  | cons c cs ih =>
    intro s log hinv
    obtain ⟨s1, log1, hstep, hinv1⟩ := setupStep_inv fuel s log c hinv
    obtain ⟨s2, log2, hrun, hinv2⟩ := ih s1 log1 hinv1
    exact ⟨s2, log2, by simp [runSetups, hstep, hrun], hinv2⟩

theorem usbInit_bd (fuel : Nat) (d0 : UsbDriver) :
    ∃ d, usbInit (fuel + 1) d0 = some (USB_SUCCESS, d) ∧ d.bd = bdAfterInit d0.bd := by
  have h0 : ArenaOk (usbBdInit d0.bd) := (setupInv_init d0.bd).arena
  have h1 : ArenaOk (setupDone (usbBdInit d0.bd) 0 USB_CFG_EP0_BUFFER_SIZE) := by
    unfold ArenaOk setupDone usbBdInit USB_CFG_ENDPOINT_BUFFER_ORIGIN
      USB_CFG_ENDPOINT_BUFFER_SIZE USB_CFG_EP0_BUFFER_SIZE
    simp
  have e0 : usbBdSetup (fuel + 1) (usbBdInit d0.bd) 0 USB_ED_OUT USB_CFG_EP0_BUFFER_SIZE
      = some (USB_SUCCESS, setupDone (usbBdInit d0.bd) 0 USB_CFG_EP0_BUFFER_SIZE) := by
    rw [usbBdSetup_eq fuel _ _ _ _ h0]
    simp [usbBdInit, usbEndpointDirection.toNat, USB_CFG_EP0_BUFFER_SIZE, BdState.free,
      USB_CFG_NUM_BDS, usbBd.zero, USB_CFG_ENDPOINT_BUFFER_ORIGIN,
      USB_CFG_ENDPOINT_BUFFER_SIZE]
  have e1 : usbBdSetup (fuel + 1) (setupDone (usbBdInit d0.bd) 0 USB_CFG_EP0_BUFFER_SIZE)
      0 USB_ED_IN USB_CFG_EP0_BUFFER_SIZE
      = some (USB_SUCCESS, bdAfterInit d0.bd) := by
    rw [usbBdSetup_eq fuel _ _ _ _ h1]
    simp [usbBdInit, usbEndpointDirection.toNat, USB_CFG_EP0_BUFFER_SIZE, BdState.free,
      USB_CFG_NUM_BDS, usbBd.zero, USB_CFG_ENDPOINT_BUFFER_ORIGIN,
      USB_CFG_ENDPOINT_BUFFER_SIZE, setupDone, bdAfterInit]
  have r5 : List.range USB_EV_MAX = [0, 1, 2, 3, 4] := by decide
  have r2 : List.range USB_CB_MAX = [0, 1] := by decide
  unfold usbInit
  rw [r5, r2]
  dsimp only [List.foldl, UsbDriver.setHandler, UsbDriver.setCallback, usbInitHardware]
  rw [e0, Option.some_bind]
  dsimp only
  rw [if_neg (by decide), e1, Option.some_bind]
  dsimp only
  rw [if_neg (by decide)]
  exact ⟨_, rfl, rfl⟩

theorem bdAfterInit_facts (s0 : BdState) :
    ArenaOk (bdAfterInit s0) ∧ (bdAfterInit s0).highestSetupBD = 1 ∧
      (bdAfterInit s0).endOfAllocatedBuffer = 0x510 ∧
      (∀ h, 2 ≤ h → h < 32 → ((bdAfterInit s0).usbBdt h).addr = 0) := by
  refine ⟨?_, rfl, rfl, ?_⟩
  · unfold ArenaOk bdAfterInit setupDone usbBdInit USB_CFG_ENDPOINT_BUFFER_ORIGIN
      USB_CFG_ENDPOINT_BUFFER_SIZE USB_CFG_EP0_BUFFER_SIZE
    simp
  · intro h h2 h32
    have e1 : ¬ h = 1 := by omega
    have e0 : ¬ h = 0 := by omega
    simp [bdAfterInit, setupDone, usbBdInit, USB_CFG_NUM_BDS, e1, e0, h32, usbBd.zero]

theorem getDirection_out_iff (h : Nat) : usbBdGetDirection h = USB_ED_OUT ↔ h % 2 = 0 := by
  unfold usbBdGetDirection
  rw [Nat.and_one_is_mod]
  constructor
  · intro hd
    by_contra hne
    have : ¬ (0 = h % 2) := fun e => hne e.symm
    rw [if_neg this] at hd
    cases hd
  · intro he
    rw [if_pos he.symm]

theorem getDirection_in_iff (h : Nat) : usbBdGetDirection h = USB_ED_IN ↔ h % 2 = 1 := by
  have := getDirection_out_iff h
  cases hd : usbBdGetDirection h
  · rw [hd] at this
    have h0 : h % 2 = 0 := this.mp rfl
    constructor
    · intro hc; cases hc
    · intro h1; omega
  · rw [hd] at this
    constructor
    · intro _
      by_contra hne
      have h0 : h % 2 = 0 := by omega
      cases this.mpr h0
    · intro _; rfl

/-! ## Theorems on the claims -/

/-- Claim C1: every sequence of `usbBdSetup` calls applied after `usbBdInit` runs to
its end; the log of the calls that succeeded is in strictly ascending handle order and
lists the allocated BDs; the first logged BD has the arena base `0x500` as its address,
the addresses are strictly increasing, the address of each next logged BD is the
address of the one before plus the size requested for that one, and
`endOfAllocatedBuffer` is the address of the last logged BD plus its requested size. -/
theorem usbBdSetup_buffers_consecutive (fuel : Nat) (s0 : BdState)
    (calls : List SetupCall) :
    ∃ s log, runSetups (fuel + 1) (usbBdInit s0, []) calls = some (s, log) ∧
      (log.map Prod.fst).Pairwise (· < ·) ∧
      (∀ h, h < USB_CFG_NUM_BDS → (s.addrOf h ≠ 0 ↔ h ∈ log.map Prod.fst)) ∧
      (∀ p, log.head? = some p → s.addrOf p.1 = 0x500) ∧
      (log.map (fun p => s.addrOf p.1)).Pairwise (· < ·) ∧
      (∀ i p q, log[i]? = some p → log[i + 1]? = some q →
        s.addrOf q.1 = s.addrOf p.1 + p.2) ∧
      (∀ p, log.getLast? = some p → s.endOfAllocatedBuffer = s.addrOf p.1 + p.2) := by
  obtain ⟨s, log, hrun, hinv⟩ := runSetups_inv fuel calls _ _ (setupInv_init s0)
  refine ⟨s, log, hrun, hinv.sorted, hinv.alloc, ?_, ?_, ?_, ?_⟩
  · intro p hp
    exact chain_head _ _ _ _ hinv.chain p hp
  · exact chain_increasing _ _ _ _ hinv.chain
  · intro i p q hp hq
    exact chain_next _ _ _ _ hinv.chain i p q hp hq
  · intro p hp
    exact chain_last _ _ _ _ hinv.chain p hp

/-- Claim C2: in a state whose bump pointer lies in the arena, `usbBdSetup(endpoint,
dir, size)` returns `USB_EBADPARM` iff `endpoint >= 16` or `size = 0`; otherwise it
returns `USB_ERROR` iff the handle `2 * endpoint + dir` is below `highestSetupBD` or
the BD at that handle has an address; otherwise it returns `USB_ENOMEM` iff `size`
exceeds the free bytes of the arena; otherwise it returns `USB_SUCCESS`, the BD gets
the old `endOfAllocatedBuffer` as its address, `endOfAllocatedBuffer` advances by
`size`, `highestSetupBD` becomes the handle and the other BDs keep their content. -/
theorem usbBdSetup_result (fuel : Nat) (s : BdState) (endpoint : Nat)
    (dir : usbEndpointDirection) (size : Nat) (hs : ArenaOk s) :
    ((usbBdSetup (fuel + 1) s endpoint dir size).map Prod.fst = some USB_EBADPARM
        ↔ (16 ≤ endpoint ∨ size = 0)) ∧
    (¬ (16 ≤ endpoint ∨ size = 0) →
      ((usbBdSetup (fuel + 1) s endpoint dir size).map Prod.fst = some USB_ERROR
        ↔ (endpoint * 2 + dir.toNat < s.highestSetupBD
            ∨ s.addrOf (endpoint * 2 + dir.toNat) ≠ 0))) ∧
    (¬ (16 ≤ endpoint ∨ size = 0) →
      ¬ (endpoint * 2 + dir.toNat < s.highestSetupBD
            ∨ s.addrOf (endpoint * 2 + dir.toNat) ≠ 0) →
      ((usbBdSetup (fuel + 1) s endpoint dir size).map Prod.fst = some USB_ENOMEM
        ↔ s.free < size)) ∧
    (¬ (16 ≤ endpoint ∨ size = 0) →
      ¬ (endpoint * 2 + dir.toNat < s.highestSetupBD
            ∨ s.addrOf (endpoint * 2 + dir.toNat) ≠ 0) →
      ¬ s.free < size →
      ∃ s', usbBdSetup (fuel + 1) s endpoint dir size = some (USB_SUCCESS, s') ∧
        (usbBdGetHandleForEndpoint endpoint dir 0).2 = endpoint * 2 + dir.toNat ∧
        s'.addrOf (endpoint * 2 + dir.toNat) = s.endOfAllocatedBuffer ∧
        s'.endOfAllocatedBuffer = s.endOfAllocatedBuffer + size ∧
        s'.highestSetupBD = endpoint * 2 + dir.toNat ∧
        (∀ h, h ≠ endpoint * 2 + dir.toNat → s'.usbBdt h = s.usbBdt h)) := by
  rw [usbBdSetup_eq fuel s endpoint dir size hs]
  unfold BdState.addrOf
  refine ⟨?_, ?_, ?_, ?_⟩
  · split_ifs with h1 h2 h3 h4 <;> simp [h1]
  · intro h1
    rw [if_neg h1]
    split_ifs with h2 h3 h4 <;> simp [h2] <;>
      first | exact h3 | exact not_not.mp h3
  · intro h1 h23
    have h2 : ¬ endpoint * 2 + dir.toNat < s.highestSetupBD := fun h => h23 (Or.inl h)
    have h3 : ¬ (s.usbBdt (endpoint * 2 + dir.toNat)).addr ≠ 0 := fun h => h23 (Or.inr h)
    rw [if_neg h1, if_neg h2, if_neg h3]
    split_ifs with h4 <;> simp [h4]
  · intro h1 h23 h4
    have h2 : ¬ endpoint * 2 + dir.toNat < s.highestSetupBD := fun h => h23 (Or.inl h)
    have h3 : ¬ (s.usbBdt (endpoint * 2 + dir.toNat)).addr ≠ 0 := fun h => h23 (Or.inr h)
    rw [if_neg h1, if_neg h2, if_neg h3, if_neg h4]
    refine ⟨_, rfl, ?_, ?_, rfl, rfl, ?_⟩
    · rw [getHandle_of_lt endpoint dir 0 (by omega)]
    · simp [setupDone]
    · intro h hh
      simp [setupDone, hh]

/-- Instance of `usbBdSetup_result`: the first call after `usbBdInit`,
`usbBdSetup(0, USB_ED_OUT, 8)`. -/
theorem usbBdSetup_result_witness :
    ArenaOk (usbBdInit BdState.blank) ∧
    ((usbBdSetup 1 (usbBdInit BdState.blank) 0 USB_ED_OUT 8).map Prod.fst
        = some USB_EBADPARM ↔ (16 ≤ 0 ∨ 8 = 0)) :=
  ⟨by decide, (usbBdSetup_result 0 (usbBdInit BdState.blank) 0 USB_ED_OUT 8 (by decide)).1⟩

/-- Claim C4: whenever `usbBdSetup` returns anything other than `USB_SUCCESS`, the BD
table, `endOfAllocatedBuffer` and `highestSetupBD` are what they were before the
call. -/
theorem usbBdSetup_failure_unchanged (fuel : Nat) (s : BdState) (endpoint : Nat)
    (dir : usbEndpointDirection) (size : Nat) (ret : usbError) (s' : BdState)
    (h : usbBdSetup fuel s endpoint dir size = some (ret, s')) (hret : ret ≠ USB_SUCCESS) :
    s'.usbBdt = s.usbBdt ∧ s'.endOfAllocatedBuffer = s.endOfAllocatedBuffer ∧
      s'.highestSetupBD = s.highestSetupBD := by
  rw [usbBdSetup_failure_state fuel s endpoint dir size ret s' h hret]
  exact ⟨rfl, rfl, rfl⟩

/-- Instance of `usbBdSetup_failure_unchanged`: `usbBdSetup(16, USB_ED_OUT, 8)` after
`usbBdInit` returns `USB_EBADPARM`. -/
theorem usbBdSetup_failure_unchanged_witness :
    usbBdSetup 1 (usbBdInit BdState.blank) 16 USB_ED_OUT 8
        = some (USB_EBADPARM, usbBdInit BdState.blank) ∧
    USB_EBADPARM ≠ USB_SUCCESS ∧
    ((usbBdInit BdState.blank).usbBdt = (usbBdInit BdState.blank).usbBdt ∧
      (usbBdInit BdState.blank).endOfAllocatedBuffer
        = (usbBdInit BdState.blank).endOfAllocatedBuffer ∧
      (usbBdInit BdState.blank).highestSetupBD = (usbBdInit BdState.blank).highestSetupBD) :=
  ⟨rfl, by decide, usbBdSetup_failure_unchanged 1 (usbBdInit BdState.blank) 16 USB_ED_OUT 8
    USB_EBADPARM (usbBdInit BdState.blank) rfl (by decide)⟩

/-- Claim C3, as stated, fails: right after `usbInit`, with the OUT BD of endpoint 1
(handle 2) not set up, `usbBdSetup(1, USB_ED_IN, 32)` returns `USB_SUCCESS`, moves
`endOfAllocatedBuffer` from `0x510` to `0x530` and `highestSetupBD` from 1 to 3. -/
theorem usbBdSetup_in_before_out_counterexample :
    ((usbInit 1 UsbDriver.blank).bind fun r =>
      (usbBdSetup 1 r.2.bd 1 USB_ED_IN 32).map fun q =>
        (r.1, r.2.bd.addrOf 2, r.2.bd.endOfAllocatedBuffer, r.2.bd.highestSetupBD,
          q.1, q.2.endOfAllocatedBuffer, q.2.highestSetupBD))
      = some (USB_SUCCESS, 0, 0x510, 1, USB_SUCCESS, 0x530, 3) := by
  rfl

/-- Claim C3, amended: after `usbInit`, for every endpoint `e` in 1..15 (its OUT BD not
set up) and every size `n` with `0 < n <= 0x2F0`, `usbBdSetup(e, USB_ED_IN, n)` returns
`USB_SUCCESS` and allocates `n` bytes at the old `endOfAllocatedBuffer`; it is the
following `usbBdSetup(e, USB_ED_OUT, m)`, for every `m > 0`, that returns `USB_ERROR`
and leaves the BD table, `endOfAllocatedBuffer` and `highestSetupBD` as they were. -/
theorem usbBdSetup_out_after_in_rejected (fuel : Nat) (d0 : UsbDriver) (e n m : Nat)
    (he1 : 1 ≤ e) (he2 : e ≤ 15) (hn : 0 < n) (hn2 : n ≤ 0x2F0) (hm : 0 < m) :
    ∃ d s', usbInit (fuel + 1) d0 = some (USB_SUCCESS, d) ∧
      d.bd.addrOf (e * 2) = 0 ∧
      usbBdSetup (fuel + 1) d.bd e USB_ED_IN n = some (USB_SUCCESS, s') ∧
      s'.addrOf (e * 2 + 1) = d.bd.endOfAllocatedBuffer ∧
      s'.endOfAllocatedBuffer = d.bd.endOfAllocatedBuffer + n ∧
      s'.highestSetupBD = e * 2 + 1 ∧
      usbBdSetup (fuel + 1) s' e USB_ED_OUT m = some (USB_ERROR, s') := by
  obtain ⟨d, hd, hbd⟩ := usbInit_bd fuel d0
  obtain ⟨hok, hhi, hend, hfree⟩ := bdAfterInit_facts d0.bd
  have hok' : ArenaOk (setupDone (bdAfterInit d0.bd) (e * 2 + 1) n) := by
    unfold ArenaOk USB_CFG_ENDPOINT_BUFFER_ORIGIN USB_CFG_ENDPOINT_BUFFER_SIZE
    simp only [setupDone, hend]
    omega
  refine ⟨d, setupDone (bdAfterInit d0.bd) (e * 2 + 1) n, hd, ?_, ?_, ?_, ?_, ?_, ?_⟩
  · rw [hbd]
    exact hfree (e * 2) (by omega) (by omega)
  · rw [hbd, usbBdSetup_eq fuel _ _ _ _ hok]
    have h1 : ¬ (16 ≤ e ∨ n = 0) := by omega
    have h2 : ¬ (e * 2 + USB_ED_IN.toNat < (bdAfterInit d0.bd).highestSetupBD) := by
      rw [hhi]; simp [usbEndpointDirection.toNat]
    have h3 : ¬ (((bdAfterInit d0.bd).usbBdt (e * 2 + USB_ED_IN.toNat)).addr ≠ 0) := by
      have := hfree (e * 2 + 1) (by omega) (by omega)
      simpa [usbEndpointDirection.toNat] using this
    have h4 : ¬ ((bdAfterInit d0.bd).free < n) := by
      unfold BdState.free USB_CFG_ENDPOINT_BUFFER_ORIGIN USB_CFG_ENDPOINT_BUFFER_SIZE
      rw [hend]; omega
    rw [if_neg h1, if_neg h2, if_neg h3, if_neg h4]
    rfl
  · simp [BdState.addrOf, setupDone, hbd]
  · simp [setupDone, hbd]
  · rfl
  · rw [usbBdSetup_eq fuel _ _ _ _ hok']
    have h1 : ¬ (16 ≤ e ∨ m = 0) := by omega
    have h2 : e * 2 + USB_ED_OUT.toNat
        < (setupDone (bdAfterInit d0.bd) (e * 2 + 1) n).highestSetupBD := by
      simp [setupDone, usbEndpointDirection.toNat]
    rw [if_neg h1, if_pos h2]

/-- Instance of `usbBdSetup_out_after_in_rejected`: `usbInit`, then
`usbBdSetup(1, USB_ED_IN, 32)`, then `usbBdSetup(1, USB_ED_OUT, 32)`. -/
theorem usbBdSetup_out_after_in_rejected_witness :
    ∃ d s', usbInit 1 UsbDriver.blank = some (USB_SUCCESS, d) ∧
      d.bd.addrOf (1 * 2) = 0 ∧
      usbBdSetup 1 d.bd 1 USB_ED_IN 32 = some (USB_SUCCESS, s') ∧
      s'.addrOf (1 * 2 + 1) = d.bd.endOfAllocatedBuffer ∧
      s'.endOfAllocatedBuffer = d.bd.endOfAllocatedBuffer + 32 ∧
      s'.highestSetupBD = 1 * 2 + 1 ∧
      usbBdSetup 1 s' 1 USB_ED_OUT 32 = some (USB_ERROR, s') :=
  usbBdSetup_out_after_in_rejected 0 UsbDriver.blank 1 32 32 (by decide) (by decide)
    (by decide) (by decide) (by decide)

/-- Claim C5 fails on the code: after `usbBdInit` and the successful calls
`usbBdSetup(0, USB_ED_OUT, 8)`, `usbBdSetup(0, USB_ED_IN, 8)` and
`usbBdSetup(1, USB_ED_IN, 32)`, the BD with handle 1 was set up with 8 bytes, and
`usbBdGetSize(1)` returns with no amount of fuel: handle 2 is not allocated and the
loop never moves on from it. -/
theorem usbBdGetSize_gap_never_returns :
    ∃ s, runSetups 1 (usbBdInit BdState.blank, [])
        [⟨0, USB_ED_OUT, 8⟩, ⟨0, USB_ED_IN, 8⟩, ⟨1, USB_ED_IN, 32⟩]
        = some (s, [(0, 8), (1, 8), (3, 32)]) ∧
      ∀ fuel, usbBdGetSize fuel s 1 = none :=
  ⟨_, rfl, fun fuel => getSizeLoop_spin _ 1 2 _ (by decide) (by decide) fuel⟩

/-- Claim C6: for every handle `h` below 32,
`usbBdGetHandleForEndpoint(usbBdGetEndpoint(h), usbBdGetDirection(h))` returns
`USB_SUCCESS` and writes back `h`, whatever `*handle` held before. -/
theorem usbBdGetHandleForEndpoint_roundtrip (h handle0 : Nat) (hh : h < 32) :
    usbBdGetHandleForEndpoint (usbBdGetEndpoint h) (usbBdGetDirection h) handle0
      = (USB_SUCCESS, h) := by
  obtain ⟨h1, h2⟩ := handle_roundtrip_arith h hh
  rw [getHandle_of_lt _ _ _ h1, h2]

/-- Instance of `usbBdGetHandleForEndpoint_roundtrip`: handle 3 (endpoint 1, IN). -/
theorem usbBdGetHandleForEndpoint_roundtrip_witness :
    usbBdGetHandleForEndpoint (usbBdGetEndpoint 3) (usbBdGetDirection 3) 0
      = (USB_SUCCESS, 3) :=
  usbBdGetHandleForEndpoint_roundtrip 3 0 (by decide)

/-- Claim C7: for every value of the 8-bit register USTAT,
`usbBdGetHandleForTransaction` returns the handle that `usbBdGetHandleForEndpoint`
writes, with `USB_SUCCESS`, for the endpoint number in USTAT bits 6..3 and the
direction in the DIR bit (0 = OUT, 1 = IN), and this handle is
`(endpoint << 1) | direction_bit`. -/
theorem usbBdGetHandleForTransaction_encoding (USTAT handle0 : Nat) (hu : USTAT < 256) :
    usbBdGetHandleForEndpoint (specUstatEndpoint USTAT) (dirOfBit (specUstatDir USTAT))
        handle0 = (USB_SUCCESS, usbBdGetHandleForTransaction USTAT) ∧
    usbBdGetHandleForTransaction USTAT
      = specHandle (specUstatEndpoint USTAT) (specUstatDir USTAT) := by
  obtain ⟨_, _, h3, h4⟩ := ustat_fields USTAT hu
  refine ⟨?_, h3⟩
  have hlt : specUstatEndpoint USTAT < 16 := by
    unfold specUstatEndpoint; omega
  rw [getHandle_of_lt _ _ _ hlt, h4]

/-- Instance of `usbBdGetHandleForTransaction_encoding`: USTAT = `0x0C`, endpoint 1
with the DIR bit set, gives handle 3. -/
theorem usbBdGetHandleForTransaction_encoding_witness :
    usbBdGetHandleForEndpoint (specUstatEndpoint 0x0C) (dirOfBit (specUstatDir 0x0C)) 0
        = (USB_SUCCESS, usbBdGetHandleForTransaction 0x0C) ∧
    usbBdGetHandleForTransaction 0x0C
      = specHandle (specUstatEndpoint 0x0C) (specUstatDir 0x0C) :=
  usbBdGetHandleForTransaction_encoding 0x0C 0 (by decide)

/-- Claim C8: for every BD handle `h` in 0..31 and every BD table state,
`usbBdGetBuf(h)` returns `USB_EACCESS` if and only if the UOWN bit of BD `h` is 1 at
the time of the call; in that case it returns with any amount of fuel. -/
theorem usbBdGetBuf_access_iff (fuel : Nat) (s : BdState) (h buf : Nat) (size : Int)
    (hh : h < 32) :
    ((usbBdGetBuf fuel s h buf size).map (fun r => r.ret) = some USB_EACCESS
      ↔ (s.usbBdt h).stat.UOWN = true) := by
  unfold usbBdGetBuf USB_CFG_NUM_BDS
  rw [if_neg (Nat.not_le.mpr hh)]
  by_cases hu : (s.usbBdt h).stat.UOWN = true
  · simp [hu]
  · rw [if_neg hu]
    split_ifs with h1 h2
    · simp [hu]
    · simp [hu]
    · cases usbBdGetSize fuel s h <;> simp [hu]

/-- Instance of `usbBdGetBuf_access_iff`: BD 1 handed to the SIE by `usbBdRelease`. -/
theorem usbBdGetBuf_access_iff_witness :
    ((usbBdGetBuf 0 (usbBdRelease (usbBdInit BdState.blank) 1).2 1 0 0).map
        (fun r => r.ret) = some USB_EACCESS
      ↔ (((usbBdRelease (usbBdInit BdState.blank) 1).2).usbBdt 1).stat.UOWN = true) :=
  usbBdGetBuf_access_iff 0 (usbBdRelease (usbBdInit BdState.blank) 1).2 1 0 0 (by decide)

/-- Claim C9: for a handle `h` below 32 of a BD whose count fields fit their widths,
`usbBdGetBuf(h)` leaves the globals as they were whenever it returns; when it returns
`USB_SUCCESS` it has written the BD's buffer address and, for an even (OUT) `h`, the
size `cnt + 256 * BC`, for an odd (IN) `h`, the size that `usbBdGetSize(h)` returns;
for a CPU-owned, set-up BD it does return `USB_SUCCESS` when `h` is even, and when `h`
is odd and `usbBdGetSize(h)` returns; and it returns `USB_ERROR`, writing nothing, for
a CPU-owned BD that was never set up. -/
theorem usbBdGetBuf_result (fuel : Nat) (s : BdState) (h buf : Nat) (size : Int)
    (hh : h < 32) (hcnt : (s.usbBdt h).cnt < 256) (hbc : (s.usbBdt h).stat.BC < 4) :
    (∀ r, usbBdGetBuf fuel s h buf size = some r →
      r.state.usbBdt = s.usbBdt ∧
      r.state.endOfAllocatedBuffer = s.endOfAllocatedBuffer ∧
      r.state.highestSetupBD = s.highestSetupBD) ∧
    (∀ r, usbBdGetBuf fuel s h buf size = some r → r.ret = USB_SUCCESS →
      r.buf = s.addrOf h ∧
      (h % 2 = 0 → r.size = (s.count h : Int)) ∧
      (h % 2 = 1 → usbBdGetSize fuel s h = some r.size)) ∧
    ((s.usbBdt h).stat.UOWN = false → s.addrOf h ≠ 0 → h % 2 = 0 →
      usbBdGetBuf fuel s h buf size = some ⟨USB_SUCCESS, s.addrOf h, (s.count h : Int), s⟩) ∧
    ((s.usbBdt h).stat.UOWN = false → s.addrOf h ≠ 0 → h % 2 = 1 →
      ∀ n, usbBdGetSize fuel s h = some n →
        usbBdGetBuf fuel s h buf size = some ⟨USB_SUCCESS, s.addrOf h, n, s⟩) ∧
    ((s.usbBdt h).stat.UOWN = false → s.addrOf h = 0 →
      usbBdGetBuf fuel s h buf size = some ⟨USB_ERROR, buf, size, s⟩) := by
  have hsize : i16 (((s.usbBdt h).cnt : Int) + ((s.usbBdt h).stat.BC : Int) * 256)
      = (s.count h : Int) := by
    unfold i16 BdState.count
    push_cast
    omega
  unfold usbBdGetBuf USB_CFG_NUM_BDS BdState.addrOf
  rw [if_neg (Nat.not_le.mpr hh)]
  by_cases hu : (s.usbBdt h).stat.UOWN = true
  · rw [if_pos hu]
    refine ⟨?_, ?_, ?_, ?_, ?_⟩
    · intro r hr; cases hr; exact ⟨rfl, rfl, rfl⟩
    · intro r hr hs; cases hr; cases hs
    · intro hf; rw [hu] at hf; cases hf
    · intro hf; rw [hu] at hf; cases hf
    · intro hf; rw [hu] at hf; cases hf
  · rw [if_neg hu]
    by_cases ha : 0 = (s.usbBdt h).addr
    · rw [if_pos ha]
      refine ⟨?_, ?_, ?_, ?_, ?_⟩
      · intro r hr; cases hr; exact ⟨rfl, rfl, rfl⟩
      · intro r hr hs; cases hr; cases hs
      · intro _ hne; exact absurd ha.symm hne
      · intro _ hne; exact absurd ha.symm hne
      · intro _ _; rfl
    · rw [if_neg ha]
      by_cases hd : USB_ED_OUT = usbBdGetDirection h
      · have hev : h % 2 = 0 := (getDirection_out_iff h).mp hd.symm
        rw [if_pos hd]
        dsimp only
        rw [hsize]
        refine ⟨?_, ?_, ?_, ?_, ?_⟩
        · intro r hr; cases hr; exact ⟨rfl, rfl, rfl⟩
        · intro r hr _; cases hr
          exact ⟨rfl, fun _ => rfl, fun h1 => by omega⟩
        · intro _ _ _; rfl
        · intro _ _ h1; omega
        · intro _ h0; exact absurd h0.symm ha
      · have hodd : h % 2 = 1 := by
          have := getDirection_out_iff h
          by_contra hne
          exact hd (this.mpr (by omega)).symm
        rw [if_neg hd]
        refine ⟨?_, ?_, ?_, ?_, ?_⟩
        · intro r hr
          cases hg : usbBdGetSize fuel s h with
          | none => rw [hg] at hr; cases hr
          | some n => rw [hg] at hr; cases hr; exact ⟨rfl, rfl, rfl⟩
        · intro r hr _
          cases hg : usbBdGetSize fuel s h with
          | none => rw [hg] at hr; cases hr
          | some n =>
            rw [hg] at hr; cases hr
            exact ⟨rfl, fun h0 => by omega, fun _ => rfl⟩
        · intro _ _ h0; omega
        · intro _ _ _ n hn; rw [hn]
        · intro _ h0; exact absurd h0.symm ha

/-- Instance of `usbBdGetBuf_result`: EP0 OUT (handle 0) after `usbInit`, a CPU-owned
BD with address `0x500` and count 8. -/
theorem usbBdGetBuf_result_witness :
    usbBdGetBuf 0 (bdAfterInit BdState.blank) 0 0 0
      = some ⟨USB_SUCCESS, (bdAfterInit BdState.blank).addrOf 0,
          ((bdAfterInit BdState.blank).count 0 : Int), bdAfterInit BdState.blank⟩ ∧
    (bdAfterInit BdState.blank).addrOf 0 = 0x500 ∧ (bdAfterInit BdState.blank).count 0 = 8 :=
  ⟨(usbBdGetBuf_result 0 (bdAfterInit BdState.blank) 0 0 0 (by decide) (by decide)
      (by decide)).2.2.1 rfl (by decide) rfl, rfl, rfl⟩

/-- Claim C10 fails on the code for a negative size: after `usbInit` the EP0 IN buffer
(handle 1) has 8 bytes, yet `usbBdSend(1, -1)` passes the test `epSize < size`,
returns `USB_SUCCESS` and hands the BD to the SIE with the 10-bit count 1023
(`cnt = 0xFF`, `BC = 3`), which is neither the size passed nor within the buffer. -/
theorem usbBdSend_negative_size :
    ((usbInit 1 UsbDriver.blank).bind fun r =>
      (usbBdSend 1 r.2.bd 1 (-1)).map fun q =>
        (usbBdGetSize 1 r.2.bd 1, q.1, (q.2.usbBdt 1).cnt, (q.2.usbBdt 1).stat.BC,
          q.2.count 1, (q.2.usbBdt 1).stat.UOWN))
      = some (some 8, USB_SUCCESS, 0xFF, 3, 1023, true) := by
  rfl

/-! ## Facts on the BD operations -/

theorem setBd_same (s : BdState) (h : Nat) (bd : usbBd) : (s.setBd h bd).usbBdt h = bd := by
  simp [BdState.setBd]

theorem setBd_other (s : BdState) (h h' : Nat) (bd : usbBd) (hne : h' ≠ h) :
    (s.setBd h bd).usbBdt h' = s.usbBdt h' := by
  simp [BdState.setBd, hne]

theorem setBd_setBd (s : BdState) (h : Nat) (a b : usbBd) :
    (s.setBd h a).setBd h b = s.setBd h b := by
  unfold BdState.setBd
  congr 1
  funext x
  by_cases hx : x = h <;> simp [hx]

theorem sameLayout_refl (s : BdState) : SameLayout s s := ⟨fun _ => rfl, rfl, rfl⟩

theorem sameLayout_setBd (s : BdState) (h : Nat) (bd : usbBd)
    (ha : bd.addr = (s.usbBdt h).addr) : SameLayout s (s.setBd h bd) := by
  refine ⟨fun x => ?_, rfl, rfl⟩
  by_cases hx : x = h
  · subst hx; rw [setBd_same]; exact ha
  · rw [setBd_other _ _ _ _ hx]

theorem getSizeLoop_layout (s s' : BdState) (hl : SameLayout s s') (handle loopHandle : Nat)
    (size : Int) (fuel : Nat) :
    usbBdGetSizeLoop s' handle loopHandle size fuel
      = usbBdGetSizeLoop s handle loopHandle size fuel := by
  induction fuel with
  | zero => rfl
  | succ n ih => simp only [usbBdGetSizeLoop, hl.1, hl.2.2, ih]

/-- The result of `usbBdGetSize` depends on the layout only. -/
theorem getSize_layout (s s' : BdState) (hl : SameLayout s s') (fuel handle : Nat) :
    usbBdGetSize fuel s' handle = usbBdGetSize fuel s handle := by
  unfold usbBdGetSize
  simp only [hl.1, hl.2.1]
  exact getSizeLoop_layout s s' hl _ _ _ _

theorem usbBdStall_bad (fuel : Nat) (s : BdState) (h : Nat) (hh : 32 ≤ h) :
    usbBdStall fuel s h = some (USB_EBADPARM, s) := by
  unfold usbBdStall USB_CFG_NUM_BDS
  rw [if_pos hh]

theorem usbBdStall_sie (fuel : Nat) (s : BdState) (h : Nat) (hh : h < 32)
    (hu : (s.usbBdt h).stat.UOWN = true) :
    usbBdStall fuel s h = some (USB_EACCESS, s) := by
  unfold usbBdStall USB_CFG_NUM_BDS
  rw [if_neg (Nat.not_le.mpr hh), if_pos hu]

theorem usbBdStall_none (fuel : Nat) (s : BdState) (h : Nat) (hh : h < 32)
    (hu : (s.usbBdt h).stat.UOWN = false) (hn : usbBdGetSize fuel s h = none) :
    usbBdStall fuel s h = none := by
  unfold usbBdStall USB_CFG_NUM_BDS usbBdResetSize
  have hu' : ¬ (s.usbBdt h).stat.UOWN = true := by simp [hu]
  rw [if_neg (Nat.not_le.mpr hh), if_neg hu']
  dsimp only
  have hl : SameLayout s (s.setBSTALL h true) := sameLayout_setBd s h _ rfl
  rw [getSize_layout s _ hl, hn]

theorem usbBdStall_cpu (fuel : Nat) (s : BdState) (h : Nat) (n : Int) (hh : h < 32)
    (hu : (s.usbBdt h).stat.UOWN = false) (hn : usbBdGetSize fuel s h = some n) :
    usbBdStall fuel s h = some (USB_SUCCESS, s.setBd h (bdHandOver (s.usbBdt h) n true)) := by
  unfold usbBdStall USB_CFG_NUM_BDS usbBdResetSize
  have hu' : ¬ (s.usbBdt h).stat.UOWN = true := by simp [hu]
  rw [if_neg (Nat.not_le.mpr hh), if_neg hu']
  dsimp only
  have hl : SameLayout s (s.setBSTALL h true) := sameLayout_setBd s h _ rfl
  rw [getSize_layout s _ hl, hn]
  simp only [usbBdRelease, BdState.setCnt, BdState.setBC, BdState.setUOWN,
    BdState.setBSTALL, setBd_setBd, setBd_same, bdHandOver]

theorem usbBdReceive_cpu (fuel : Nat) (s : BdState) (h : Nat) (n : Int) (hh : h < 32)
    (hev : h % 2 = 0) (hu : (s.usbBdt h).stat.UOWN = false)
    (hn : usbBdGetSize fuel s h = some n) :
    usbBdReceive fuel s h
      = some (USB_SUCCESS, s.setBd h (bdHandOver (s.usbBdt h) n false)) := by
  unfold usbBdReceive USB_CFG_NUM_BDS
  have hu' : ¬ (s.usbBdt h).stat.UOWN = true := by simp [hu]
  have hd : ¬ (h ≥ 32 ∨ USB_ED_OUT ≠ usbBdGetDirection h) := by
    rw [(getDirection_out_iff h).mpr hev]
    simp [Nat.not_le.mpr hh]
  rw [if_neg hd, if_neg hu', hn]
  simp only [usbBdRelease, BdState.setCnt, BdState.setBC, BdState.setUOWN,
    BdState.setBSTALL, setBd_setBd, setBd_same, bdHandOver]

/-- The 10-bit count that `bdHandOver` stores is the size when the size fits
10 bits. -/
theorem bdHandOver_count (bd : usbBd) (n : Int) (b : Bool) (h0 : 0 ≤ n) (h1 : n < 1024) :
    (((bdHandOver bd n b).cnt + 256 * (bdHandOver bd n b).stat.BC : Nat) : Int) = n := by
  simp only [bdHandOver]
  push_cast
  omega

/-! ## Sizes in a layout built by `usbBdSetup` -/

theorem chain_positive (tbl : Nat → usbBd) (log : List (Nat × Nat)) :
    ∀ a e, Chain tbl a log e → ∀ p ∈ log, 0 < p.2 := by
  induction log with
  | nil => intro a e _ p hp; cases hp
  | cons q rest ih =>
    intro a e hc p hp
    obtain ⟨_, h2, h3⟩ := hc
    rcases List.mem_cons.mp hp with rfl | hp
    · exact h2
    · exact ih _ _ h3 p hp

theorem chain_le (tbl : Nat → usbBd) (log : List (Nat × Nat)) :
    ∀ a e, Chain tbl a log e → a ≤ e := by
  induction log with
  | nil => intro a e hc; exact Nat.le_of_eq hc
  | cons q rest ih =>
    intro a e hc
    obtain ⟨_, _, h3⟩ := hc
    have := ih _ _ h3
    omega

theorem chain_upper (tbl : Nat → usbBd) (log : List (Nat × Nat)) :
    ∀ a e, Chain tbl a log e → ∀ p ∈ log, (tbl p.1).addr + p.2 ≤ e := by
  induction log with
  | nil => intro a e _ p hp; cases hp
  | cons q rest ih =>
    intro a e hc p hp
    obtain ⟨h1, _, h3⟩ := hc
    rcases List.mem_cons.mp hp with rfl | hp
    · have := chain_le tbl rest _ _ h3
      omega
    · exact ih _ _ h3 p hp

theorem chain_separate (tbl : Nat → usbBd) (log : List (Nat × Nat)) :
    ∀ a e, Chain tbl a log e →
      log.Pairwise (fun p q => (tbl p.1).addr + p.2 ≤ (tbl q.1).addr) := by
  induction log with
  | nil => intro a e _; exact List.Pairwise.nil
  | cons r rest ih =>
    intro a e hc
    obtain ⟨h1, _, h3⟩ := hc
    rw [List.pairwise_cons]
    refine ⟨?_, ih _ _ h3⟩
    intro q hq
    have := chain_lower tbl rest _ _ h3 q hq
    omega

/-- In a state built by `usbBdSetup` calls, a BD with the lower handle lies wholly below
a BD with the higher handle. -/
theorem setupInv_ordered (s : BdState) (log : List (Nat × Nat)) (hinv : SetupInv s log)
    (p q : Nat × Nat) (hp : p ∈ log) (hq : q ∈ log) (hlt : p.1 < q.1) :
    (s.usbBdt p.1).addr + p.2 ≤ (s.usbBdt q.1).addr := by
  have h1 : log.Pairwise (fun p q => p.1 < q.1) := by
    have := hinv.sorted
    rwa [List.pairwise_map] at this
  have h2 := chain_separate _ _ _ _ hinv.chain
  have h3 : log.Pairwise (fun p q =>
      (p.1 < q.1 → (s.usbBdt p.1).addr + p.2 ≤ (s.usbBdt q.1).addr) ∧
      (q.1 < p.1 → (s.usbBdt q.1).addr + q.2 ≤ (s.usbBdt p.1).addr)) := by
    refine (h1.and h2).imp ?_
    intro a b hab
    exact ⟨fun _ => hab.2, fun hba => absurd hab.1 (Nat.lt_asymm hba)⟩
  have hsymm : Symmetric (fun (p q : Nat × Nat) =>
      (p.1 < q.1 → (s.usbBdt p.1).addr + p.2 ≤ (s.usbBdt q.1).addr) ∧
      (q.1 < p.1 → (s.usbBdt q.1).addr + q.2 ≤ (s.usbBdt p.1).addr)) := by
    intro a b hab
    exact ⟨hab.2, hab.1⟩
  have hall := List.Pairwise.forall_of_forall hsymm
    (fun x _ => ⟨fun hx => absurd hx (Nat.lt_irrefl _), fun hx => absurd hx (Nat.lt_irrefl _)⟩) h3
  exact (hall hp hq).1 hlt

/-- In a state whose layout was built by `usbBdSetup` calls, the size that `usbBdGetSize`
returns for a set-up BD is positive and at most the size of the arena. -/
theorem getSize_bounds (s0 s : BdState) (log : List (Nat × Nat)) (hinv : SetupInv s0 log)
    (hl : SameLayout s0 s) (h : Nat) (hh : h < 32) (ha : (s.usbBdt h).addr ≠ 0)
    (fuel : Nat) (n : Int) (hn : usbBdGetSize fuel s h = some n) :
    0 < n ∧ n ≤ 0x300 := by
  rw [getSize_layout s0 s hl] at hn
  rw [hl.1] at ha
  obtain ⟨p, hp, hp1⟩ := List.mem_map.mp ((hinv.alloc h hh).mp ha)
  have harena := hinv.arena
  unfold ArenaOk USB_CFG_ENDPOINT_BUFFER_ORIGIN USB_CFG_ENDPOINT_BUFFER_SIZE at harena
  have hlow := chain_lower _ _ _ _ hinv.chain p hp
  have hup := chain_upper _ _ _ _ hinv.chain p hp
  have hpos := chain_positive _ _ _ _ hinv.chain p hp
  unfold USB_CFG_ENDPOINT_BUFFER_ORIGIN at hlow
  rw [hp1] at hlow hup
  cases fuel with
  | zero => simp [usbBdGetSize, usbBdGetSizeLoop] at hn
  | succ k =>
    by_cases hle : h + 1 ≤ s0.highestSetupBD
    · by_cases hnext : (s0.usbBdt (h + 1)).addr = 0
      · unfold usbBdGetSize at hn
        rw [getSizeLoop_spin s0 h (h + 1) _ hle hnext] at hn
        cases hn
      · unfold usbBdGetSize at hn
        rw [getSizeLoop_break s0 h (h + 1) _ k hle hnext] at hn
        have htop := hinv.top
        unfold USB_CFG_NUM_BDS at htop
        obtain ⟨q, hq, hq1⟩ :=
          List.mem_map.mp ((hinv.alloc (h + 1) (by unfold USB_CFG_NUM_BDS; omega)).mp hnext)
        have hsep := setupInv_ordered s0 log hinv p q hp hq (by omega)
        have hqup := chain_upper _ _ _ _ hinv.chain q hq
        rw [hp1, hq1] at hsep
        rw [hq1] at hqup
        simp only [Option.some.injEq] at hn
        unfold ptrDiff i16 at hn
        omega
    · rw [getSize_last k s0 h (by omega)] at hn
      simp only [Option.some.injEq] at hn
      unfold ptrDiff i16 at hn
      omega

/-! ## Facts on the event pump -/

theorem usbAttachHandler_ret (fuel : Nat) (d : UsbDriver) (ret : usbError) (d' : UsbDriver)
    (h : usbAttachHandler fuel d = some (ret, d')) : ret = USB_SUCCESS := by
  unfold usbAttachHandler at h
  simp only [Option.bind_eq_some] at h
  obtain ⟨x, _, hx⟩ := h
  cases hx
  rfl

/-- Every event handler that returns returns `USB_SUCCESS`. -/
theorem callEventHandler_ret (fuel : Nat) (env : Env) (u : Locals) (f : usbEventHandler)
    (s : UsbSystem) (ret : usbError) (s' : UsbSystem)
    (h : callEventHandler fuel env u f s = some (ret, s')) : ret = USB_SUCCESS := by
  cases f with
  | usbNop =>
    simp only [callEventHandler, usbNop, Option.some.injEq, Prod.mk.injEq] at h
    exact h.1.symm
  | usbAttachHandler =>
    simp only [callEventHandler, Option.map_eq_some'] at h
    obtain ⟨r, hr, he⟩ := h
    cases he
    exact usbAttachHandler_ret fuel s.drv r.1 r.2 hr
  | usbDetachHandler =>
    simp only [callEventHandler, Option.some.injEq, Prod.mk.injEq] at h
    exact h.1.symm
  | usbResetHandler =>
    simp only [callEventHandler, usbResetHandler, Option.map_eq_some'] at h
    obtain ⟨r, _, he⟩ := h
    cases he
    rfl
  | usbTransactionHandler =>
    simp only [callEventHandler, usbTransactionHandler, Option.map_eq_some'] at h
    obtain ⟨r, _, he⟩ := h
    cases he
    rfl

/-- What `usbCheckInterrupt` leaves in an empty event slot. -/
theorem usbCheckInterrupt_slot (d : UsbDriver) (hd : d.eventBuffer = USB_EV_NONE) :
    (d.UIR.testBit UIR_URSTIF = true →
      (usbCheckInterrupt d).2.eventBuffer = USB_EV_RESET ∧
      (usbCheckInterrupt d).2.UIR = clearBit d.UIR UIR_URSTIF) ∧
    (d.UIR.testBit UIR_URSTIF = false → d.UIR.testBit UIR_TRNIF = true →
      (usbCheckInterrupt d).2.eventBuffer = USB_EV_TRANSACTION ∧
      (usbCheckInterrupt d).2.UIR = d.UIR) ∧
    (d.UIR.testBit UIR_URSTIF = false → d.UIR.testBit UIR_TRNIF = false →
      (usbCheckInterrupt d).2 = d) := by
  have hz : d.UIR = 0 → d.UIR.testBit UIR_URSTIF = false ∧ d.UIR.testBit UIR_TRNIF = false := by
    intro h0; rw [h0]; exact ⟨by decide, by decide⟩
  unfold usbCheckInterrupt usbPostEvent
  refine ⟨?_, ?_, ?_⟩
  · intro h1
    have hne : 0 ≠ d.UIR := by
      intro h0
      have := (hz h0.symm).1
      rw [h1] at this
      cases this
    simp [hne, h1, hd]
  · intro h1 h2
    have hne : 0 ≠ d.UIR := by
      intro h0
      have := (hz h0.symm).2
      rw [h2] at this
      cases this
    simp [hne, h1, h2, hd]
  · intro h1 h2
    by_cases hne : 0 ≠ d.UIR
    · simp [hne, h1, h2]
    · simp [hne]

/-- When the loop of `usbWork` returns, it returns `USB_SUCCESS`, and its last action was
`usbCheckInterrupt` on an empty event slot. -/
theorem usbWorkLoop_last (env : Env) (u : Locals) (fuel : Nat) :
    ∀ (s : UsbSystem) (ret : usbError) (s' : UsbSystem),
      usbWorkLoop env u fuel s = some (ret, s') →
      ret = USB_SUCCESS ∧
        ∃ s1 : UsbSystem, s1.drv.eventBuffer = USB_EV_NONE ∧
          s' = { s1 with drv := (usbCheckInterrupt s1.drv).2 } := by
  induction fuel with
  | zero => intro s ret s' h; simp [usbWorkLoop] at h
  | succ n ih =>
    intro s ret s' h
    unfold usbWorkLoop at h
    dsimp only at h
    split_ifs at h with hev
    · split at h
      · cases h
      · rename_i r1 s1 hcall
        have hr1 := callEventHandler_ret _ _ _ _ _ _ _ hcall
        rw [if_neg (by rw [hr1]; decide)] at h
        exact ih _ _ _ h
    · cases h
      exact ⟨rfl, { s with drv := (usbGetEvent s.drv).2 }, rfl, rfl⟩

/-! ## What the control engine leaves of the device core -/

theorem sameCore_refl (s : UsbSystem) : SameCore s s := ⟨rfl, rfl, rfl, rfl, rfl⟩

theorem sameCore_trans (a b c : UsbSystem) (h1 : SameCore a b) (h2 : SameCore b c) :
    SameCore a c :=
  ⟨h2.1.trans h1.1, h2.2.1.trans h1.2.1, h2.2.2.1.trans h1.2.2.1,
    h2.2.2.2.1.trans h1.2.2.2.1, h2.2.2.2.2.trans h1.2.2.2.2⟩

theorem coreRel_refl (s : UsbSystem) : CoreRel s s := ⟨rfl, Or.inl rfl⟩

theorem coreRel_trans (a b c : UsbSystem) (h1 : CoreRel a b) (h2 : CoreRel b c) :
    CoreRel a c := by
  refine ⟨h2.1.trans h1.1, ?_⟩
  rcases h1.2 with e1 | e1
  · rw [e1]; exact h2.2
  · rcases h2.2 with e2 | e2
    · rw [← e2]; exact Or.inr e1
    · exact Or.inr ⟨e1.1, e2.2⟩

theorem coreRel_of_sameCore (s s' : UsbSystem) (h : SameCore s s') : CoreRel s s' :=
  ⟨h.2.2.1, Or.inl h.1.symm⟩

theorem handlersOk_of_coreRel (s s' : UsbSystem) (h : CoreRel s s')
    (hok : HandlersOk s.drv) : HandlersOk s'.drv := by
  obtain ⟨hh, hst⟩ := h
  unfold HandlersOk at hok ⊢
  rw [hh]
  rcases hst with e | ⟨e1, e2⟩
  · rw [← e]; exact hok
  · cases ha : s.drv.state <;> cases hb : s'.drv.state <;>
      simp only [ha, hb, usbState.rank] at e1 e2 hok ⊢ <;>
      first | omega | exact hok

theorem sameCore_usbCtlAbortTransaction (fuel : Nat) (s s' : UsbSystem)
    (h : usbCtlAbortTransaction fuel s = some s') : SameCore s s' := by
  unfold usbCtlAbortTransaction at h
  dsimp only at h
  simp only [Option.bind_eq_some] at h
  obtain ⟨r, _, he⟩ := h
  cases he
  exact ⟨rfl, rfl, rfl, rfl, rfl⟩

theorem sameCore_usbCtlInit (fuel : Nat) (env : Env) (s s' : UsbSystem)
    (h : usbCtlInit fuel env s = some s') : SameCore s s' := by
  unfold usbCtlInit at h
  dsimp only at h
  simp only [Option.bind_eq_some] at h
  obtain ⟨r, _, q, _, he⟩ := h
  cases he
  exact ⟨rfl, rfl, rfl, rfl, rfl⟩

theorem sameCore_usbCtlGetDescriptorLoop (s : UsbSystem) (bufPtr : usbCtlSetupPacket)
    (t i : Nat) (l : List usbCtlDescriptor) :
    SameCore s (usbCtlGetDescriptorLoop s bufPtr t i l).2 := by
  induction l with
  | nil => exact sameCore_refl s
  | cons e rest ih =>
    unfold usbCtlGetDescriptorLoop
    split_ifs
    · exact ⟨rfl, rfl, rfl, rfl, rfl⟩
    · exact ih

theorem sameCore_usbCtlGetStatus (env : Env) (s : UsbSystem) (bufPtr : usbCtlSetupPacket) :
    SameCore s (usbCtlGetStatus env s bufPtr).2 := by
  unfold usbCtlGetStatus
  split_ifs <;> exact ⟨rfl, rfl, rfl, rfl, rfl⟩

theorem sameCore_usbCtlSetAddress (s : UsbSystem) (bufPtr : usbCtlSetupPacket) :
    SameCore s (usbCtlSetAddress s bufPtr).2 := by
  unfold usbCtlSetAddress
  split_ifs <;> exact ⟨rfl, rfl, rfl, rfl, rfl⟩

theorem coreRel_usbiSetAddress (s : UsbSystem) (a : Nat) :
    CoreRel s { s with drv := (usbiSetAddress s.drv a).2 } := by
  unfold usbiSetAddress
  split_ifs with h1 h2
  · refine ⟨rfl, Or.inr ?_⟩
    rcases h1 with e | e <;> rw [← e] <;> simp [usbState.rank]
  · exact ⟨rfl, Or.inl rfl⟩
  · exact ⟨rfl, Or.inl rfl⟩

theorem coreRel_usbiSetConfig (env : Env) (s : UsbSystem) (c : Nat) :
    CoreRel s (usbiSetConfig env s c).2 := by
  unfold usbiSetConfig
  dsimp only
  split_ifs with h1 h2 h3 h4
  · exact ⟨rfl, Or.inl rfl⟩
  · exact ⟨rfl, Or.inl rfl⟩
  · refine ⟨rfl, Or.inr ?_⟩
    cases hs : s.drv.state <;> simp [hs, usbState.rank, UsbSystem.withBd] at h1 ⊢
  · refine ⟨rfl, Or.inr ?_⟩
    cases hs : s.drv.state <;> simp [hs, usbState.rank, UsbSystem.withBd] at h1 ⊢
  · exact ⟨rfl, Or.inl rfl⟩

theorem coreRel_usbCtlHandleSetup (fuel : Nat) (env : Env) (s : UsbSystem) (ret : usbError)
    (s' : UsbSystem) (h : usbCtlHandleSetup fuel env s = some (ret, s')) : CoreRel s s' := by
  unfold usbCtlHandleSetup at h
  simp only [Option.bind_eq_some] at h
  obtain ⟨r, _, he⟩ := h
  try dsimp only at he
  split_ifs at he
  · cases he; exact ⟨rfl, Or.inl rfl⟩
  · cases he; exact ⟨rfl, Or.inl rfl⟩
  · have := sameCore_usbCtlGetStatus env
      { s.withBd r.state with ctl := { (s.withBd r.state).ctl with
          dir := usbCtlDir.ofBit (readSetupPacket (s.withBd r.state).ram r.buf).dir } }
      (readSetupPacket (s.withBd r.state).ram r.buf)
    simp only [Option.some.injEq] at he
    rw [he] at this
    exact coreRel_of_sameCore _ _ this
  · have := sameCore_usbCtlSetAddress
      { s.withBd r.state with ctl := { (s.withBd r.state).ctl with
          dir := usbCtlDir.ofBit (readSetupPacket (s.withBd r.state).ram r.buf).dir } }
      (readSetupPacket (s.withBd r.state).ram r.buf)
    simp only [Option.some.injEq] at he
    rw [he] at this
    exact coreRel_of_sameCore _ _ this
  · have := sameCore_usbCtlGetDescriptorLoop
      { s.withBd r.state with ctl := { (s.withBd r.state).ctl with
          dir := usbCtlDir.ofBit (readSetupPacket (s.withBd r.state).ram r.buf).dir } }
      (readSetupPacket (s.withBd r.state).ram r.buf)
      ((readSetupPacket (s.withBd r.state).ram r.buf).data / 256 % 256)
      ((readSetupPacket (s.withBd r.state).ram r.buf).data % 256)
      env.usbCtlDescriptorList
    simp only [Option.some.injEq, usbCtlGetDescriptor] at he
    rw [he] at this
    exact coreRel_of_sameCore _ _ this
  · have := coreRel_usbiSetConfig env
      { s.withBd r.state with ctl := { (s.withBd r.state).ctl with
          dir := usbCtlDir.ofBit (readSetupPacket (s.withBd r.state).ram r.buf).dir } }
      ((readSetupPacket (s.withBd r.state).ram r.buf).data % 256)
    simp only [Option.some.injEq] at he
    rw [he] at this
    exact this
  · cases he; exact ⟨rfl, Or.inl rfl⟩
  · cases he; exact ⟨rfl, Or.inl rfl⟩

theorem sameCore_usbCtlLoadBufAndSend (fuel : Nat) (env : Env) (s : UsbSystem) (buf : Nat)
    (bufSize : Int) (ret : usbError) (s' : UsbSystem)
    (h : usbCtlLoadBufAndSend fuel env s buf bufSize = some (ret, s')) : SameCore s s' := by
  unfold usbCtlLoadBufAndSend at h
  try dsimp only at h
  simp only [Option.map_eq_some'] at h
  obtain ⟨r, _, he⟩ := h
  cases he
  split_ifs <;> exact ⟨rfl, rfl, rfl, rfl, rfl⟩

theorem sameCore_usbCtlHandleInSetup (fuel : Nat) (s s' : UsbSystem)
    (h : usbCtlHandleInSetup fuel s = some s') : SameCore s s' := by
  unfold usbCtlHandleInSetup at h
  simp only [Option.map_eq_some'] at h
  obtain ⟨r, _, he⟩ := h
  cases he
  exact ⟨rfl, rfl, rfl, rfl, rfl⟩

theorem coreRel_usbCtlHandleInStatus (fuel : Nat) (s s' : UsbSystem)
    (h : usbCtlHandleInStatus fuel s = some s') : CoreRel s s' := by
  unfold usbCtlHandleInStatus at h
  try dsimp only at h
  have h2 := coreRel_of_sameCore _ _ (sameCore_usbCtlHandleInSetup fuel _ s' h)
  refine coreRel_trans _ _ _ ?_ h2
  split_ifs
  · have := coreRel_usbiSetAddress s s.ctl.newAddress
    exact ⟨this.1, this.2⟩
  · exact ⟨rfl, Or.inl rfl⟩
  · exact ⟨rfl, Or.inl rfl⟩

theorem coreRel_usbCtlHandleIn (fuel : Nat) (env : Env) (u : Locals) (s s' : UsbSystem)
    (h : usbCtlHandleIn fuel env u s = some s') : CoreRel s s' := by
  unfold usbCtlHandleIn at h
  split at h
  · split_ifs at h
    · simp only [Option.bind_eq_some] at h
      obtain ⟨r, _, he⟩ := h
      try dsimp only at he
      split_ifs at he
      · simp only [Option.map_eq_some'] at he
        obtain ⟨q, _, hq⟩ := he
        cases hq
        exact ⟨rfl, Or.inl rfl⟩
      · simp only [Option.map_eq_some'] at he
        obtain ⟨q, _, hq⟩ := he
        cases hq
        exact ⟨rfl, Or.inl rfl⟩
      · simp only [Option.map_eq_some'] at he
        obtain ⟨q, hq1, hq⟩ := he
        have := sameCore_usbCtlLoadBufAndSend _ _ _ _ _ q.1 q.2 hq1
        rw [hq] at this
        exact coreRel_of_sameCore _ _ ⟨this.1, this.2.1, this.2.2.1, this.2.2.2.1, this.2.2.2.2⟩
    · have := coreRel_usbCtlHandleInStatus fuel _ s' h
      exact ⟨this.1, this.2⟩
  · exact coreRel_usbCtlHandleInStatus fuel s s' h
  · exact coreRel_of_sameCore _ _ (sameCore_usbCtlHandleInSetup fuel s s' h)

theorem sameCore_usbCtlHandleOut (fuel : Nat) (u : Locals) (s s' : UsbSystem)
    (h : usbCtlHandleOut fuel u s = some s') : SameCore s s' := by
  unfold usbCtlHandleOut at h
  simp only [Option.bind_eq_some] at h
  obtain ⟨r, _, he⟩ := h
  try dsimp only at he
  simp only [Option.map_eq_some'] at he
  obtain ⟨q, _, hq⟩ := he
  cases hq
  refine ⟨?_, ?_, ?_, ?_, ?_⟩ <;> (split <;> (try split_ifs) <;> rfl)

theorem sameCore_usbCtlArmStage (fuel : Nat) (env : Env) (u : Locals) (s s' : UsbSystem)
    (h : usbCtlArmStage fuel env u s = some s') : SameCore s s' := by
  unfold usbCtlArmStage at h
  try dsimp only at h
  split_ifs at h
  · simp only [Option.bind_eq_some, Option.map_eq_some'] at h
    obtain ⟨a, ⟨g, _, z, hz, hza⟩, w, _, hw⟩ := h
    have h1 := sameCore_usbCtlLoadBufAndSend _ _ _ _ _ z.1 z.2 hz
    rw [hza] at h1
    rw [← hw]
    exact ⟨h1.1, h1.2.1, h1.2.2.1, h1.2.2.2.1, h1.2.2.2.2⟩
  · simp only [Option.bind_eq_some, Option.map_eq_some'] at h
    obtain ⟨a, ha, w, _, hw⟩ := h
    cases ha
    rw [← hw]
    exact ⟨rfl, rfl, rfl, rfl, rfl⟩
  · simp only [Option.bind_eq_some, Option.map_eq_some'] at h
    obtain ⟨a, _, w, _, hw⟩ := h
    rw [← hw]
    exact ⟨rfl, rfl, rfl, rfl, rfl⟩

theorem coreRel_usbCtlHandleTransaction (fuel : Nat) (env : Env) (u : Locals)
    (s : UsbSystem) (bdHandle : Nat) (ret : usbError) (s' : UsbSystem)
    (h : usbCtlHandleTransaction fuel env u s bdHandle = some (ret, s')) : CoreRel s s' := by
  unfold usbCtlHandleTransaction at h
  split_ifs at h with h0 h1
  · cases h; exact coreRel_refl s
  · simp only [Option.map_eq_some'] at h
    obtain ⟨x, hx, he⟩ := h
    cases he
    exact coreRel_usbCtlHandleIn fuel env u s _ hx
  · simp only [Option.map_eq_some'] at h
    obtain ⟨x, hx, he⟩ := h
    cases he
    try dsimp only at hx
    split_ifs at hx
    · simp only [Option.bind_eq_some] at hx
      obtain ⟨a, ha, r, hr, hm⟩ := hx
      have r1 := coreRel_of_sameCore _ _ (sameCore_usbCtlAbortTransaction fuel s a ha)
      have r2 := coreRel_usbCtlHandleSetup fuel env a r.1 r.2 hr
      simp only [Option.map_eq_some'] at hm
      obtain ⟨y, hy, hy'⟩ := hm
      cases hy'
      have r12 := coreRel_trans _ _ _ r1 r2
      split_ifs at hy
      · simp only [Option.map_eq_some'] at hy
        obtain ⟨q, _, hq⟩ := hy
        cases hq
        exact ⟨r12.1, r12.2⟩
      · have r3 := sameCore_usbCtlArmStage fuel env u r.2 y hy
        have := coreRel_trans _ _ _ r12 (coreRel_of_sameCore _ _ r3)
        exact ⟨this.1, this.2⟩
    · have := coreRel_of_sameCore _ _ (sameCore_usbCtlHandleOut fuel u s _ hx)
      exact this

theorem coreRel_usbTransactionHandler (fuel : Nat) (env : Env) (u : Locals) (s : UsbSystem)
    (ret : usbError) (s' : UsbSystem)
    (h : usbTransactionHandler fuel env u s = some (ret, s')) : CoreRel s s' := by
  unfold usbTransactionHandler at h
  try dsimp only at h
  simp only [Option.map_eq_some'] at h
  obtain ⟨x, hx, he⟩ := h
  cases he
  split_ifs at hx
  · simp only [Option.map_eq_some'] at hx
    obtain ⟨r, hr, he⟩ := hx
    cases he
    have := coreRel_usbCtlHandleTransaction fuel env u s _ r.1 r.2 hr
    exact ⟨this.1, this.2⟩
  · cases hx; exact ⟨rfl, Or.inl rfl⟩
  · cases hx; exact ⟨rfl, Or.inl rfl⟩
  · cases hx; exact ⟨rfl, Or.inl rfl⟩

/-! ## The handlers and the device state -/

theorem usbInit_core (fuel : Nat) (d0 d : UsbDriver)
    (h : usbInit fuel d0 = some (USB_SUCCESS, d)) :
    d.state = usbState.USB_ST_UNATTACHED ∧ HandlersOk d := by
  unfold usbInit at h
  simp only [Option.bind_eq_some] at h
  obtain ⟨r1, _, h1⟩ := h
  split_ifs at h1 with c1
  · simp only [Option.some.injEq, Prod.mk.injEq] at h1
    exact absurd h1.1.symm c1
  · simp only [Option.bind_eq_some] at h1
    obtain ⟨r2, _, h2⟩ := h1
    split_ifs at h2 with c2
    · simp only [Option.some.injEq, Prod.mk.injEq] at h2
      exact absurd h2.1.symm c2
    · simp only [Option.some.injEq, Prod.mk.injEq] at h2
      rw [← h2.2]
      exact ⟨rfl, rfl, rfl, rfl, rfl⟩

theorem usbAttachHandler_core (fuel : Nat) (d : UsbDriver) (ret : usbError) (d' : UsbDriver)
    (h : usbAttachHandler fuel d = some (ret, d')) :
    d'.state = usbState.USB_ST_ATTACHED ∧ d'.eventHandlers 1 = .usbNop ∧
      d'.eventHandlers 2 = .usbDetachHandler ∧ d'.eventHandlers 3 = .usbResetHandler ∧
      d'.eventHandlers 4 = d.eventHandlers 4 := by
  have hw : ∀ (n : Nat) (x y : UsbDriver), usbAttachWait x n = some y → y = x := by
    intro n
    induction n with
    | zero => intro x y hx; simp [usbAttachWait] at hx
    | succ k ih =>
      intro x y hx
      unfold usbAttachWait at hx
      split_ifs at hx
      · exact ih x y hx
      · cases hx; rfl
  unfold usbAttachHandler at h
  simp only [Option.bind_eq_some] at h
  obtain ⟨x, hx, he⟩ := h
  have := hw _ _ _ hx
  subst this
  simp only [Option.some.injEq, Prod.mk.injEq] at he
  rw [← he.2]
  exact ⟨rfl, rfl, rfl, rfl, rfl⟩

theorem usbAttachHandler_returns (fuel : Nat) (d : UsbDriver)
    (hse0 : d.UCON.testBit UCON_SE0 = false) :
    ∃ r, usbAttachHandler (fuel + 1) d = some r := by
  have hbit : (setBit d.UCON UCON_USBEN).testBit UCON_SE0 = false := by
    unfold setBit
    rw [Nat.testBit_or, hse0, Nat.testBit_two_pow]
    decide
  unfold usbAttachHandler
  dsimp only
  have : usbAttachWait
      { d with UIR := 0, UEIR := 0, UCON := setBit d.UCON UCON_USBEN } (fuel + 1)
      = some { d with UIR := 0, UEIR := 0, UCON := setBit d.UCON UCON_USBEN } := by
    unfold usbAttachWait
    dsimp only
    rw [hbit]
    simp
  rw [this, Option.some_bind]
  exact ⟨_, rfl⟩

theorem usbResetHandler_core (fuel : Nat) (env : Env) (s : UsbSystem) (ret : usbError)
    (s' : UsbSystem) (h : usbResetHandler fuel env s = some (ret, s')) :
    s'.drv.state = usbState.USB_ST_DEFAULT ∧ s'.drv.eventHandlers 1 = s.drv.eventHandlers 1 ∧
      s'.drv.eventHandlers 2 = s.drv.eventHandlers 2 ∧
      s'.drv.eventHandlers 3 = s.drv.eventHandlers 3 ∧
      s'.drv.eventHandlers 4 = .usbTransactionHandler := by
  unfold usbResetHandler at h
  dsimp only at h
  simp only [Option.map_eq_some'] at h
  obtain ⟨x, hx, he⟩ := h
  have hc := sameCore_usbCtlInit fuel env _ x hx
  have hh : x.drv.eventHandlers = s.drv.eventHandlers := by
    rw [hc.2.2.1]
    rfl
  simp only [Prod.mk.injEq] at he
  rw [← he.2]
  refine ⟨rfl, ?_, ?_, ?_, ?_⟩ <;> simp [UsbDriver.setHandler, usbEvent.toNat, hh]

theorem stall_returns (fuel : Nat) (s : BdState) (h : Nat) (n : Int)
    (hn : usbBdGetSize fuel s h = some n) :
    ∃ r, usbBdStall fuel s h = some r ∧ SameLayout s r.2 := by
  by_cases hh : 32 ≤ h
  · exact ⟨_, usbBdStall_bad fuel s h hh, sameLayout_refl s⟩
  · have hlt : h < 32 := Nat.lt_of_not_le hh
    cases hu : (s.usbBdt h).stat.UOWN with
    | true => exact ⟨_, usbBdStall_sie fuel s h hlt hu, sameLayout_refl s⟩
    | false =>
      exact ⟨_, usbBdStall_cpu fuel s h n hlt hu hn, sameLayout_setBd s h _ rfl⟩

theorem usbCtlInit_returns (fuel : Nat) (env : Env) (s : UsbSystem) (n0 n1 : Int)
    (h0 : usbBdGetSize fuel s.drv.bd 0 = some n0)
    (h1 : usbBdGetSize fuel s.drv.bd 1 = some n1) :
    ∃ s', usbCtlInit fuel env s = some s' := by
  obtain ⟨r0, hr0, hl0⟩ := stall_returns fuel s.drv.bd 0 n0 h0
  have h1' : usbBdGetSize fuel r0.2 1 = some n1 := by
    rw [getSize_layout s.drv.bd r0.2 hl0]; exact h1
  obtain ⟨r1, hr1, _⟩ := stall_returns fuel r0.2 1 n1 h1'
  unfold usbCtlInit
  dsimp only
  have e0 : (usbBdGetHandleForEndpoint 0 USB_ED_OUT s.ctl.outHandle).2 = 0 := by
    rw [getHandle_of_lt 0 USB_ED_OUT _ (by decide)]; rfl
  have e1 : (usbBdGetHandleForEndpoint 0 USB_ED_IN s.ctl.inHandle).2 = 1 := by
    rw [getHandle_of_lt 0 USB_ED_IN _ (by decide)]; rfl
  rw [e0, e1, hr0, Option.some_bind]
  dsimp only [UsbSystem.withBd]
  rw [hr1, Option.some_bind]
  exact ⟨_, rfl⟩

theorem dispatch_handlersOk (fuel : Nat) (env : Env) (u : Locals) (s : UsbSystem)
    (ev : usbEvent) (ret : usbError) (s' : UsbSystem) (hok : HandlersOk s.drv)
    (hev : ev ≠ USB_EV_NONE) (h : dispatch fuel env u s ev = some (ret, s')) :
    HandlersOk s'.drv := by
  unfold dispatch at h
  have key : ∀ f, callEventHandler fuel env u f s = some (ret, s') →
      (f = .usbNop → HandlersOk s'.drv) ∧
      (f = .usbAttachHandler → s.drv.eventHandlers 4 = .usbNop → HandlersOk s'.drv) ∧
      (f = .usbDetachHandler → HandlersOk s'.drv) ∧
      (f = .usbResetHandler → s.drv.eventHandlers 1 = .usbNop →
        s.drv.eventHandlers 2 = .usbDetachHandler →
        s.drv.eventHandlers 3 = .usbResetHandler → HandlersOk s'.drv) ∧
      (f = .usbTransactionHandler → HandlersOk s'.drv) := by
    intro f hf
    refine ⟨?_, ?_, ?_, ?_, ?_⟩
    · intro e; subst e
      simp only [callEventHandler, usbNop, Option.some.injEq, Prod.mk.injEq] at hf
      rw [← hf.2]; exact hok
    · intro e h4; subst e
      simp only [callEventHandler, Option.map_eq_some'] at hf
      obtain ⟨r, hr, he⟩ := hf
      obtain ⟨a1, a2, a3, a4, a5⟩ := usbAttachHandler_core fuel s.drv r.1 r.2 hr
      simp only [Prod.mk.injEq] at he
      rw [← he.2]
      unfold HandlersOk
      simp only [a1]
      exact ⟨a2, a3, a4, a5.trans h4⟩
    · intro e; subst e
      simp only [callEventHandler, Option.some.injEq, Prod.mk.injEq] at hf
      rw [← hf.2]
      exact ⟨rfl, rfl, rfl, rfl⟩
    · intro e h1 h2 h3; subst e
      simp only [callEventHandler] at hf
      obtain ⟨a1, a2, a3, a4, a5⟩ := usbResetHandler_core fuel env s ret s' hf
      unfold HandlersOk
      simp only [a1]
      exact ⟨a2.trans h1, a3.trans h2, a4.trans h3, a5⟩
    · intro e; subst e
      simp only [callEventHandler] at hf
      exact handlersOk_of_coreRel s s' (coreRel_usbTransactionHandler fuel env u s ret s' hf) hok
  obtain ⟨k1, k2, k3, k4, k5⟩ := key _ h
  unfold HandlersOk at hok
  cases ev with
  | USB_EV_NONE => exact absurd rfl hev
  | USB_EV_ATTACHED =>
    cases hs : s.drv.state <;> simp only [hs] at hok
    · exact k2 hok.1 hok.2.2.2
    all_goals exact k1 hok.1
  | USB_EV_DETACHED =>
    cases hs : s.drv.state <;> simp only [hs] at hok
    · exact k1 hok.2.1
    all_goals exact k3 hok.2.1
  | USB_EV_RESET =>
    cases hs : s.drv.state <;> simp only [hs] at hok
    · exact k1 hok.2.2.1
    all_goals exact k4 hok.2.2.1 hok.1 hok.2.1 hok.2.2.1
  | USB_EV_TRANSACTION =>
    cases hs : s.drv.state <;> simp only [hs] at hok
    · exact k1 hok.2.2.2
    · exact k1 hok.2.2.2
    all_goals exact k5 hok.2.2.2

/-- In every reachable state the handler table is the one of the device state. -/
theorem reachable_handlersOk (env : Env) (s : UsbSystem) (hr : Reachable env s) :
    HandlersOk s.drv := by
  induction hr with
  | init fuel s0 d h => exact (usbInit_core fuel s0.drv d h).2
  | step fuel u s s' l _ hl hstep ih =>
    cases l with
    | event ev =>
      simp only [coreStep, Option.map_eq_some'] at hstep
      obtain ⟨r, hr, he⟩ := hstep
      rw [← he]
      exact dispatch_handlersOk fuel env u s ev r.1 r.2 ih (fun e => hl (by rw [e])) hr
    | setAddress a =>
      simp only [coreStep, Option.some.injEq] at hstep
      rw [← hstep]
      exact handlersOk_of_coreRel s _ (coreRel_usbiSetAddress s a) ih
    | setConfig c =>
      simp only [coreStep, Option.some.injEq] at hstep
      rw [← hstep]
      exact handlersOk_of_coreRel s _ (coreRel_usbiSetConfig env s c) ih
  | outside s s' _ h1 h2 ih =>
    unfold HandlersOk at ih ⊢
    rw [h1, h2]
    exact ih

theorem afterInit_reachable (env : Env) : Reachable env UsbSystem.afterInit := by
  obtain ⟨d, hd, _⟩ := usbInit_bd 0 UsbDriver.blank
  have e : UsbSystem.afterInit = { UsbSystem.blank with drv := d } := by
    unfold UsbSystem.afterInit
    rw [hd]
    rfl
  rw [e]
  exact Reachable.init 1 UsbSystem.blank d hd

theorem afterInit_state : UsbSystem.afterInit.drv.state = usbState.USB_ST_UNATTACHED := by
  obtain ⟨d, hd, _⟩ := usbInit_bd 0 UsbDriver.blank
  have e : UsbSystem.afterInit = { UsbSystem.blank with drv := d } := by
    unfold UsbSystem.afterInit
    rw [hd]
    rfl
  rw [e]
  exact (usbInit_core 1 UsbDriver.blank d hd).1

/-- What a dispatched event does to the device state, by the handler that the table of
the state holds for it. -/
theorem dispatch_state (fuel : Nat) (env : Env) (u : Locals) (s : UsbSystem)
    (ev : usbEvent) (ret : usbError) (s' : UsbSystem) (hok : HandlersOk s.drv)
    (h : dispatch fuel env u s ev = some (ret, s')) :
    (ev = USB_EV_ATTACHED → s.drv.state = usbState.USB_ST_UNATTACHED →
      s'.drv.state = usbState.USB_ST_ATTACHED) ∧
    (ev = USB_EV_ATTACHED → s.drv.state ≠ usbState.USB_ST_UNATTACHED →
      ret = USB_SUCCESS ∧ s' = s) ∧
    (ev = USB_EV_DETACHED → s'.drv.state = usbState.USB_ST_UNATTACHED) ∧
    (ev = USB_EV_RESET → s.drv.state = usbState.USB_ST_UNATTACHED →
      ret = USB_SUCCESS ∧ s' = s) ∧
    (ev = USB_EV_RESET → s.drv.state ≠ usbState.USB_ST_UNATTACHED →
      s'.drv.state = usbState.USB_ST_DEFAULT) ∧
    (ev = USB_EV_TRANSACTION →
      s.drv.state = usbState.USB_ST_UNATTACHED ∨ s.drv.state = usbState.USB_ST_ATTACHED →
      ret = USB_SUCCESS ∧ s' = s) := by
  unfold dispatch at h
  have key : ∀ f, callEventHandler fuel env u f s = some (ret, s') →
      (f = .usbNop → ret = USB_SUCCESS ∧ s' = s) ∧
      (f = .usbAttachHandler → s'.drv.state = usbState.USB_ST_ATTACHED) ∧
      (f = .usbDetachHandler → s'.drv.state = usbState.USB_ST_UNATTACHED) ∧
      (f = .usbResetHandler → s'.drv.state = usbState.USB_ST_DEFAULT) := by
    intro f hf
    refine ⟨?_, ?_, ?_, ?_⟩
    · intro e; subst e
      simp only [callEventHandler, usbNop, Option.some.injEq, Prod.mk.injEq] at hf
      exact ⟨hf.1.symm, hf.2.symm⟩
    · intro e; subst e
      simp only [callEventHandler, Option.map_eq_some'] at hf
      obtain ⟨r, hr, he⟩ := hf
      simp only [Prod.mk.injEq] at he
      rw [← he.2]
      exact (usbAttachHandler_core fuel s.drv r.1 r.2 hr).1
    · intro e; subst e
      simp only [callEventHandler, Option.some.injEq, Prod.mk.injEq] at hf
      rw [← hf.2]
      rfl
    · intro e; subst e
      simp only [callEventHandler] at hf
      exact (usbResetHandler_core fuel env s ret s' hf).1
  unfold HandlersOk at hok
  refine ⟨?_, ?_, ?_, ?_, ?_, ?_⟩
  · intro e hs; subst e
    simp only [hs] at hok
    exact (key _ h).2.1 hok.1
  · intro e hs; subst e
    cases hst : s.drv.state <;> simp only [hst] at hok
    · exact absurd hst hs
    all_goals exact (key _ h).1 hok.1
  · intro e; subst e
    cases hst : s.drv.state <;> simp only [hst] at hok
    · rw [((key _ h).1 hok.2.1).2]; exact hst
    all_goals exact (key _ h).2.2.1 hok.2.1
  · intro e hs; subst e
    simp only [hs] at hok
    exact (key _ h).1 hok.2.2.1
  · intro e hs; subst e
    cases hst : s.drv.state <;> simp only [hst] at hok
    · exact absurd hst hs
    all_goals exact (key _ h).2.2.2 hok.2.2.1
  · intro e hs; subst e
    rcases hs with hs | hs <;> simp only [hs] at hok <;> exact (key _ h).1 hok.2.2.2

/-- When a dispatched event returns. -/
theorem dispatch_returns (fuel : Nat) (env : Env) (u : Locals) (s : UsbSystem)
    (hok : HandlersOk s.drv) :
    (∃ r, dispatch fuel env u s USB_EV_DETACHED = some r) ∧
    (s.drv.state ≠ usbState.USB_ST_UNATTACHED →
      ∃ r, dispatch fuel env u s USB_EV_ATTACHED = some r) ∧
    (s.drv.UCON.testBit UCON_SE0 = false →
      ∃ r, dispatch (fuel + 1) env u s USB_EV_ATTACHED = some r) ∧
    (s.drv.state = usbState.USB_ST_UNATTACHED →
      ∃ r, dispatch fuel env u s USB_EV_RESET = some r) ∧
    ((∃ n0, usbBdGetSize fuel s.drv.bd 0 = some n0) →
      (∃ n1, usbBdGetSize fuel s.drv.bd 1 = some n1) →
      ∃ r, dispatch fuel env u s USB_EV_RESET = some r) ∧
    (s.drv.state = usbState.USB_ST_UNATTACHED ∨ s.drv.state = usbState.USB_ST_ATTACHED →
      ∃ r, dispatch fuel env u s USB_EV_TRANSACTION = some r) := by
  have hnop : ∀ f, f = usbEventHandler.usbNop →
      ∃ r, callEventHandler fuel env u f s = some r := by
    intro f e; subst e; exact ⟨_, rfl⟩
  have hdet : ∀ f, f = usbEventHandler.usbDetachHandler →
      ∃ r, callEventHandler fuel env u f s = some r := by
    intro f e; subst e; exact ⟨_, rfl⟩
  have hatt : ∀ f, f = usbEventHandler.usbAttachHandler →
      s.drv.UCON.testBit UCON_SE0 = false →
      ∃ r, callEventHandler (fuel + 1) env u f s = some r := by
    intro f e hse; subst e
    obtain ⟨r, hr⟩ := usbAttachHandler_returns fuel s.drv hse
    exact ⟨_, by simp only [callEventHandler, hr]; rfl⟩
  have hnop1 : ∀ f, f = usbEventHandler.usbNop →
      ∃ r, callEventHandler (fuel + 1) env u f s = some r := by
    intro f e; subst e; exact ⟨_, rfl⟩
  have hres : ∀ f, f = usbEventHandler.usbResetHandler →
      (∃ n0, usbBdGetSize fuel s.drv.bd 0 = some n0) →
      (∃ n1, usbBdGetSize fuel s.drv.bd 1 = some n1) →
      ∃ r, callEventHandler fuel env u f s = some r := by
    intro f e h0 h1; subst e
    obtain ⟨n0, h0⟩ := h0
    obtain ⟨n1, h1⟩ := h1
    obtain ⟨x, hx⟩ := usbCtlInit_returns fuel env
      { s with drv := { usbResetClearEndpoints s.drv with
          UEP := fun i => if i = 0 then 0x16 else (usbResetClearEndpoints s.drv).UEP i } }
      n0 n1 h0 h1
    simp only [callEventHandler, usbResetHandler]
    rw [hx]
    exact ⟨_, rfl⟩
  unfold dispatch
  unfold HandlersOk at hok
  refine ⟨?_, ?_, ?_, ?_, ?_, ?_⟩
  · cases hst : s.drv.state <;> simp only [hst] at hok
    · exact hnop _ hok.2.1
    all_goals exact hdet _ hok.2.1
  · intro hs
    cases hst : s.drv.state <;> simp only [hst] at hok
    · exact absurd hst hs
    all_goals exact hnop _ hok.1
  · intro hse
    cases hst : s.drv.state <;> simp only [hst] at hok
    · exact hatt _ hok.1 hse
    all_goals exact hnop1 _ hok.1
  · intro hs
    simp only [hs] at hok
    exact hnop _ hok.2.2.1
  · intro h0 h1
    cases hst : s.drv.state <;> simp only [hst] at hok
    · exact hnop _ hok.2.2.1
    all_goals exact hres _ hok.2.2.1 h0 h1
  · intro hs
    rcases hs with hs | hs <;> simp only [hs] at hok <;> exact hnop _ hok.2.2.2

/-! ## A SETUP transaction on endpoint 0 -/

theorem getDescriptorLoop_first (s : UsbSystem) (p : usbCtlSetupPacket) (ty ix : Nat)
    (l : List usbCtlDescriptor) :
    ∀ (i : Nat) (e : usbCtlDescriptor), l[i]? = some e → (e.type = ty ∧ e.index = ix) →
      (∀ j e', j < i → l[j]? = some e' → ¬ (e'.type = ty ∧ e'.index = ix)) →
      usbCtlGetDescriptorLoop s p ty ix l = (USB_SUCCESS,
        { s with ctl := { s.ctl with
            dataSource := .USB_CTL_FROM_ROM, dataPtr := e.data,
            bytesToTransfer := MIN (i16 p.length) e.totalSize, state := .USB_CTL_DATA } }) := by
  induction l with
  | nil => intro i e he; simp at he
  | cons x xs ih =>
    intro i e he hm hfirst
    cases i with
    | zero =>
      simp only [List.getElem?_cons_zero, Option.some.injEq] at he
      subst he
      unfold usbCtlGetDescriptorLoop
      rw [if_pos hm]
    | succ k =>
      simp only [List.getElem?_cons_succ] at he
      have hx : ¬ (x.type = ty ∧ x.index = ix) :=
        hfirst 0 x (Nat.succ_pos k) (by simp)
      unfold usbCtlGetDescriptorLoop
      rw [if_neg hx]
      exact ih k e he hm fun j e' hj hj' =>
        hfirst (j + 1) e' (Nat.succ_lt_succ hj) (by simpa using hj')

theorem uaddr_usbiSetConfig (env : Env) (s : UsbSystem) (c : Nat) :
    (usbiSetConfig env s c).2.drv.UADDR = s.drv.UADDR := by
  unfold usbiSetConfig
  dsimp only
  split_ifs <;> rfl

theorem uaddr_usbCtlHandleSetup (fuel : Nat) (env : Env) (s : UsbSystem) (ret : usbError)
    (s' : UsbSystem) (h : usbCtlHandleSetup fuel env s = some (ret, s')) :
    s'.drv.UADDR = s.drv.UADDR := by
  unfold usbCtlHandleSetup at h
  simp only [Option.bind_eq_some] at h
  obtain ⟨r, _, he⟩ := h
  try dsimp only at he
  split_ifs at he
  · cases he; rfl
  · cases he; rfl
  · have := sameCore_usbCtlGetStatus env
      { s.withBd r.state with ctl := { (s.withBd r.state).ctl with
          dir := usbCtlDir.ofBit (readSetupPacket (s.withBd r.state).ram r.buf).dir } }
      (readSetupPacket (s.withBd r.state).ram r.buf)
    simp only [Option.some.injEq] at he
    rw [he] at this
    exact this.2.1
  · have := sameCore_usbCtlSetAddress
      { s.withBd r.state with ctl := { (s.withBd r.state).ctl with
          dir := usbCtlDir.ofBit (readSetupPacket (s.withBd r.state).ram r.buf).dir } }
      (readSetupPacket (s.withBd r.state).ram r.buf)
    simp only [Option.some.injEq] at he
    rw [he] at this
    exact this.2.1
  · have := sameCore_usbCtlGetDescriptorLoop
      { s.withBd r.state with ctl := { (s.withBd r.state).ctl with
          dir := usbCtlDir.ofBit (readSetupPacket (s.withBd r.state).ram r.buf).dir } }
      (readSetupPacket (s.withBd r.state).ram r.buf)
      ((readSetupPacket (s.withBd r.state).ram r.buf).data / 256 % 256)
      ((readSetupPacket (s.withBd r.state).ram r.buf).data % 256)
      env.usbCtlDescriptorList
    simp only [Option.some.injEq, usbCtlGetDescriptor] at he
    rw [he] at this
    exact this.2.1
  · have := uaddr_usbiSetConfig env
      { s.withBd r.state with ctl := { (s.withBd r.state).ctl with
          dir := usbCtlDir.ofBit (readSetupPacket (s.withBd r.state).ram r.buf).dir } }
      ((readSetupPacket (s.withBd r.state).ram r.buf).data % 256)
    simp only [Option.some.injEq] at he
    rw [he] at this
    exact this
  · cases he; rfl
  · cases he; rfl

/-- A call of `usbCtlHandleTransaction` for a handle other than the IN handle of the
control engine leaves `UADDR` alone. -/
theorem uaddr_out_path (fuel : Nat) (env : Env) (u : Locals) (s : UsbSystem)
    (bdHandle : Nat) (ret : usbError) (s' : UsbSystem)
    (h : usbCtlHandleTransaction fuel env u s bdHandle = some (ret, s'))
    (hne : s.ctl.inHandle ≠ bdHandle) : s'.drv.UADDR = s.drv.UADDR := by
  unfold usbCtlHandleTransaction at h
  split_ifs at h with h0
  · cases h; rfl
  · simp only [Option.map_eq_some'] at h
    obtain ⟨x, hx, he⟩ := h
    cases he
    try dsimp only at hx
    split_ifs at hx
    · simp only [Option.bind_eq_some] at hx
      obtain ⟨a, ha, r, hr, hm⟩ := hx
      have r1 := (sameCore_usbCtlAbortTransaction fuel s a ha).2.1
      have r2 := uaddr_usbCtlHandleSetup fuel env a r.1 r.2 hr
      simp only [Option.map_eq_some'] at hm
      obtain ⟨y, hy, hy'⟩ := hm
      cases hy'
      split_ifs at hy
      · simp only [Option.map_eq_some'] at hy
        obtain ⟨q, _, hq⟩ := hy
        cases hq
        exact r2.trans r1
      · have r3 := (sameCore_usbCtlArmStage fuel env u r.2 y hy).2.1
        exact r3.trans (r2.trans r1)
    · exact (sameCore_usbCtlHandleOut fuel u s _ hx).2.1

theorem uaddr_usbCtlHandleInStatus (fuel : Nat) (s s' : UsbSystem)
    (h : usbCtlHandleInStatus fuel s = some s') :
    s'.drv.UADDR = s.drv.UADDR ∨
      (s.ctl.dir = .USB_CTL_DIR_OUT ∧ s.ctl.newAddress ≠ 0 ∧
        s'.drv.UADDR = s.ctl.newAddress) := by
  unfold usbCtlHandleInStatus at h
  try dsimp only at h
  have h2 := (sameCore_usbCtlHandleInSetup fuel _ s' h).2.1
  rw [h2]
  split_ifs with c1 c2
  · unfold usbiSetAddress
    split_ifs
    · exact Or.inr ⟨c1.symm, fun e => c2 e.symm, rfl⟩
    · exact Or.inl rfl
    · exact Or.inl rfl
  · exact Or.inl rfl
  · exact Or.inl rfl

theorem uaddr_usbCtlHandleIn (fuel : Nat) (env : Env) (u : Locals) (s s' : UsbSystem)
    (h : usbCtlHandleIn fuel env u s = some s') :
    s'.drv.UADDR = s.drv.UADDR ∨
      (s.ctl.dir = .USB_CTL_DIR_OUT ∧
        (s.ctl.state = .USB_CTL_STATUS ∨ s.ctl.state = .USB_CTL_DATA) ∧
        s.ctl.newAddress ≠ 0 ∧ s'.drv.UADDR = s.ctl.newAddress) := by
  unfold usbCtlHandleIn at h
  split at h
  · rename_i hst
    split_ifs at h
    · left
      simp only [Option.bind_eq_some] at h
      obtain ⟨r, _, he⟩ := h
      try dsimp only at he
      split_ifs at he
      · simp only [Option.map_eq_some'] at he
        obtain ⟨q, _, hq⟩ := he
        cases hq
        rfl
      · simp only [Option.map_eq_some'] at he
        obtain ⟨q, _, hq⟩ := he
        cases hq
        rfl
      · simp only [Option.map_eq_some'] at he
        obtain ⟨q, hq1, hq⟩ := he
        have := sameCore_usbCtlLoadBufAndSend _ _ _ _ _ q.1 q.2 hq1
        rw [hq] at this
        exact this.2.1
    · rcases uaddr_usbCtlHandleInStatus fuel _ s' h with e | ⟨e1, e2, e3⟩
      · exact Or.inl e
      · exact Or.inr ⟨e1, Or.inr hst, e2, e3⟩
  · rename_i hst
    rcases uaddr_usbCtlHandleInStatus fuel s s' h with e | ⟨e1, e2, e3⟩
    · exact Or.inl e
    · exact Or.inr ⟨e1, Or.inl hst, e2, e3⟩
  · exact Or.inl (sameCore_usbCtlHandleInSetup fuel s s' h).2.1

/-- When a call of `usbCtlHandleTransaction` changes `UADDR`: the handle is the IN
handle, the direction is Out, the control state is Status or Data, and the pending
address is not zero; the new content of `UADDR` is the pending address. -/
theorem uaddr_write_condition (fuel : Nat) (env : Env) (u : Locals) (s : UsbSystem)
    (bdHandle : Nat) (ret : usbError) (s' : UsbSystem)
    (h : usbCtlHandleTransaction fuel env u s bdHandle = some (ret, s'))
    (hw : s'.drv.UADDR ≠ s.drv.UADDR) :
    s.ctl.inHandle = bdHandle ∧ s.ctl.dir = .USB_CTL_DIR_OUT ∧
      (s.ctl.state = .USB_CTL_STATUS ∨ s.ctl.state = .USB_CTL_DATA) ∧
      s.ctl.newAddress ≠ 0 ∧ s'.drv.UADDR = s.ctl.newAddress := by
  by_cases hin : s.ctl.inHandle = bdHandle
  · refine ⟨hin, ?_⟩
    unfold usbCtlHandleTransaction at h
    split_ifs at h with h0
    · cases h; exact absurd rfl hw
    · simp only [Option.map_eq_some'] at h
      obtain ⟨x, hx, he⟩ := h
      cases he
      rcases uaddr_usbCtlHandleIn fuel env u s _ hx with e | e
      · exact absurd e hw
      · exact e
  · exact absurd (uaddr_out_path fuel env u s bdHandle ret s' h hin) hw

/-! ## Calls that do not return -/

theorem getSize_gap_none (s : BdState) (h : Nat) (h1 : h + 1 ≤ s.highestSetupBD)
    (h2 : (s.usbBdt (h + 1)).addr = 0) (fuel : Nat) : usbBdGetSize fuel s h = none :=
  getSizeLoop_spin s h (h + 1) _ h1 h2 fuel

theorem getSize_nogap_some (s : BdState) (h : Nat)
    (hc : s.highestSetupBD < h + 1 ∨ (s.usbBdt (h + 1)).addr ≠ 0) (fuel : Nat) :
    ∃ n, usbBdGetSize (fuel + 1) s h = some n := by
  by_cases h1 : s.highestSetupBD < h + 1
  · exact ⟨_, getSizeLoop_exit s h (h + 1) _ fuel h1⟩
  · have h2 : (s.usbBdt (h + 1)).addr ≠ 0 := by
      rcases hc with hc | hc
      · exact absurd hc h1
      · exact hc
    exact ⟨_, getSizeLoop_break s h (h + 1) _ fuel (by omega) h2⟩

theorem handOver_gap (s : BdState) (h : Nat) (hc : ¬ HandOverReturns s h) :
    (s.usbBdt h).stat.UOWN = false ∧ h + 1 ≤ s.highestSetupBD ∧
      (s.usbBdt (h + 1)).addr = 0 := by
  unfold HandOverReturns at hc
  refine ⟨?_, ?_, ?_⟩
  · cases hu : (s.usbBdt h).stat.UOWN with
    | true => exact absurd (Or.inl hu) hc
    | false => rfl
  · by_contra h1
    exact hc (Or.inr (Or.inl (by omega)))
  · by_contra h2
    exact hc (Or.inr (Or.inr h2))

theorem usbBdStall_frame (fuel : Nat) (b : BdState) (h : Nat) (r : usbError × BdState)
    (hr : usbBdStall fuel b h = some r) :
    SameLayout b r.2 ∧ ∀ k, k ≠ h → r.2.usbBdt k = b.usbBdt k := by
  by_cases hh : 32 ≤ h
  · rw [usbBdStall_bad fuel b h hh] at hr
    cases hr
    exact ⟨sameLayout_refl b, fun _ _ => rfl⟩
  · have hlt : h < 32 := Nat.lt_of_not_le hh
    cases hu : (b.usbBdt h).stat.UOWN with
    | true =>
      rw [usbBdStall_sie fuel b h hlt hu] at hr
      cases hr
      exact ⟨sameLayout_refl b, fun _ _ => rfl⟩
    | false =>
      cases hn : usbBdGetSize fuel b h with
      | none =>
        rw [usbBdStall_none fuel b h hlt hu hn] at hr
        cases hr
      | some n =>
        rw [usbBdStall_cpu fuel b h n hlt hu hn] at hr
        cases hr
        exact ⟨sameLayout_setBd b h _ rfl, fun k hk => setBd_other b h k _ hk⟩

theorem usbBdStall_some_of (fuel : Nat) (b : BdState) (h : Nat) (hc : HandOverReturns b h) :
    ∃ r, usbBdStall (fuel + 1) b h = some r := by
  by_cases hh : 32 ≤ h
  · exact ⟨_, usbBdStall_bad _ b h hh⟩
  · have hlt : h < 32 := Nat.lt_of_not_le hh
    cases hu : (b.usbBdt h).stat.UOWN with
    | true => exact ⟨_, usbBdStall_sie _ b h hlt hu⟩
    | false =>
      have hc' : b.highestSetupBD < h + 1 ∨ (b.usbBdt (h + 1)).addr ≠ 0 := by
        rcases hc with hc | hc
        · rw [hu] at hc; cases hc
        · exact hc
      obtain ⟨n, hn⟩ := getSize_nogap_some b h hc' fuel
      exact ⟨_, usbBdStall_cpu _ b h n hlt hu hn⟩

theorem usbBdStall_none_of (fuel : Nat) (b : BdState) (h : Nat) (hh : h < 32)
    (hc : ¬ HandOverReturns b h) : usbBdStall fuel b h = none := by
  obtain ⟨hu, h1, h2⟩ := handOver_gap b h hc
  exact usbBdStall_none fuel b h hh hu (getSize_gap_none b h h1 h2 fuel)

theorem usbBdReceive_none (fuel : Nat) (s : BdState) (h : Nat) (hh : h < 32)
    (hev : h % 2 = 0) (hu : (s.usbBdt h).stat.UOWN = false)
    (hn : usbBdGetSize fuel s h = none) : usbBdReceive fuel s h = none := by
  unfold usbBdReceive USB_CFG_NUM_BDS
  have hu' : ¬ (s.usbBdt h).stat.UOWN = true := by simp [hu]
  have hd : ¬ (h ≥ 32 ∨ USB_ED_OUT ≠ usbBdGetDirection h) := by
    rw [(getDirection_out_iff h).mpr hev]
    simp [Nat.not_le.mpr hh]
  rw [if_neg hd, if_neg hu', hn]

theorem usbBdReceive_sie (fuel : Nat) (s : BdState) (h : Nat) (hh : h < 32)
    (hev : h % 2 = 0) (hu : (s.usbBdt h).stat.UOWN = true) :
    usbBdReceive fuel s h = some (USB_EACCESS, s) := by
  unfold usbBdReceive USB_CFG_NUM_BDS
  have hd : ¬ (h ≥ 32 ∨ USB_ED_OUT ≠ usbBdGetDirection h) := by
    rw [(getDirection_out_iff h).mpr hev]
    simp [Nat.not_le.mpr hh]
  rw [if_neg hd, if_pos hu]

theorem handOver_frame (b b' : BdState) (h : Nat) (hl : SameLayout b b')
    (hb : b'.usbBdt h = b.usbBdt h) : HandOverReturns b' h ↔ HandOverReturns b h := by
  unfold HandOverReturns
  rw [hb, hl.2.2, hl.1]

theorem usbCtlInit_some_of (fuel : Nat) (env : Env) (s : UsbSystem)
    (c0 : HandOverReturns s.drv.bd 0) (c1 : HandOverReturns s.drv.bd 1) :
    ∃ s', usbCtlInit (fuel + 1) env s = some s' := by
  obtain ⟨r0, hr0⟩ := usbBdStall_some_of fuel s.drv.bd 0 c0
  obtain ⟨l0, f0⟩ := usbBdStall_frame _ _ _ r0 hr0
  have c1' : HandOverReturns r0.2 1 :=
    (handOver_frame s.drv.bd r0.2 1 l0 (f0 1 (by decide))).mpr c1
  obtain ⟨r1, hr1⟩ := usbBdStall_some_of fuel r0.2 1 c1'
  unfold usbCtlInit
  dsimp only
  have e0 : (usbBdGetHandleForEndpoint 0 USB_ED_OUT s.ctl.outHandle).2 = 0 := by
    rw [getHandle_of_lt 0 USB_ED_OUT _ (by decide)]; rfl
  have e1 : (usbBdGetHandleForEndpoint 0 USB_ED_IN s.ctl.inHandle).2 = 1 := by
    rw [getHandle_of_lt 0 USB_ED_IN _ (by decide)]; rfl
  rw [e0, e1, hr0, Option.some_bind]
  dsimp only [UsbSystem.withBd]
  rw [hr1, Option.some_bind]
  exact ⟨_, rfl⟩

theorem usbCtlInit_none_of (fuel : Nat) (env : Env) (s : UsbSystem)
    (hc : ¬ (HandOverReturns s.drv.bd 0 ∧ HandOverReturns s.drv.bd 1)) :
    usbCtlInit fuel env s = none := by
  have e0 : (usbBdGetHandleForEndpoint 0 USB_ED_OUT s.ctl.outHandle).2 = 0 := by
    rw [getHandle_of_lt 0 USB_ED_OUT _ (by decide)]; rfl
  have e1 : (usbBdGetHandleForEndpoint 0 USB_ED_IN s.ctl.inHandle).2 = 1 := by
    rw [getHandle_of_lt 0 USB_ED_IN _ (by decide)]; rfl
  unfold usbCtlInit
  dsimp only
  rw [e0, e1]
  cases hr0 : usbBdStall fuel s.drv.bd 0 with
  | none => rfl
  | some r0 =>
    rw [Option.some_bind]
    dsimp only [UsbSystem.withBd]
    obtain ⟨l0, f0⟩ := usbBdStall_frame _ _ _ r0 hr0
    have c0 : HandOverReturns s.drv.bd 0 := by
      by_contra c0
      rw [usbBdStall_none_of fuel s.drv.bd 0 (by decide) c0] at hr0
      cases hr0
    have c1 : ¬ HandOverReturns r0.2 1 := fun c =>
      hc ⟨c0, (handOver_frame s.drv.bd r0.2 1 l0 (f0 1 (by decide))).mp c⟩
    rw [usbBdStall_none_of fuel r0.2 1 (by decide) c1]
    rfl

theorem resetHandler_of_handlersOk (s : UsbSystem) (hok : HandlersOk s.drv)
    (hs : s.drv.state ≠ usbState.USB_ST_UNATTACHED) :
    s.drv.eventHandlers USB_EV_RESET.toNat = usbEventHandler.usbResetHandler := by
  unfold HandlersOk at hok
  cases hst : s.drv.state <;> simp only [hst] at hok
  · exact absurd hst hs
  all_goals exact hok.2.2.1

theorem dispatch_reset_some (fuel : Nat) (env : Env) (u : Locals) (s : UsbSystem)
    (hok : HandlersOk s.drv) (hs : s.drv.state ≠ usbState.USB_ST_UNATTACHED)
    (c0 : HandOverReturns s.drv.bd 0) (c1 : HandOverReturns s.drv.bd 1) :
    ∃ r, dispatch (fuel + 1) env u s USB_EV_RESET = some r := by
  obtain ⟨x, hx⟩ := usbCtlInit_some_of fuel env
    { s with drv := { usbResetClearEndpoints s.drv with
        UEP := fun i => if i = 0 then 0x16 else (usbResetClearEndpoints s.drv).UEP i } }
    c0 c1
  unfold dispatch
  rw [resetHandler_of_handlersOk s hok hs]
  simp only [callEventHandler, usbResetHandler]
  rw [hx]
  exact ⟨_, rfl⟩

theorem dispatch_reset_none (fuel : Nat) (env : Env) (u : Locals) (s : UsbSystem)
    (hok : HandlersOk s.drv) (hs : s.drv.state ≠ usbState.USB_ST_UNATTACHED)
    (hc : ¬ (HandOverReturns s.drv.bd 0 ∧ HandOverReturns s.drv.bd 1)) :
    dispatch fuel env u s USB_EV_RESET = none := by
  have hx := usbCtlInit_none_of fuel env
    { s with drv := { usbResetClearEndpoints s.drv with
        UEP := fun i => if i = 0 then 0x16 else (usbResetClearEndpoints s.drv).UEP i } }
    hc
  unfold dispatch
  rw [resetHandler_of_handlersOk s hok hs]
  simp only [callEventHandler, usbResetHandler]
  rw [hx]
  rfl

theorem attachedGap_reachable : Reachable Env.sample UsbSystem.attachedGap := by
  have h1 : Reachable Env.sample UsbSystem.afterInitGap :=
    Reachable.outside _ _ (afterInit_reachable Env.sample) rfl rfl
  exact Reachable.step 1 Locals.zero _ _ (.event USB_EV_ATTACHED) h1 (by decide) rfl

/-! ## Theorems on the claims C11 to C20 -/

/-- Claim C11, on the code: `usbBdReceive(h)` returns `USB_EBADPARM` for an odd (IN)
handle or `h >= 32` and `USB_EACCESS` for a SIE-owned BD, and leaves the state as it
was; for a CPU-owned BD with an even (OUT) handle below 32 whose size `usbBdGetSize(h)`
is `n`, a value that fits the 10-bit count, it returns `USB_SUCCESS` and afterwards
`cnt + 256 * BC = n`, `BSTALL = 0`, `UOWN = 1`, the address, `DTSEN` and `DTS` are as
before, and so are the other BDs, the bump pointer and `highestSetupBD`. For an even
handle below 32 the call returns exactly when the BD is SIE-owned, or handle `h + 1` is
above `highestSetupBD` or allocated; for a CPU-owned BD it then returns `USB_SUCCESS`.
With handle `h + 1` unallocated and not above `highestSetupBD` the call for a CPU-owned
BD never returns: after `usbInit`, `usbBdSetup(1, USB_ED_OUT, 32)` and
`usbBdSetup(2, USB_ED_IN, 32)` the BD of handle 2 is set up and CPU-owned, and
`usbBdReceive(2)` returns with no amount of fuel. -/
theorem usbBdReceive_result (fuel : Nat) (s : BdState) (h : Nat) :
    (32 ≤ h ∨ h % 2 = 1 → usbBdReceive fuel s h = some (USB_EBADPARM, s)) ∧
    (h < 32 → h % 2 = 0 → (s.usbBdt h).stat.UOWN = true →
      usbBdReceive fuel s h = some (USB_EACCESS, s)) ∧
    (h < 32 → h % 2 = 0 → (s.usbBdt h).stat.UOWN = false →
      ∀ n : Int, usbBdGetSize fuel s h = some n → 0 ≤ n → n < 1024 →
      ∃ s', usbBdReceive fuel s h = some (USB_SUCCESS, s') ∧
        (s'.count h : Int) = n ∧
        (s'.usbBdt h).stat.BSTALL = false ∧
        (s'.usbBdt h).stat.UOWN = true ∧
        (s'.usbBdt h).addr = (s.usbBdt h).addr ∧
        (s'.usbBdt h).stat.DTSEN = (s.usbBdt h).stat.DTSEN ∧
        (s'.usbBdt h).stat.DTS = (s.usbBdt h).stat.DTS ∧
        (∀ h', h' ≠ h → s'.usbBdt h' = s.usbBdt h') ∧
        s'.endOfAllocatedBuffer = s.endOfAllocatedBuffer ∧
        s'.highestSetupBD = s.highestSetupBD) ∧
    (h < 32 → h % 2 = 0 →
      ((∃ k r, usbBdReceive k s h = some r) ↔ HandOverReturns s h) ∧
      (HandOverReturns s h → (s.usbBdt h).stat.UOWN = false →
        ∃ s', usbBdReceive (fuel + 1) s h = some (USB_SUCCESS, s')) ∧
      (¬ HandOverReturns s h → ∀ k, usbBdReceive k s h = none)) ∧
    (runSetups 1 (usbBdInit BdState.blank, [])
        [⟨0, USB_ED_OUT, 8⟩, ⟨0, USB_ED_IN, 8⟩, ⟨1, USB_ED_OUT, 32⟩, ⟨2, USB_ED_IN, 32⟩]
        = some (BdState.gapTable, [(0, 8), (1, 8), (2, 32), (5, 32)]) ∧
      (BdState.gapTable.usbBdt 2).addr ≠ 0 ∧
      (BdState.gapTable.usbBdt 2).stat.UOWN = false ∧
      ∀ k, usbBdReceive k BdState.gapTable 2 = none) := by
  refine ⟨?_, ?_, ?_, ?_, ?_⟩
  rotate_left 3
  · intro hh hev
    have hnone : ¬ HandOverReturns s h → ∀ k, usbBdReceive k s h = none := by
      intro hc k
      obtain ⟨hu, h1, h2⟩ := handOver_gap s h hc
      exact usbBdReceive_none k s h hh hev hu (getSize_gap_none s h h1 h2 k)
    have hsome : HandOverReturns s h → (s.usbBdt h).stat.UOWN = false →
        ∃ s', usbBdReceive (fuel + 1) s h = some (USB_SUCCESS, s') := by
      intro hc hu
      have hc' : s.highestSetupBD < h + 1 ∨ (s.usbBdt (h + 1)).addr ≠ 0 := by
        rcases hc with hc | hc
        · rw [hu] at hc; cases hc
        · exact hc
      obtain ⟨n, hn⟩ := getSize_nogap_some s h hc' fuel
      exact ⟨_, usbBdReceive_cpu _ s h n hh hev hu hn⟩
    refine ⟨⟨?_, ?_⟩, hsome, hnone⟩
    · rintro ⟨k, r, hr⟩
      by_contra hc
      rw [hnone hc k] at hr
      cases hr
    · intro hc
      cases hu : (s.usbBdt h).stat.UOWN with
      | true => exact ⟨1, _, usbBdReceive_sie 1 s h hh hev hu⟩
      | false =>
        obtain ⟨s', hs'⟩ := hsome hc hu
        exact ⟨_, _, hs'⟩
  · refine ⟨rfl, by decide, by decide, fun k => ?_⟩
    exact usbBdReceive_none k _ 2 (by decide) (by decide) (by decide)
      (getSize_gap_none _ 2 (by decide) (by decide) k)
  · intro hbad
    unfold usbBdReceive USB_CFG_NUM_BDS
    have : h ≥ 32 ∨ USB_ED_OUT ≠ usbBdGetDirection h := by
      rcases hbad with h1 | h1
      · exact Or.inl h1
      · right
        rw [(getDirection_in_iff h).mpr h1]
        decide
    rw [if_pos this]
  · intro hh hev hu
    unfold usbBdReceive USB_CFG_NUM_BDS
    have hd : ¬ (h ≥ 32 ∨ USB_ED_OUT ≠ usbBdGetDirection h) := by
      rw [(getDirection_out_iff h).mpr hev]
      simp [Nat.not_le.mpr hh]
    rw [if_neg hd, if_pos hu]
  · intro hh hev hu n hn h0 h1
    refine ⟨_, usbBdReceive_cpu fuel s h n hh hev hu hn, ?_, ?_, ?_, ?_, ?_, ?_, ?_, rfl, rfl⟩
    · unfold BdState.count
      rw [setBd_same]
      exact bdHandOver_count _ n false h0 h1
    · rw [setBd_same]; rfl
    · rw [setBd_same]; rfl
    · rw [setBd_same]; rfl
    · rw [setBd_same]; rfl
    · rw [setBd_same]; rfl
    · intro h' hne
      exact setBd_other s h h' _ hne

/-- Claim C12, on the code: for every BD table state and every handle `h`, two
consecutive `usbBdStall(h)` calls leave the state that one `usbBdStall(h)` call leaves
(the second call finds the BD SIE-owned or the handle out of range and changes nothing);
and when the BD is CPU-owned and its size `usbBdGetSize(h)` is `n`, one call returns
`USB_SUCCESS` with `BSTALL = 1`, `UOWN = 1` and, for `n` that fits 10 bits, the count
`n`. For a SIE-owned BD the call returns `USB_EACCESS` and stores nothing. For a handle
below 32 the call returns exactly when the BD is SIE-owned, or handle `h + 1` is above
`highestSetupBD` or allocated. With handle `h + 1` unallocated and not above
`highestSetupBD` the call for a CPU-owned BD never returns, and there is no state after
one call or after two: after `usbInit`, `usbBdSetup(1, USB_ED_OUT, 32)` and
`usbBdSetup(2, USB_ED_IN, 32)` the BD of handle 2 is set up and CPU-owned, and
`usbBdStall(2)` returns with no amount of fuel. -/
theorem usbBdStall_idempotent (fuel : Nat) (s : BdState) (h : Nat) :
    (((usbBdStall fuel s h).bind fun r => usbBdStall fuel r.2 h).map Prod.snd
      = (usbBdStall fuel s h).map Prod.snd) ∧
    (h < 32 → (s.usbBdt h).stat.UOWN = false →
      ∀ n : Int, usbBdGetSize fuel s h = some n →
      ∃ s', usbBdStall fuel s h = some (USB_SUCCESS, s') ∧
        usbBdStall fuel s' h = some (USB_EACCESS, s') ∧
        (s'.usbBdt h).stat.BSTALL = true ∧
        (s'.usbBdt h).stat.UOWN = true ∧
        (0 ≤ n → n < 1024 → (s'.count h : Int) = n)) ∧
    (h < 32 → (s.usbBdt h).stat.UOWN = true →
      usbBdStall fuel s h = some (USB_EACCESS, s)) ∧
    (h < 32 →
      ((∃ k r, usbBdStall k s h = some r) ↔ HandOverReturns s h) ∧
      (HandOverReturns s h → ∃ r, usbBdStall (fuel + 1) s h = some r) ∧
      (¬ HandOverReturns s h → ∀ k, usbBdStall k s h = none)) ∧
    (runSetups 1 (usbBdInit BdState.blank, [])
        [⟨0, USB_ED_OUT, 8⟩, ⟨0, USB_ED_IN, 8⟩, ⟨1, USB_ED_OUT, 32⟩, ⟨2, USB_ED_IN, 32⟩]
        = some (BdState.gapTable, [(0, 8), (1, 8), (2, 32), (5, 32)]) ∧
      (BdState.gapTable.usbBdt 2).addr ≠ 0 ∧
      (BdState.gapTable.usbBdt 2).stat.UOWN = false ∧
      ∀ k, usbBdStall k BdState.gapTable 2 = none) := by
  refine ⟨?_, ?_, ?_, ?_, ?_⟩
  rotate_left 2
  · intro hlt hu
    exact usbBdStall_sie fuel s h hlt hu
  · intro hlt
    refine ⟨⟨?_, ?_⟩, usbBdStall_some_of fuel s h,
      fun hc k => usbBdStall_none_of k s h hlt hc⟩
    · rintro ⟨k, r, hr⟩
      by_contra hc
      rw [usbBdStall_none_of k s h hlt hc] at hr
      cases hr
    · intro hc
      obtain ⟨r, hr⟩ := usbBdStall_some_of 0 s h hc
      exact ⟨_, _, hr⟩
  · refine ⟨rfl, by decide, by decide, fun k => ?_⟩
    exact usbBdStall_none_of k _ 2 (by decide) (by decide)
  · by_cases hh : 32 ≤ h
    · rw [usbBdStall_bad fuel s h hh, Option.some_bind, usbBdStall_bad fuel s h hh]
    · have hlt : h < 32 := Nat.lt_of_not_le hh
      cases hu : (s.usbBdt h).stat.UOWN with
      | true =>
        rw [usbBdStall_sie fuel s h hlt hu, Option.some_bind, usbBdStall_sie fuel s h hlt hu]
      | false =>
        cases hn : usbBdGetSize fuel s h with
        | none =>
          rw [usbBdStall_none fuel s h hlt hu hn]
          rfl
        | some n =>
          rw [usbBdStall_cpu fuel s h n hlt hu hn, Option.some_bind]
          rw [usbBdStall_sie fuel _ h hlt (by rw [setBd_same]; rfl)]
          rfl
  · intro hlt hu n hn
    refine ⟨_, usbBdStall_cpu fuel s h n hlt hu hn, ?_, ?_, ?_, ?_⟩
    · exact usbBdStall_sie fuel _ h hlt (by rw [setBd_same]; rfl)
    · rw [setBd_same]; rfl
    · rw [setBd_same]; rfl
    · intro h0 h1
      unfold BdState.count
      rw [setBd_same]
      exact bdHandOver_count _ n true h0 h1

/-- Claim C13: `usbPostEvent(ev)` returns `USB_SUCCESS` and stores `ev` iff the event
slot holds `USB_EV_NONE`; when the slot holds an event it returns `USB_EOVERFLOW` and
leaves the slot (and everything else) as it was; after `usbGetEvent` has drained the
slot, `usbPostEvent` succeeds and stores its event. -/
theorem usbPostEvent_result (d : UsbDriver) (ev ev' : usbEvent) :
    (((usbPostEvent d ev).1 = USB_SUCCESS ∧ (usbPostEvent d ev).2.eventBuffer = ev)
      ↔ d.eventBuffer = USB_EV_NONE) ∧
    ((usbPostEvent d ev).1 = USB_SUCCESS ∨ (usbPostEvent d ev).1 = USB_EOVERFLOW) ∧
    (d.eventBuffer ≠ USB_EV_NONE → usbPostEvent d ev = (USB_EOVERFLOW, d)) ∧
    (usbGetEvent d).1 = d.eventBuffer ∧
    (usbPostEvent (usbGetEvent d).2 ev').1 = USB_SUCCESS ∧
    (usbPostEvent (usbGetEvent d).2 ev').2.eventBuffer = ev' := by
  unfold usbPostEvent usbGetEvent
  by_cases he : USB_EV_NONE = d.eventBuffer
  · rw [if_pos he]
    simp [he.symm]
  · have he' : ¬ d.eventBuffer = USB_EV_NONE := fun e => he e.symm
    rw [if_neg he]
    simp [he']

/-- The scenario of claim C13: with the slot holding `USB_EV_RESET`,
`usbPostEvent(USB_EV_TRANSACTION)` returns `USB_EOVERFLOW` and the slot still holds
`USB_EV_RESET`; after `usbGetEvent` the same call returns `USB_SUCCESS` and the slot
holds `USB_EV_TRANSACTION`. -/
theorem usbPostEvent_scenario :
    (usbPostEvent { UsbDriver.blank with eventBuffer := USB_EV_RESET } USB_EV_TRANSACTION).1
        = USB_EOVERFLOW ∧
    (usbPostEvent { UsbDriver.blank with eventBuffer := USB_EV_RESET }
        USB_EV_TRANSACTION).2.eventBuffer = USB_EV_RESET ∧
    (usbGetEvent { UsbDriver.blank with eventBuffer := USB_EV_RESET }).1 = USB_EV_RESET ∧
    (usbPostEvent (usbGetEvent { UsbDriver.blank with eventBuffer := USB_EV_RESET }).2
        USB_EV_TRANSACTION).1 = USB_SUCCESS ∧
    (usbPostEvent (usbGetEvent { UsbDriver.blank with eventBuffer := USB_EV_RESET }).2
        USB_EV_TRANSACTION).2.eventBuffer = USB_EV_TRANSACTION := by
  decide

/-- Claim C14, as stated, fails: with an empty event slot and the reset interrupt flag
`URSTIF` set in UIR, `usbWork` returns `USB_SUCCESS` and leaves `USB_EV_RESET` in the
slot: the last pass drains the slot first and checks the interrupts afterwards. -/
theorem usbWork_slot_counterexample :
    (usbWork 1 Env.sample Locals.zero
        { UsbSystem.blank with drv := { UsbDriver.blank with UIR := 1 } }).map
      (fun r => (r.1, r.2.drv.eventBuffer))
      = some (USB_SUCCESS, USB_EV_RESET) := by
  decide

/-- Claim C14, amended: whenever `usbWork` returns, it returns `USB_SUCCESS` and the
event slot holds what its last `usbCheckInterrupt` call left in the drained slot:
`USB_EV_RESET` when `URSTIF` was set in UIR (the flag is cleared), else
`USB_EV_TRANSACTION` when `TRNIF` was set (the flag stays set), else `USB_EV_NONE`. The
slot is empty on return exactly when neither flag was set at that last check, and it
never holds `USB_EV_ATTACHED` or `USB_EV_DETACHED`. -/
theorem usbWork_slot (fuel : Nat) (env : Env) (u : Locals) (s : UsbSystem) (ret : usbError)
    (s' : UsbSystem) (h : usbWork fuel env u s = some (ret, s')) :
    ret = USB_SUCCESS ∧
    ∃ s1 : UsbSystem, s1.drv.eventBuffer = USB_EV_NONE ∧
      s' = { s1 with drv := (usbCheckInterrupt s1.drv).2 } ∧
      (s1.drv.UIR.testBit UIR_URSTIF = true →
        s'.drv.eventBuffer = USB_EV_RESET ∧ s'.drv.UIR = clearBit s1.drv.UIR UIR_URSTIF) ∧
      (s1.drv.UIR.testBit UIR_URSTIF = false → s1.drv.UIR.testBit UIR_TRNIF = true →
        s'.drv.eventBuffer = USB_EV_TRANSACTION ∧ s'.drv.UIR = s1.drv.UIR) ∧
      (s1.drv.UIR.testBit UIR_URSTIF = false → s1.drv.UIR.testBit UIR_TRNIF = false →
        s'.drv.eventBuffer = USB_EV_NONE) ∧
      (s'.drv.eventBuffer = USB_EV_NONE ↔
        (s1.drv.UIR.testBit UIR_URSTIF = false ∧ s1.drv.UIR.testBit UIR_TRNIF = false)) ∧
      s'.drv.eventBuffer ≠ USB_EV_ATTACHED ∧ s'.drv.eventBuffer ≠ USB_EV_DETACHED := by
  obtain ⟨hret, s1, hs1, hs'⟩ := usbWorkLoop_last env u fuel s ret s' h
  obtain ⟨h1, h2, h3⟩ := usbCheckInterrupt_slot s1.drv hs1
  refine ⟨hret, s1, hs1, hs', ?_⟩
  subst hs'
  dsimp only
  have key : (s1.drv.UIR.testBit UIR_URSTIF = true →
        (usbCheckInterrupt s1.drv).2.eventBuffer = USB_EV_RESET) ∧
      (s1.drv.UIR.testBit UIR_URSTIF = false → s1.drv.UIR.testBit UIR_TRNIF = true →
        (usbCheckInterrupt s1.drv).2.eventBuffer = USB_EV_TRANSACTION) ∧
      (s1.drv.UIR.testBit UIR_URSTIF = false → s1.drv.UIR.testBit UIR_TRNIF = false →
        (usbCheckInterrupt s1.drv).2.eventBuffer = USB_EV_NONE) :=
    ⟨fun a => (h1 a).1, fun a b => (h2 a b).1, fun a b => by rw [h3 a b]; exact hs1⟩
  refine ⟨h1, h2, key.2.2, ?_, ?_, ?_⟩
  · cases ha : s1.drv.UIR.testBit UIR_URSTIF <;> cases hb : s1.drv.UIR.testBit UIR_TRNIF
    · simp [key.2.2 ha hb]
    · simp [key.2.1 ha hb]
    · simp [key.1 ha]
    · simp [key.1 ha]
  · cases ha : s1.drv.UIR.testBit UIR_URSTIF <;> cases hb : s1.drv.UIR.testBit UIR_TRNIF
    · simp [key.2.2 ha hb]
    · simp [key.2.1 ha hb]
    · simp [key.1 ha]
    · simp [key.1 ha]
  · cases ha : s1.drv.UIR.testBit UIR_URSTIF <;> cases hb : s1.drv.UIR.testBit UIR_TRNIF
    · simp [key.2.2 ha hb]
    · simp [key.2.1 ha hb]
    · simp [key.1 ha]
    · simp [key.1 ha]

/-- Instance of `usbWork_slot`: the run with an empty slot and `URSTIF` set returns
with `USB_EV_RESET` in the slot. -/
theorem usbWork_slot_witness :
    usbWork 1 Env.sample Locals.zero
        { UsbSystem.blank with drv := { UsbDriver.blank with UIR := 1 } }
      = some (USB_SUCCESS, { UsbSystem.blank with drv :=
          (usbCheckInterrupt (usbGetEvent { UsbDriver.blank with UIR := 1 }).2).2 }) ∧
    (usbCheckInterrupt (usbGetEvent { UsbDriver.blank with UIR := 1 }).2).2.eventBuffer
      ≠ USB_EV_ATTACHED := by
  refine ⟨rfl, ?_⟩
  obtain ⟨_, s1, _, _, _, _, _, _, h, _⟩ :=
    usbWork_slot 1 Env.sample Locals.zero
      { UsbSystem.blank with drv := { UsbDriver.blank with UIR := 1 } } USB_SUCCESS
      { UsbSystem.blank with drv :=
          (usbCheckInterrupt (usbGetEvent { UsbDriver.blank with UIR := 1 }).2).2 } rfl
  exact h

/-- Claim C15: from a state reachable from `usbInit`, a step that is one of the events
Attached, Detached, Reset or a call of `usbiSetAddress` or `usbiSetConfig` (whatever the
callback does) leaves the device state unchanged, or moves it to a neighbour in the
order Unattached < Attached < Default < Addressed < Configured, or is a Detached step
that ends in Unattached, or is a Reset step from Attached, Default, Addressed or
Configured that ends in Default. -/
theorem device_state_steps (env : Env) (s : UsbSystem) (hr : Reachable env s)
    (fuel : Nat) (u : Locals) (l : CoreStep) (s' : UsbSystem)
    (hl : l ≠ .event USB_EV_NONE ∧ l ≠ .event USB_EV_TRANSACTION)
    (hstep : coreStep fuel env u s l = some s') :
    s'.drv.state = s.drv.state ∨ usbState.Adjacent s.drv.state s'.drv.state ∨
      (l = .event USB_EV_DETACHED ∧ s'.drv.state = usbState.USB_ST_UNATTACHED) ∨
      (l = .event USB_EV_RESET ∧
        (s.drv.state = usbState.USB_ST_ATTACHED ∨ s.drv.state = usbState.USB_ST_DEFAULT ∨
          s.drv.state = usbState.USB_ST_ADDRESSED ∨
          s.drv.state = usbState.USB_ST_CONFIGURED) ∧
        s'.drv.state = usbState.USB_ST_DEFAULT) := by
  have hok := reachable_handlersOk env s hr
  cases l with
  | event ev =>
    simp only [coreStep, Option.map_eq_some'] at hstep
    obtain ⟨r, hd, he⟩ := hstep
    subst he
    obtain ⟨d1, d2, d3, d4, d5, _⟩ := dispatch_state fuel env u s ev r.1 r.2 hok hd
    cases ev with
    | USB_EV_NONE => exact absurd rfl hl.1
    | USB_EV_TRANSACTION => exact absurd rfl hl.2
    | USB_EV_ATTACHED =>
      by_cases hs : s.drv.state = usbState.USB_ST_UNATTACHED
      · right; left
        rw [hs, d1 rfl hs]
        exact Or.inl rfl
      · left
        rw [(d2 rfl hs).2]
    | USB_EV_DETACHED => exact Or.inr (Or.inr (Or.inl ⟨rfl, d3 rfl⟩))
    | USB_EV_RESET =>
      by_cases hs : s.drv.state = usbState.USB_ST_UNATTACHED
      · left
        rw [(d4 rfl hs).2]
      · refine Or.inr (Or.inr (Or.inr ⟨rfl, ?_, d5 rfl hs⟩))
        cases hst : s.drv.state
        · exact absurd hst hs
        all_goals simp
  | setAddress a =>
    simp only [coreStep, Option.some.injEq] at hstep
    subst hstep
    unfold usbiSetAddress
    split_ifs with c1 c2
    · rcases c1 with c | c
      · right; left
        rw [← c]
        exact Or.inl rfl
      · left
        exact c
    · exact Or.inl rfl
    · exact Or.inl rfl
  | setConfig c =>
    simp only [coreStep, Option.some.injEq] at hstep
    subst hstep
    unfold usbiSetConfig
    dsimp only
    split_ifs with c1 c2 c3 c4
    · exact Or.inl rfl
    · exact Or.inl rfl
    · by_cases ha : usbState.USB_ST_ADDRESSED = s.drv.state
      · exact Or.inl ha
      · have hc : usbState.USB_ST_CONFIGURED = s.drv.state := by
          by_contra hc
          exact c1 ⟨ha, hc⟩
        right; left
        rw [← hc]
        exact Or.inr rfl
    · by_cases ha : usbState.USB_ST_ADDRESSED = s.drv.state
      · right; left
        rw [← ha]
        exact Or.inl rfl
      · have hc : usbState.USB_ST_CONFIGURED = s.drv.state := by
          by_contra hc
          exact c1 ⟨ha, hc⟩
        exact Or.inl hc
    · exact Or.inl rfl

/-- Instance of `device_state_steps`: the Attached event right after `usbInit`, which
moves the device from Unattached to Attached. -/
theorem device_state_steps_witness :
    ((coreStep 1 Env.sample Locals.zero UsbSystem.afterInit (.event USB_EV_ATTACHED)).map
        fun s' => s'.drv.state) = some usbState.USB_ST_ATTACHED ∧
      ∀ s', coreStep 1 Env.sample Locals.zero UsbSystem.afterInit (.event USB_EV_ATTACHED)
          = some s' →
        s'.drv.state = UsbSystem.afterInit.drv.state ∨
        usbState.Adjacent UsbSystem.afterInit.drv.state s'.drv.state ∨
        (CoreStep.event USB_EV_ATTACHED = .event USB_EV_DETACHED ∧
          s'.drv.state = usbState.USB_ST_UNATTACHED) ∨
        (CoreStep.event USB_EV_ATTACHED = .event USB_EV_RESET ∧
          (UsbSystem.afterInit.drv.state = usbState.USB_ST_ATTACHED ∨
            UsbSystem.afterInit.drv.state = usbState.USB_ST_DEFAULT ∨
            UsbSystem.afterInit.drv.state = usbState.USB_ST_ADDRESSED ∨
            UsbSystem.afterInit.drv.state = usbState.USB_ST_CONFIGURED) ∧
          s'.drv.state = usbState.USB_ST_DEFAULT) :=
  ⟨by decide, fun s' h =>
    device_state_steps Env.sample UsbSystem.afterInit (afterInit_reachable Env.sample) 1
      Locals.zero (.event USB_EV_ATTACHED) s' ⟨by decide, by decide⟩ h⟩

/-- Claim C16, on the code: in a state reachable from `usbInit`, whenever the call
`eventHandlers[ev]()` of `usbWork` returns, the device state is the one the transition
function of the specification gives: Attached moves Unattached to Attached and nothing
else, Detached ends in Unattached, Reset ends in Default except in Unattached, a
transaction leaves Unattached and Attached. A dropped event returns Success and changes
nothing at all. The Detached handler always returns, the Attached handler returns once
the SE0 condition is gone, and the Reset handler returns when `usbBdGetSize` does for
the two BDs of endpoint 0. Outside Unattached the Reset handler returns exactly when
`usbBdStall` gets past the size of both EP0 BDs: each is SIE-owned, or the handle after
it is above `highestSetupBD` or allocated; otherwise the handler never returns and the
device does not reach Default. After `usbInit`, `usbBdSetup(1, USB_ED_IN, 32)` and the
event Attached, a reachable state in Attached, the BD of handle 1 is CPU-owned and
handle 2 is unallocated below `highestSetupBD` = 3, and the event Reset returns with no
amount of fuel. -/
theorem dispatch_transition (env : Env) (s : UsbSystem) (hr : Reachable env s)
    (fuel : Nat) (u : Locals) :
    (∀ ev ret s' st, dispatch fuel env u s ev = some (ret, s') →
      specTransition s.drv.state ev = some st → s'.drv.state = st) ∧
    (∀ ev, (ev = USB_EV_ATTACHED ∧ s.drv.state ≠ usbState.USB_ST_UNATTACHED) ∨
        (ev = USB_EV_RESET ∧ s.drv.state = usbState.USB_ST_UNATTACHED) ∨
        (ev = USB_EV_TRANSACTION ∧ (s.drv.state = usbState.USB_ST_UNATTACHED ∨
          s.drv.state = usbState.USB_ST_ATTACHED)) →
      dispatch fuel env u s ev = some (USB_SUCCESS, s)) ∧
    (∃ r, dispatch fuel env u s USB_EV_DETACHED = some r) ∧
    (s.drv.UCON.testBit UCON_SE0 = false →
      ∃ r, dispatch (fuel + 1) env u s USB_EV_ATTACHED = some r) ∧
    ((∃ n0, usbBdGetSize fuel s.drv.bd 0 = some n0) →
      (∃ n1, usbBdGetSize fuel s.drv.bd 1 = some n1) →
      ∃ r, dispatch fuel env u s USB_EV_RESET = some r) ∧
    (s.drv.state ≠ usbState.USB_ST_UNATTACHED →
      ((∃ k r, dispatch k env u s USB_EV_RESET = some r) ↔
        (HandOverReturns s.drv.bd 0 ∧ HandOverReturns s.drv.bd 1)) ∧
      (HandOverReturns s.drv.bd 0 ∧ HandOverReturns s.drv.bd 1 →
        ∃ r, dispatch (fuel + 1) env u s USB_EV_RESET = some r) ∧
      (¬ (HandOverReturns s.drv.bd 0 ∧ HandOverReturns s.drv.bd 1) →
        ∀ k, dispatch k env u s USB_EV_RESET = none)) ∧
    (Reachable Env.sample UsbSystem.attachedGap ∧
      UsbSystem.attachedGap.drv.state = usbState.USB_ST_ATTACHED ∧
      specTransition usbState.USB_ST_ATTACHED USB_EV_RESET = some usbState.USB_ST_DEFAULT ∧
      (UsbSystem.attachedGap.drv.bd.usbBdt 1).stat.UOWN = false ∧
      (UsbSystem.attachedGap.drv.bd.usbBdt 2).addr = 0 ∧
      UsbSystem.attachedGap.drv.bd.highestSetupBD = 3 ∧
      ∀ k v, dispatch k Env.sample v UsbSystem.attachedGap USB_EV_RESET = none) := by
  have hok := reachable_handlersOk env s hr
  obtain ⟨p1, p2, p3, p4, p5, p6⟩ := dispatch_returns fuel env u s hok
  refine ⟨?_, ?_, p1, p3, p5, ?_, ?_⟩
  rotate_left 2
  · intro hs
    refine ⟨⟨?_, ?_⟩, fun hc => dispatch_reset_some fuel env u s hok hs hc.1 hc.2,
      fun hc k => dispatch_reset_none k env u s hok hs hc⟩
    · rintro ⟨k, r, hk⟩
      by_contra hc
      rw [dispatch_reset_none k env u s hok hs hc] at hk
      cases hk
    · intro hc
      obtain ⟨r, hk⟩ := dispatch_reset_some 0 env u s hok hs hc.1 hc.2
      exact ⟨_, _, hk⟩
  · refine ⟨attachedGap_reachable, by decide, by decide, by decide, by decide, by decide,
      fun k v => ?_⟩
    exact dispatch_reset_none k Env.sample v UsbSystem.attachedGap
      (reachable_handlersOk Env.sample _ attachedGap_reachable) (by decide) (by decide)
  · intro ev ret s' st h hspec
    obtain ⟨d1, d2, d3, d4, d5, d6⟩ := dispatch_state fuel env u s ev ret s' hok h
    cases ev with
    | USB_EV_NONE => simp [specTransition] at hspec
    | USB_EV_ATTACHED =>
      by_cases hs : s.drv.state = usbState.USB_ST_UNATTACHED
      · rw [hs] at hspec
        simp only [specTransition, Option.some.injEq] at hspec
        rw [← hspec]
        exact d1 rfl hs
      · rw [(d2 rfl hs).2]
        cases hst : s.drv.state <;> rw [hst] at hspec <;>
          simp only [specTransition, Option.some.injEq] at hspec
        · exact absurd hst hs
        all_goals exact hspec
    | USB_EV_DETACHED =>
      have : st = usbState.USB_ST_UNATTACHED := by
        cases hst : s.drv.state <;> rw [hst] at hspec <;>
          simp only [specTransition, Option.some.injEq] at hspec <;> exact hspec.symm
      rw [this]
      exact d3 rfl
    | USB_EV_RESET =>
      by_cases hs : s.drv.state = usbState.USB_ST_UNATTACHED
      · rw [(d4 rfl hs).2]
        rw [hs] at hspec ⊢
        simp only [specTransition, Option.some.injEq] at hspec
        exact hspec
      · have : st = usbState.USB_ST_DEFAULT := by
          cases hst : s.drv.state <;> rw [hst] at hspec <;>
            simp only [specTransition, Option.some.injEq] at hspec
          · exact absurd hst hs
          all_goals exact hspec.symm
        rw [this]
        exact d5 rfl hs
    | USB_EV_TRANSACTION =>
      cases hst : s.drv.state <;> rw [hst] at hspec <;>
        simp only [specTransition, Option.some.injEq, reduceCtorEq] at hspec
      · rw [(d6 rfl (Or.inl hst)).2, hst]
        exact hspec
      · rw [(d6 rfl (Or.inr hst)).2, hst]
        exact hspec
  · intro ev hev
    have hret : ∃ r, dispatch fuel env u s ev = some r := by
      rcases hev with ⟨e, hs⟩ | ⟨e, hs⟩ | ⟨e, hs⟩
      · subst e; exact p2 hs
      · subst e; exact p4 hs
      · subst e; exact p6 hs
    obtain ⟨r, hr'⟩ := hret
    obtain ⟨_, d2, _, d4, _, d6⟩ := dispatch_state fuel env u s ev r.1 r.2 hok hr'
    have hrs : r.1 = USB_SUCCESS ∧ r.2 = s := by
      rcases hev with ⟨e, hs⟩ | ⟨e, hs⟩ | ⟨e, hs⟩
      · exact d2 e hs
      · exact d4 e hs
      · exact d6 e hs
    rw [hr', ← hrs.1, ← hrs.2]

/-- Instance of `dispatch_transition`: right after `usbInit` the Attached event moves
the device to Attached; there a Reset ends in Default and a following Detached in
Unattached. -/
theorem dispatch_transition_witness :
    ((dispatch 1 Env.sample Locals.zero UsbSystem.afterInit USB_EV_ATTACHED).bind fun r1 =>
      (dispatch 1 Env.sample Locals.zero r1.2 USB_EV_RESET).bind fun r2 =>
        (dispatch 1 Env.sample Locals.zero r2.2 USB_EV_DETACHED).map fun r3 =>
          (r1.2.drv.state, r2.2.drv.state, r3.2.drv.state))
      = some (usbState.USB_ST_ATTACHED, usbState.USB_ST_DEFAULT, usbState.USB_ST_UNATTACHED) ∧
    dispatch 1 Env.sample Locals.zero UsbSystem.afterInit USB_EV_RESET
      = some (USB_SUCCESS, UsbSystem.afterInit) :=
  ⟨by decide,
    (dispatch_transition Env.sample UsbSystem.afterInit (afterInit_reachable Env.sample) 1
      Locals.zero).2.1 USB_EV_RESET (Or.inr (Or.inl ⟨rfl, afterInit_state⟩))⟩

/-- Claim C18, on the code: a call of `usbCtlHandleTransaction` that changes `UADDR` is
a call for the IN handle with the direction Out, a pending address, and the control
state Status or Data, so no call for the OUT handle changes `UADDR`. The state Data
does occur: after the SETUP packets 00 05 05 00 00 00 00 00 (SET_ADDRESS 5) and
00 00 00 00 00 00 02 00 (GET_STATUS with the direction bit clear) the control engine is
in Data with direction Out and address 5 still pending, `UADDR` is 0, and the call for
the IN handle writes 5 to `UADDR`. -/
theorem uaddr_written_in_data_stage :
    (∀ (fuel : Nat) (env : Env) (u : Locals) (s : UsbSystem) (bdHandle : Nat)
        (ret : usbError) (s' : UsbSystem),
      usbCtlHandleTransaction fuel env u s bdHandle = some (ret, s') →
      s'.drv.UADDR ≠ s.drv.UADDR →
      s.ctl.inHandle = bdHandle ∧ s.ctl.dir = .USB_CTL_DIR_OUT ∧
        (s.ctl.state = .USB_CTL_STATUS ∨ s.ctl.state = .USB_CTL_DATA) ∧
        s.ctl.newAddress ≠ 0 ∧ s'.drv.UADDR = s.ctl.newAddress) ∧
    ((usbCtlHandleTransaction 1 Env.sample Locals.zero
        (sieSetup UsbSystem.afterReset [0, 5, 5, 0, 0, 0, 0, 0]) 0).bind fun r1 =>
      (usbCtlHandleTransaction 1 Env.sample Locals.zero
          (sieSetup r1.2 [0, 0, 0, 0, 0, 0, 2, 0]) 0).bind fun r2 =>
        (usbCtlHandleTransaction 1 Env.sample Locals.zero r2.2 1).map fun r3 =>
          (r2.2.ctl.state, r2.2.ctl.dir, r2.2.ctl.inHandle, r2.2.ctl.newAddress,
            r2.2.drv.UADDR, r3.1, r3.2.drv.UADDR, r3.2.drv.state))
      = some (usbCtlState.USB_CTL_DATA, usbCtlDir.USB_CTL_DIR_OUT, 1, 5, 0, USB_SUCCESS, 5,
          usbState.USB_ST_ADDRESSED) :=
  ⟨fun fuel env u s bdHandle ret s' h hw =>
      uaddr_write_condition fuel env u s bdHandle ret s' h hw,
    rfl⟩

/-! ## Facts for the claims C21 to C30 -/

/-- Everything that `usbInit` leaves, for every prior content of the memory. -/
theorem usbInit_full (fuel : Nat) (d0 : UsbDriver) :
    ∃ d, usbInit (fuel + 1) d0 = some (USB_SUCCESS, d) ∧ d.bd = bdAfterInit d0.bd ∧
      d.eventBuffer = USB_EV_NONE ∧ d.userCallbacks 0 = 0 ∧ d.userCallbacks 1 = 0 ∧
      d.state = usbState.USB_ST_UNATTACHED ∧ d.UCFG = 0x14 ∧ d.UIE = 0 ∧ d.UEIE = 0 := by
  have h0 : ArenaOk (usbBdInit d0.bd) := (setupInv_init d0.bd).arena
  have h1 : ArenaOk (setupDone (usbBdInit d0.bd) 0 USB_CFG_EP0_BUFFER_SIZE) := by
    unfold ArenaOk setupDone usbBdInit USB_CFG_ENDPOINT_BUFFER_ORIGIN
      USB_CFG_ENDPOINT_BUFFER_SIZE USB_CFG_EP0_BUFFER_SIZE
    simp
  have e0 : usbBdSetup (fuel + 1) (usbBdInit d0.bd) 0 USB_ED_OUT USB_CFG_EP0_BUFFER_SIZE
      = some (USB_SUCCESS, setupDone (usbBdInit d0.bd) 0 USB_CFG_EP0_BUFFER_SIZE) := by
    rw [usbBdSetup_eq fuel _ _ _ _ h0]
    simp [usbBdInit, usbEndpointDirection.toNat, USB_CFG_EP0_BUFFER_SIZE, BdState.free,
      USB_CFG_NUM_BDS, usbBd.zero, USB_CFG_ENDPOINT_BUFFER_ORIGIN,
      USB_CFG_ENDPOINT_BUFFER_SIZE]
  have e1 : usbBdSetup (fuel + 1) (setupDone (usbBdInit d0.bd) 0 USB_CFG_EP0_BUFFER_SIZE)
      0 USB_ED_IN USB_CFG_EP0_BUFFER_SIZE
      = some (USB_SUCCESS, bdAfterInit d0.bd) := by
    rw [usbBdSetup_eq fuel _ _ _ _ h1]
    simp [usbBdInit, usbEndpointDirection.toNat, USB_CFG_EP0_BUFFER_SIZE, BdState.free,
      USB_CFG_NUM_BDS, usbBd.zero, USB_CFG_ENDPOINT_BUFFER_ORIGIN,
      USB_CFG_ENDPOINT_BUFFER_SIZE, setupDone, bdAfterInit]
  have r5 : List.range USB_EV_MAX = [0, 1, 2, 3, 4] := by decide
  have r2 : List.range USB_CB_MAX = [0, 1] := by decide
  unfold usbInit
  rw [r5, r2]
  dsimp only [List.foldl, UsbDriver.setHandler, UsbDriver.setCallback, usbInitHardware]
  rw [e0, Option.some_bind]
  dsimp only
  rw [if_neg (by decide), e1, Option.some_bind]
  dsimp only
  rw [if_neg (by decide)]
  exact ⟨_, rfl, rfl, rfl, rfl, rfl, rfl, rfl, rfl, rfl⟩

theorem bdAfterInit_table (s0 : BdState) :
    (bdAfterInit s0).usbBdt 0 = { usbBd.zero with cnt := 8, addr := 0x500 } ∧
      (bdAfterInit s0).usbBdt 1 = { usbBd.zero with cnt := 8, addr := 0x508 } ∧
      (∀ h, 2 ≤ h → h < 32 → (bdAfterInit s0).usbBdt h = usbBd.zero) := by
  refine ⟨?_, ?_, ?_⟩
  · simp [bdAfterInit, setupDone, usbBdInit, USB_CFG_NUM_BDS, usbBd.zero,
      USB_CFG_EP0_BUFFER_SIZE, USB_CFG_ENDPOINT_BUFFER_ORIGIN]
  · simp [bdAfterInit, setupDone, usbBdInit, USB_CFG_NUM_BDS, usbBd.zero,
      USB_CFG_EP0_BUFFER_SIZE, USB_CFG_ENDPOINT_BUFFER_ORIGIN]
  · intro h h2 h32
    have e1 : ¬ h = 1 := by omega
    have e0 : ¬ h = 0 := by omega
    simp [bdAfterInit, setupDone, usbBdInit, USB_CFG_NUM_BDS, e1, e0, h32, usbBd.zero]

theorem getBuf_out0 (fuel : Nat) (b : BdState) (buf : Nat) (size : Int)
    (hown : (b.usbBdt 0).stat.UOWN = false) (haddr : (b.usbBdt 0).addr ≠ 0) :
    usbBdGetBuf fuel b 0 buf size = some ⟨USB_SUCCESS, (b.usbBdt 0).addr,
      i16 ((b.usbBdt 0).cnt + ((b.usbBdt 0).stat.BC : Int) * 256), b⟩ := by
  unfold usbBdGetBuf USB_CFG_NUM_BDS
  have hu' : ¬ (b.usbBdt 0).stat.UOWN = true := by simp [hown]
  rw [if_neg (by decide), if_neg hu', if_neg (fun e => haddr e.symm)]
  dsimp only
  rw [if_pos ((getDirection_out_iff 0).mpr rfl).symm]

/-- What `usbCtlHandleOut` does with the EP0 OUT BD set up and CPU-owned on entry. -/
theorem usbCtlHandleOut_eq (fuel : Nat) (u : Locals) (s : UsbSystem) (n : Int)
    (hout : s.ctl.outHandle = 0) (hown : (s.drv.bd.usbBdt 0).stat.UOWN = false)
    (haddr : (s.drv.bd.usbBdt 0).addr ≠ 0) (hn : usbBdGetSize fuel s.drv.bd 0 = some n) :
    ∃ s', usbCtlHandleOut fuel u s = some s' ∧
      s'.drv.bd = s.drv.bd.setBd 0 (bdHandOver (s.drv.bd.usbBdt 0) n true) ∧
      (s'.drv.bd.usbBdt 0).stat.BSTALL = true ∧ (s'.drv.bd.usbBdt 0).stat.UOWN = true ∧
      (0 ≤ n → n < 1024 → (s'.drv.bd.count 0 : Int) = n) ∧
      s'.ctl.state =
        (if (s.ctl.state = .USB_CTL_DATA ∧ s.ctl.dir = .USB_CTL_DIR_IN) ∨
            (s.ctl.state = .USB_CTL_STATUS ∧ s.ctl.dir = .USB_CTL_DIR_IN ∧
              0 = i16 ((s.drv.bd.usbBdt 0).cnt + ((s.drv.bd.usbBdt 0).stat.BC : Int) * 256))
          then .USB_CTL_SETUP else s.ctl.state) ∧
      s'.ctl.dir = s.ctl.dir ∧ s'.ctl.newAddress = s.ctl.newAddress ∧
      s'.ctl.dataPtr = s.ctl.dataPtr ∧ s'.ctl.bytesToTransfer = s.ctl.bytesToTransfer ∧
      s'.ctl.powerState = s.ctl.powerState ∧ s'.ram = s.ram ∧
      s'.drv.state = s.drv.state ∧ s'.drv.UADDR = s.drv.UADDR := by
  have hstall := usbBdStall_cpu fuel s.drv.bd 0 n (by decide) hown hn
  have hbd : ((s.drv.bd.setBd 0 (bdHandOver (s.drv.bd.usbBdt 0) n true)).usbBdt 0)
      = bdHandOver (s.drv.bd.usbBdt 0) n true := setBd_same _ _ _
  have hw : s.withBd s.drv.bd = s := rfl
  unfold usbCtlHandleOut
  rw [hout, getBuf_out0 fuel s.drv.bd u.buf u.size hown haddr, Option.some_bind]
  dsimp only
  rw [hw]
  cases hst : s.ctl.state <;> cases hdir : s.ctl.dir <;>
    simp only [hout, and_true, true_and, false_and, and_false, or_false, false_or, if_true,
      if_false, reduceCtorEq, ite_true, ite_false]
  all_goals try split_ifs with hz
  all_goals
    try rw [hout]
    rw [hstall]
    refine ⟨_, rfl, rfl, ?_, ?_, ?_, ?_⟩
    · show ((BdState.setBd _ 0 _).usbBdt 0).stat.BSTALL = true
      rw [hbd]; rfl
    · show ((BdState.setBd _ 0 _).usbBdt 0).stat.UOWN = true
      rw [hbd]; rfl
    · intro h0 h1
      show ((((BdState.setBd _ 0 _).usbBdt 0).cnt
        + 256 * ((BdState.setBd _ 0 _).usbBdt 0).stat.BC : Nat) : Int) = n
      rw [hbd]
      exact bdHandOver_count _ n true h0 h1
    · simp [hst, hdir, UsbSystem.withBd]

/-- Claim C27: from every prior content of the memory, `usbInit` returns `USB_SUCCESS`
and leaves the BD of EP0 OUT (handle 0) with the address of the arena base and count 8,
the BD of EP0 IN (handle 1) with the address base + 8 and count 8, every other BD
zeroed, `endOfAllocatedBuffer` at base + 16, `highestSetupBD` at 1, the event slot
empty, both callback slots cleared and the device state Unattached; `usbBdInit` alone
leaves `endOfAllocatedBuffer` at the base, `highestSetupBD` at 0 and every BD zeroed. -/
theorem usbInit_result (fuel : Nat) (d0 : UsbDriver) :
    (∃ d, usbInit (fuel + 1) d0 = some (USB_SUCCESS, d) ∧
      d.bd.usbBdt 0 = { usbBd.zero with cnt := 8, addr := USB_CFG_ENDPOINT_BUFFER_ORIGIN } ∧
      d.bd.usbBdt 1
        = { usbBd.zero with cnt := 8, addr := USB_CFG_ENDPOINT_BUFFER_ORIGIN + 8 } ∧
      (∀ h, 2 ≤ h → h < USB_CFG_NUM_BDS → d.bd.usbBdt h = usbBd.zero) ∧
      d.bd.endOfAllocatedBuffer = USB_CFG_ENDPOINT_BUFFER_ORIGIN + 16 ∧
      d.bd.highestSetupBD = 1 ∧ d.eventBuffer = USB_EV_NONE ∧
      d.userCallbacks USB_CB_CONFIG = 0 ∧ d.userCallbacks USB_CB_TRANSACTION = 0 ∧
      d.state = usbState.USB_ST_UNATTACHED) ∧
    ((usbBdInit d0.bd).endOfAllocatedBuffer = USB_CFG_ENDPOINT_BUFFER_ORIGIN ∧
      (usbBdInit d0.bd).highestSetupBD = 0 ∧
      ∀ h, h < USB_CFG_NUM_BDS → (usbBdInit d0.bd).usbBdt h = usbBd.zero) := by
  constructor
  · obtain ⟨d, hd, hbd, h1, h2, h3, h4, _⟩ := usbInit_full fuel d0
    obtain ⟨t0, t1, t2⟩ := bdAfterInit_table d0.bd
    refine ⟨d, hd, ?_, ?_, ?_, ?_, ?_, h1, h2, h3, h4⟩
    · rw [hbd]; exact t0
    · rw [hbd]; exact t1
    · intro h a b; rw [hbd]; exact t2 h a b
    · rw [hbd]; rfl
    · rw [hbd]; rfl
  · refine ⟨rfl, rfl, ?_⟩
    intro h hh
    simp [usbBdInit, hh]

/-- Claim C29, on the code: `usbBdGetSize(h)` returns exactly when handle `h + 1` is
above `highestSetupBD` or the BD of handle `h + 1` is allocated; with an unallocated
handle `h + 1` that is not above `highestSetupBD` the loop tests that handle for ever.
Such a table is reached by `usbInit` followed by the successful call
`usbBdSetup(1, USB_ED_IN, 32)`: `usbBdGetSize(1)` returns with no amount of fuel. -/
theorem usbBdGetSize_returns_iff (s : BdState) (h : Nat) :
    ((∃ fuel n, usbBdGetSize fuel s h = some n) ↔
      (s.highestSetupBD < h + 1 ∨ (s.usbBdt (h + 1)).addr ≠ 0)) ∧
    (∃ d t, usbInit 1 UsbDriver.blank = some (USB_SUCCESS, d) ∧
      usbBdSetup 1 d.bd 1 USB_ED_IN 32 = some (USB_SUCCESS, t) ∧
      t.highestSetupBD = 3 ∧ (t.usbBdt 1).addr ≠ 0 ∧ (t.usbBdt 2).addr = 0 ∧
      ∀ fuel, usbBdGetSize fuel t 1 = none) := by
  constructor
  · constructor
    · rintro ⟨fuel, n, hn⟩
      by_contra hc
      have h1 : h + 1 ≤ s.highestSetupBD := by omega
      have h2 : (s.usbBdt (h + 1)).addr = 0 := by
        by_contra h2; exact hc (Or.inr h2)
      have := getSizeLoop_spin s h (h + 1)
        (ptrDiff s.endOfAllocatedBuffer (s.usbBdt h).addr) h1 h2 fuel
      unfold usbBdGetSize at hn
      rw [this] at hn
      cases hn
    · intro hc
      by_cases h1 : s.highestSetupBD < h + 1
      · exact ⟨1, _, getSizeLoop_exit s h (h + 1) _ 0 h1⟩
      · have h2 : (s.usbBdt (h + 1)).addr ≠ 0 := by
          rcases hc with hc | hc
          · exact absurd hc h1
          · exact hc
        exact ⟨1, _, getSizeLoop_break s h (h + 1) _ 0 (by omega) h2⟩
  · exact ⟨_, _, rfl, rfl, rfl, by decide, rfl,
      fun fuel => getSizeLoop_spin _ 1 2 _ (by decide) (by decide) fuel⟩

/-- Claim C26, on the code: `usbSetCallback` returns `USB_EBADPARM` and stores nothing
for a slot value below 0 or above `USB_CB_MAX`, and returns `USB_SUCCESS` and stores the
callback at the index of the slot for the values 0, 1 and also `USB_CB_MAX` = 2, where
the store goes past the two entries of the table. -/
theorem usbSetCallback_result (d : UsbDriver) (cbEvent : Int) (callback : Nat) :
    ((cbEvent < 0 ∨ 2 < cbEvent) → usbSetCallback d cbEvent callback = (USB_EBADPARM, d)) ∧
    ((cbEvent = 0 ∨ cbEvent = 1) →
      (usbSetCallback d cbEvent callback).1 = USB_SUCCESS ∧
      (usbSetCallback d cbEvent callback).2.userCallbacks cbEvent.toNat = callback ∧
      (∀ i, i ≠ cbEvent.toNat →
        (usbSetCallback d cbEvent callback).2.userCallbacks i = d.userCallbacks i)) ∧
    ((usbSetCallback d (USB_CB_MAX : Int) callback).1 = USB_SUCCESS ∧
      (usbSetCallback d (USB_CB_MAX : Int) callback).2.userCallbacks USB_CB_MAX = callback) := by
  refine ⟨?_, ?_, ?_⟩
  · intro hc
    unfold usbSetCallback USB_CB_MAX
    rw [if_pos (by omega)]
  · intro hc
    have hn : ¬ (cbEvent < 0 ∨ cbEvent > (USB_CB_MAX : Int)) := by
      unfold USB_CB_MAX; omega
    unfold usbSetCallback
    rw [if_neg hn]
    refine ⟨rfl, ?_, ?_⟩
    · simp [UsbDriver.setCallback]
    · intro i hi
      simp [UsbDriver.setCallback, hi]
  · unfold usbSetCallback USB_CB_MAX
    rw [if_neg (by omega)]
    exact ⟨rfl, by simp [UsbDriver.setCallback]⟩

/-- Claim C24, as stated, fails for the index 0: in the state Configured with a
callback that returns `USB_EBADPARM` for the index 0, `usbiSetConfig(0)` returns
`USB_SUCCESS` and moves the device to Addressed. -/
theorem usbiSetConfig_zero_counterexample :
    (Env.sample.callback 7 0 BdState.blank (fun _ => 0)).ret = USB_EBADPARM ∧
    (usbiSetConfig Env.sample
        { UsbSystem.blank with drv := { UsbDriver.blank with
            state := usbState.USB_ST_CONFIGURED,
            userCallbacks := fun i => if i = 0 then 7 else 0 } } 0).1 = USB_SUCCESS ∧
    (usbiSetConfig Env.sample
        { UsbSystem.blank with drv := { UsbDriver.blank with
            state := usbState.USB_ST_CONFIGURED,
            userCallbacks := fun i => if i = 0 then 7 else 0 } } 0).2.drv.state
      = usbState.USB_ST_ADDRESSED := by
  decide

/-- Claim C24, amended: with a registered Config callback, `usbiSetConfig(c)` returns
`USB_EBADSTATE` and leaves everything as it was, the list of callback calls included,
when the device state is neither Addressed nor Configured. Otherwise it calls the
callback once with `c`; for `c = 0` it returns `USB_SUCCESS` with the state Addressed,
whatever the callback returns; for `c != 0` it returns `USB_SUCCESS` with the state
Configured when the callback returns `USB_SUCCESS`, and returns the error of the
callback with the device state as it was when the callback returns an error. -/
theorem usbiSetConfig_result (env : Env) (s : UsbSystem) (c : Nat)
    (hcb : s.drv.userCallbacks USB_CB_CONFIG ≠ 0) :
    ((s.drv.state ≠ usbState.USB_ST_ADDRESSED ∧ s.drv.state ≠ usbState.USB_ST_CONFIGURED) →
      usbiSetConfig env s c = (USB_EBADSTATE, s)) ∧
    ((s.drv.state = usbState.USB_ST_ADDRESSED ∨ s.drv.state = usbState.USB_ST_CONFIGURED) →
      (usbiSetConfig env s c).2.cbLog = s.cbLog ++ [(s.drv.userCallbacks USB_CB_CONFIG, c)] ∧
      (c = 0 → (usbiSetConfig env s c).1 = USB_SUCCESS ∧
        (usbiSetConfig env s c).2.drv.state = usbState.USB_ST_ADDRESSED) ∧
      (c ≠ 0 →
        (env.callback (s.drv.userCallbacks USB_CB_CONFIG) c s.drv.bd s.ram).ret = USB_SUCCESS →
        (usbiSetConfig env s c).1 = USB_SUCCESS ∧
        (usbiSetConfig env s c).2.drv.state = usbState.USB_ST_CONFIGURED) ∧
      (c ≠ 0 →
        (env.callback (s.drv.userCallbacks USB_CB_CONFIG) c s.drv.bd s.ram).ret ≠ USB_SUCCESS →
        (usbiSetConfig env s c).1
          = (env.callback (s.drv.userCallbacks USB_CB_CONFIG) c s.drv.bd s.ram).ret ∧
        (usbiSetConfig env s c).2.drv.state = s.drv.state)) := by
  have hcb' : ¬ (0 = s.drv.userCallbacks USB_CB_CONFIG) := fun e => hcb e.symm
  constructor
  · intro hs
    unfold usbiSetConfig
    dsimp only
    rw [if_pos ⟨fun e => hs.1 e.symm, fun e => hs.2 e.symm⟩]
  · intro hs
    have hst : ¬ (usbState.USB_ST_ADDRESSED ≠ s.drv.state ∧
        usbState.USB_ST_CONFIGURED ≠ s.drv.state) := by
      rintro ⟨a, b⟩
      rcases hs with h | h
      · exact a h.symm
      · exact b h.symm
    unfold usbiSetConfig
    dsimp only
    rw [if_neg hst, if_neg hcb']
    refine ⟨?_, ?_, ?_, ?_⟩
    · split_ifs <;> rfl
    · intro hc
      rw [if_pos hc.symm]
      exact ⟨rfl, rfl⟩
    · intro hc hr
      rw [if_neg (fun e => hc e.symm), if_pos hr.symm]
      exact ⟨rfl, rfl⟩
    · intro hc hr
      rw [if_neg (fun e => hc e.symm), if_neg (fun e => hr e.symm)]
      exact ⟨rfl, rfl⟩

/-- Instance of `usbiSetConfig_result`: in the state Addressed, with the callback that
accepts the index 1 only, `usbiSetConfig(1)` ends in Configured and `usbiSetConfig(2)`
returns `USB_EBADPARM` with the state Addressed. -/
theorem usbiSetConfig_result_witness :
    ((usbiSetConfig Env.sample
        { UsbSystem.blank with drv := { UsbDriver.blank with
            state := usbState.USB_ST_ADDRESSED,
            userCallbacks := fun i => if i = 0 then 7 else 0 } } 1).1 = USB_SUCCESS ∧
      (usbiSetConfig Env.sample
        { UsbSystem.blank with drv := { UsbDriver.blank with
            state := usbState.USB_ST_ADDRESSED,
            userCallbacks := fun i => if i = 0 then 7 else 0 } } 1).2.drv.state
        = usbState.USB_ST_CONFIGURED) ∧
    ((usbiSetConfig Env.sample
        { UsbSystem.blank with drv := { UsbDriver.blank with
            state := usbState.USB_ST_ADDRESSED,
            userCallbacks := fun i => if i = 0 then 7 else 0 } } 2).1 = USB_EBADPARM ∧
      (usbiSetConfig Env.sample
        { UsbSystem.blank with drv := { UsbDriver.blank with
            state := usbState.USB_ST_ADDRESSED,
            userCallbacks := fun i => if i = 0 then 7 else 0 } } 2).2.drv.state
        = usbState.USB_ST_ADDRESSED) :=
  ⟨((usbiSetConfig_result Env.sample
      { UsbSystem.blank with drv := { UsbDriver.blank with
          state := usbState.USB_ST_ADDRESSED,
          userCallbacks := fun i => if i = 0 then 7 else 0 } } 1 (by decide)).2
      (Or.inl rfl)).2.2.1 (by decide) (by decide),
    by decide⟩

/-- Claim C30: with the EP0 OUT BD set up and CPU-owned on entry, `usbCtlHandleOut`
returns with that BD stalled, its count reset to the size `n` that `usbBdGetSize` gives,
and handed to the SIE. The control state becomes Setup when it was Data with direction
In, and when it was Status with direction In and the received size is 0; in every other
case it stays as it was. The rest of `ctlState`, the pending address included, the
device state and the address register stay as they were. -/
theorem usbCtlHandleOut_result (fuel : Nat) (u : Locals) (s : UsbSystem) (n : Int)
    (hout : s.ctl.outHandle = 0) (hown : (s.drv.bd.usbBdt 0).stat.UOWN = false)
    (haddr : (s.drv.bd.usbBdt 0).addr ≠ 0) (hn : usbBdGetSize fuel s.drv.bd 0 = some n) :
    ∃ s', usbCtlHandleOut fuel u s = some s' ∧
      s'.drv.bd = s.drv.bd.setBd 0 (bdHandOver (s.drv.bd.usbBdt 0) n true) ∧
      (s'.drv.bd.usbBdt 0).stat.BSTALL = true ∧ (s'.drv.bd.usbBdt 0).stat.UOWN = true ∧
      (0 ≤ n → n < 1024 → (s'.drv.bd.count 0 : Int) = n) ∧
      s'.ctl.state =
        (if (s.ctl.state = .USB_CTL_DATA ∧ s.ctl.dir = .USB_CTL_DIR_IN) ∨
            (s.ctl.state = .USB_CTL_STATUS ∧ s.ctl.dir = .USB_CTL_DIR_IN ∧
              0 = i16 ((s.drv.bd.usbBdt 0).cnt + ((s.drv.bd.usbBdt 0).stat.BC : Int) * 256))
          then .USB_CTL_SETUP else s.ctl.state) ∧
      s'.ctl.dir = s.ctl.dir ∧ s'.ctl.newAddress = s.ctl.newAddress ∧
      s'.ctl.dataPtr = s.ctl.dataPtr ∧ s'.ctl.bytesToTransfer = s.ctl.bytesToTransfer ∧
      s'.ctl.powerState = s.ctl.powerState ∧ s'.ram = s.ram ∧
      s'.drv.state = s.drv.state ∧ s'.drv.UADDR = s.drv.UADDR :=
  usbCtlHandleOut_eq fuel u s n hout hown haddr hn

/-- Instance of `usbCtlHandleOut_result`: the Status stage of a control read, ended by
an OUT packet of length zero: the control state returns to Setup and the OUT BD is
stalled with its count back at 8. -/
theorem usbCtlHandleOut_result_witness :
    ∃ s', usbCtlHandleOut 1 Locals.zero
        (sieOutDone { UsbSystem.afterReset with ctl := { UsbSystem.afterReset.ctl with
          state := .USB_CTL_STATUS, dir := .USB_CTL_DIR_IN } } 0) = some s' ∧
      (s'.drv.bd.usbBdt 0).stat.BSTALL = true ∧ (s'.drv.bd.usbBdt 0).stat.UOWN = true ∧
      (s'.drv.bd.count 0 : Int) = 8 ∧ s'.ctl.state = .USB_CTL_SETUP :=
  (usbCtlHandleOut_result 1 Locals.zero
    (sieOutDone { UsbSystem.afterReset with ctl := { UsbSystem.afterReset.ctl with
      state := .USB_CTL_STATUS, dir := .USB_CTL_DIR_IN } } 0) 8 (by decide) (by decide)
    (by decide) (by decide)).imp
    fun _ hx => ⟨hx.1, hx.2.2.1, hx.2.2.2.1, hx.2.2.2.2.1 (by decide) (by decide),
      hx.2.2.2.2.2.1.trans (by decide)⟩

/-- Claim C21, on the code: for a GET_DESCRIPTOR packet whose first matching entry is
`e`, `usbCtlGetDescriptor` stores the smaller of `(int)length` and `e.totalSize`, where
the cast reads the 16-bit length as a signed number: for a length below 32768 this is
the smaller of the length and `totalSize`, for a length from 32768 on it is negative.
With the descriptors of `descriptors.c` the SETUP packet 80 06 00 01 00 00 FF FF (length
65535) gives `bytesToTransfer` = -1, and `usbCtlHandleTransaction` then arms the IN BD
of 8 bytes with a count of 1023. -/
theorem getDescriptor_signed_length :
    (∀ (env : Env) (t : UsbSystem) (p : usbCtlSetupPacket) (i : Nat) (e : usbCtlDescriptor),
      env.usbCtlDescriptorList[i]? = some e →
      (e.type = p.data / 256 % 256 ∧ e.index = p.data % 256) →
      (∀ j e', j < i → env.usbCtlDescriptorList[j]? = some e' →
        ¬ (e'.type = p.data / 256 % 256 ∧ e'.index = p.data % 256)) →
      p.length < 65536 →
      (usbCtlGetDescriptor env t p).2.ctl.bytesToTransfer
        = (if p.length < 32768 then min (p.length : Int) e.totalSize
           else min ((p.length : Int) - 65536) e.totalSize) ∧
      (32768 ≤ p.length → (usbCtlGetDescriptor env t p).2.ctl.bytesToTransfer < 0)) ∧
    (setupPacketOf [0x80, 6, 0, 1, 0, 0, 0xFF, 0xFF]).length = 65535 ∧
    (usbCtlGetDescriptor Env.sample UsbSystem.afterReset
        (setupPacketOf [0x80, 6, 0, 1, 0, 0, 0xFF, 0xFF])).1 = USB_SUCCESS ∧
    (usbCtlGetDescriptor Env.sample UsbSystem.afterReset
        (setupPacketOf [0x80, 6, 0, 1, 0, 0, 0xFF, 0xFF])).2.ctl.bytesToTransfer = -1 ∧
    ((usbCtlHandleTransaction 1 Env.sample Locals.zero
        (sieSetup UsbSystem.afterReset [0x80, 6, 0, 1, 0, 0, 0xFF, 0xFF]) 0).map fun r =>
      (r.1, r.2.ctl.bytesToTransfer, r.2.drv.bd.count 1, (r.2.drv.bd.usbBdt 1).stat.UOWN))
      = some (USB_SUCCESS, -1, 1023, true) := by
  refine ⟨?_, by decide, by decide, by decide, by decide⟩
  intro env t p i e h1 h2 h3 hlen
  have hb : (usbCtlGetDescriptor env t p).2.ctl.bytesToTransfer
      = MIN (i16 p.length) e.totalSize := by
    unfold usbCtlGetDescriptor
    dsimp only
    rw [getDescriptorLoop_first t p _ _ env.usbCtlDescriptorList i e h1 h2 h3]
  rw [hb]
  unfold MIN i16
  constructor
  · split_ifs <;> omega
  · intro hbig
    split_ifs <;> omega

theorem usbBdStall_bits (fuel : Nat) (b : BdState) (h : Nat) (r : usbError × BdState)
    (hh : h < 32) (hr : usbBdStall fuel b h = some r) :
    (r.2.usbBdt h).stat.UOWN = true ∧
      (r.2.usbBdt h).stat.BSTALL = ((b.usbBdt h).stat.BSTALL || !(b.usbBdt h).stat.UOWN) ∧
      (∀ k, k ≠ h → r.2.usbBdt k = b.usbBdt k) ∧
      (r.1 = USB_SUCCESS ↔ (b.usbBdt h).stat.UOWN = false) := by
  cases hu : (b.usbBdt h).stat.UOWN with
  | true =>
    rw [usbBdStall_sie fuel b h hh hu] at hr
    cases hr
    exact ⟨hu, by simp, fun _ _ => rfl, by simp⟩
  | false =>
    cases hn : usbBdGetSize fuel b h with
    | none =>
      rw [usbBdStall_none fuel b h hh hu hn] at hr
      cases hr
    | some n =>
      rw [usbBdStall_cpu fuel b h n hh hu hn] at hr
      cases hr
      refine ⟨?_, ?_, ?_, by simp⟩
      · show ((b.setBd h _).usbBdt h).stat.UOWN = true
        rw [setBd_same]; rfl
      · show ((b.setBd h _).usbBdt h).stat.BSTALL = _
        rw [setBd_same]; simp [bdHandOver]
      · intro k hk
        exact setBd_other b h k _ hk

theorem usbCtlInit_eq (fuel : Nat) (env : Env) (s s' : UsbSystem)
    (h : usbCtlInit fuel env s = some s') :
    ∃ r0 r1, usbBdStall fuel s.drv.bd 0 = some r0 ∧ usbBdStall fuel r0.2 1 = some r1 ∧
      s'.drv.bd = r1.2 ∧
      s'.ctl = { s.ctl with state := .USB_CTL_SETUP, dataPtr := 0, bytesToTransfer := 0,
                            newAddress := 0, outHandle := 0, inHandle := 1 } := by
  have e0 : (usbBdGetHandleForEndpoint 0 USB_ED_OUT s.ctl.outHandle).2 = 0 := by
    rw [getHandle_of_lt 0 USB_ED_OUT _ (by decide)]; rfl
  have e1 : (usbBdGetHandleForEndpoint 0 USB_ED_IN s.ctl.inHandle).2 = 1 := by
    rw [getHandle_of_lt 0 USB_ED_IN _ (by decide)]; rfl
  unfold usbCtlInit at h
  dsimp only at h
  rw [e0, e1] at h
  simp only [Option.bind_eq_some] at h
  obtain ⟨r0, hr0, r1, hr1, he⟩ := h
  cases he
  exact ⟨r0, r1, hr0, hr1, rfl, rfl⟩

theorem chain_sum (tbl : Nat → usbBd) (log : List (Nat × Nat)) :
    ∀ a e, Chain tbl a log e → e = a + (log.map Prod.snd).sum := by
  induction log with
  | nil => intro a e hc; simpa using hc.symm
  | cons q rest ih =>
    intro a e hc
    obtain ⟨_, _, h3⟩ := hc
    have := ih _ _ h3
    simp only [List.map_cons, List.sum_cons]
    omega

/-! ## Theorems on the claims C31 and C32 -/

/-- Claim C31, on the code: whenever `usbCtlInit` returns, the control state is Setup,
the pending address is 0, the power state is as it was, the cached handles are 0 and 1
and both EP0 BDs are SIE-owned; `BSTALL` is set on a BD that was CPU-owned on entry and
is left as it was on a BD that was SIE-owned on entry, because `usbBdStall` returns
`USB_EACCESS` for it and `usbCtlInit` ignores the result. `usbCtlInit` returns when
`usbBdGetSize` returns for both BDs. After `usbInit`, Attached, Reset and the SETUP
packet 80 06 00 01 00 00 12 00 both EP0 BDs are armed (SIE-owned, `BSTALL` clear), and the
event Reset, which calls `usbCtlInit`, leaves both with `BSTALL` clear. -/
theorem usbCtlInit_result :
    (∀ (fuel : Nat) (env : Env) (s s' : UsbSystem), usbCtlInit fuel env s = some s' →
      s'.ctl.state = .USB_CTL_SETUP ∧ s'.ctl.newAddress = 0 ∧
      s'.ctl.powerState = s.ctl.powerState ∧ s'.ctl.outHandle = 0 ∧ s'.ctl.inHandle = 1 ∧
      ∀ h, h = 0 ∨ h = 1 →
        (s'.drv.bd.usbBdt h).stat.UOWN = true ∧
        (s'.drv.bd.usbBdt h).stat.BSTALL
          = ((s.drv.bd.usbBdt h).stat.BSTALL || !(s.drv.bd.usbBdt h).stat.UOWN)) ∧
    (∀ (fuel : Nat) (env : Env) (s : UsbSystem) (n0 n1 : Int),
      usbBdGetSize fuel s.drv.bd 0 = some n0 → usbBdGetSize fuel s.drv.bd 1 = some n1 →
      ∃ s', usbCtlInit fuel env s = some s') ∧
    (usbCtlHandleTransaction 1 Env.sample Locals.zero
        (sieSetup UsbSystem.afterReset [0x80, 6, 0, 1, 0, 0, 0x12, 0]) 0).map Prod.fst
      = some USB_SUCCESS ∧
    ((UsbSystem.afterGetDescriptor.drv.bd.usbBdt 0).addr,
      (UsbSystem.afterGetDescriptor.drv.bd.usbBdt 0).stat.UOWN,
      (UsbSystem.afterGetDescriptor.drv.bd.usbBdt 0).stat.BSTALL,
      (UsbSystem.afterGetDescriptor.drv.bd.usbBdt 1).addr,
      (UsbSystem.afterGetDescriptor.drv.bd.usbBdt 1).stat.UOWN,
      (UsbSystem.afterGetDescriptor.drv.bd.usbBdt 1).stat.BSTALL)
      = (0x500, true, false, 0x508, true, false) ∧
    ((usbCtlInit 1 Env.sample UsbSystem.afterGetDescriptor).map fun t =>
      (t.ctl.state, (t.drv.bd.usbBdt 0).stat.BSTALL, (t.drv.bd.usbBdt 0).stat.UOWN,
        (t.drv.bd.usbBdt 1).stat.BSTALL, (t.drv.bd.usbBdt 1).stat.UOWN))
      = some (.USB_CTL_SETUP, false, true, false, true) ∧
    ((dispatch 1 Env.sample Locals.zero UsbSystem.afterGetDescriptor USB_EV_RESET).map
      fun r => (r.1, r.2.ctl.state, (r.2.drv.bd.usbBdt 0).stat.BSTALL,
        (r.2.drv.bd.usbBdt 1).stat.BSTALL))
      = some (USB_SUCCESS, .USB_CTL_SETUP, false, false) := by
  refine ⟨?_, ?_, by decide, by decide, by decide, by decide⟩
  · intro fuel env s s' h
    obtain ⟨r0, r1, h0, h1, hbd, hctl⟩ := usbCtlInit_eq fuel env s s' h
    obtain ⟨a1, a2, a3, _⟩ := usbBdStall_bits fuel s.drv.bd 0 r0 (by decide) h0
    obtain ⟨b1, b2, b3, _⟩ := usbBdStall_bits fuel r0.2 1 r1 (by decide) h1
    refine ⟨by rw [hctl], by rw [hctl], by rw [hctl], by rw [hctl], by rw [hctl], ?_⟩
    intro k hk
    rw [hbd]
    rcases hk with rfl | rfl
    · rw [b3 0 (by decide)]
      exact ⟨a1, a2⟩
    · rw [b2, a3 1 (by decide)]
      exact ⟨b1, rfl⟩
  · intro fuel env s n0 n1 h0 h1
    exact usbCtlInit_returns fuel env s n0 n1 h0 h1

/-- Claim C32: after `usbBdInit` and any sequence of `usbBdSetup` calls, with any
endpoint numbers, directions and sizes, the calls all return and, with the log of the
handles and sizes of the calls that returned `USB_SUCCESS`: `endOfAllocatedBuffer` lies
in [0x500, 0x500 + 0x300] and equals 0x500 plus the sum of the logged sizes; the
allocated BDs are those of the log, each logged once; the buffer of each starts at or
above 0x500, has a positive size and ends at or below `endOfAllocatedBuffer`; and the
buffers of two different allocated BDs do not overlap. -/
theorem usbBdSetup_arena (fuel : Nat) (s0 : BdState) (calls : List SetupCall) :
    ∃ s log, runSetups (fuel + 1) (usbBdInit s0, []) calls = some (s, log) ∧
      USB_CFG_ENDPOINT_BUFFER_ORIGIN ≤ s.endOfAllocatedBuffer ∧
      s.endOfAllocatedBuffer ≤ USB_CFG_ENDPOINT_BUFFER_ORIGIN + USB_CFG_ENDPOINT_BUFFER_SIZE ∧
      s.endOfAllocatedBuffer = 0x500 + (log.map Prod.snd).sum ∧
      (log.map Prod.fst).Pairwise (· < ·) ∧
      (∀ h, h < USB_CFG_NUM_BDS → (s.addrOf h ≠ 0 ↔ h ∈ log.map Prod.fst)) ∧
      (∀ p ∈ log, 0 < p.2 ∧ 0x500 ≤ s.addrOf p.1 ∧
        s.addrOf p.1 + p.2 ≤ s.endOfAllocatedBuffer ∧ s.addrOf p.1 + p.2 ≤ 0x500 + 0x300) ∧
      (∀ p ∈ log, ∀ q ∈ log, p.1 ≠ q.1 →
        s.addrOf p.1 + p.2 ≤ s.addrOf q.1 ∨ s.addrOf q.1 + q.2 ≤ s.addrOf p.1) := by
  obtain ⟨s, log, hrun, hinv⟩ := runSetups_inv fuel calls _ _ (setupInv_init s0)
  have harena := hinv.arena
  refine ⟨s, log, hrun, harena.1, harena.2, chain_sum _ _ _ _ hinv.chain, hinv.sorted,
    hinv.alloc, ?_, ?_⟩
  · intro p hp
    have h1 := chain_positive _ _ _ _ hinv.chain p hp
    have h2 := chain_lower _ _ _ _ hinv.chain p hp
    have h3 := chain_upper _ _ _ _ hinv.chain p hp
    have h4 := harena.2
    unfold USB_CFG_ENDPOINT_BUFFER_ORIGIN at h2 h4
    unfold USB_CFG_ENDPOINT_BUFFER_SIZE at h4
    exact ⟨h1, h2, h3, by unfold BdState.addrOf; omega⟩
  · intro p hp q hq hne
    rcases Nat.lt_or_gt_of_ne hne with hlt | hgt
    · exact Or.inl (setupInv_ordered s log hinv p q hp hq hlt)
    · exact Or.inr (setupInv_ordered s log hinv q p hq hp hgt)

/-- Instance of `usbBdSetup_arena`: the two calls of `usbInit`, then
`usbBdSetup(1, USB_ED_OUT, 65535)`, which is refused, `usbBdSetup(1, USB_ED_OUT, 0x2F0)`,
which takes the rest of the arena, and `usbBdSetup(1, USB_ED_IN, 1)`, which is refused:
the sizes allocated are 8, 8 and 0x2F0 and `endOfAllocatedBuffer` is 0x800. -/
theorem usbBdSetup_arena_witness :
    ∃ s log, runSetups 1 (usbBdInit BdState.blank, [])
        [⟨0, USB_ED_OUT, 8⟩, ⟨0, USB_ED_IN, 8⟩, ⟨1, USB_ED_OUT, 65535⟩,
          ⟨1, USB_ED_OUT, 0x2F0⟩, ⟨1, USB_ED_IN, 1⟩] = some (s, log) ∧
      log = [(0, 8), (1, 8), (2, 0x2F0)] ∧ s.endOfAllocatedBuffer = 0x800 := by
  obtain ⟨s, log, hrun, _, _, hsum, _⟩ :=
    usbBdSetup_arena 0 BdState.blank
      [⟨0, USB_ED_OUT, 8⟩, ⟨0, USB_ED_IN, 8⟩, ⟨1, USB_ED_OUT, 65535⟩,
        ⟨1, USB_ED_OUT, 0x2F0⟩, ⟨1, USB_ED_IN, 1⟩]
  have hlog : (runSetups 1 (usbBdInit BdState.blank, [])
      [⟨0, USB_ED_OUT, 8⟩, ⟨0, USB_ED_IN, 8⟩, ⟨1, USB_ED_OUT, 65535⟩,
        ⟨1, USB_ED_OUT, 0x2F0⟩, ⟨1, USB_ED_IN, 1⟩]).map Prod.snd
      = some [(0, 8), (1, 8), (2, 0x2F0)] := by decide
  rw [hrun] at hlog
  have hl : log = [(0, 8), (1, 8), (2, 0x2F0)] := Option.some.inj hlog
  refine ⟨s, log, hrun, hl, ?_⟩
  rw [hsum, hl]
  rfl

end Pic18Usb
